import Mathlib

/-!
A verification development for the SPDX build-tool core: the RDF writer
(graph construction, license flattening, extracted-license deduplication,
file-dependency resolution), the validating document builders, the
tag-value parser SPDXID dispatch, the package verification code, and
snippet validation.  Definitions are shallow embeddings of the Python
source in `python_scripts/`.
-/

namespace SpdxTool

/-! ## RDF graph model

`rdflib` terms: URI references, blank nodes and literals.  Blank nodes are
modelled by an allocation counter (each `BNode()` call yields a fresh
index).  A plain literal compares equal to its string value in rdflib, so
a literal is modelled by its string.  A `Graph` is a list of triples with
set semantics: `addTriple` ignores a triple that is already present.
-/

inductive Node where
  | uri (s : String)
  | blank (n : Nat)
  | lit (s : String)
deriving DecidableEq, Repr

structure Triple where
  subj : Node
  pred : String
  obj : Node
deriving DecidableEq, Repr

abbrev Graph := List Triple

def addTriple (g : Graph) (t : Triple) : Graph :=
  if t ∈ g then g else g ++ [t]

def spdxNs : String := "http://spdx.org/rdf/terms#"

def rdfTypePred : String := "http://www.w3.org/1999/02/22-rdf-syntax-ns#type"

def rdfsCommentPred : String := "http://www.w3.org/2000/01/rdf-schema#comment"

def rdfsSeeAlsoPred : String := "http://www.w3.org/2000/01/rdf-schema#seeAlso"

def licenseIdPred : String := spdxNs ++ "licenseId"

def extractedTextPred : String := spdxNs ++ "extractedText"

def licenseNamePred : String := spdxNs ++ "licenseName"

def memberPred : String := spdxNs ++ "member"

def fileNamePred : String := spdxNs ++ "fileName"

def fileDependencyPred : String := spdxNs ++ "fileDependency"

/-- Values that may sit in license-ish fields: `utils.NoAssert`,
`utils.SPDXNone` or a plain string. -/
inductive SpecialValue where
  | noAssert
  | spdxNone
  | str (s : String)
deriving DecidableEq, Repr

/-- `BaseWriter.to_special_value` from `spdx/writers/rdf.py`. -/
def to_special_value : SpecialValue → Node
  | .noAssert => .uri (spdxNs ++ "noassertion")
  | .spdxNone => .uri (spdxNs ++ "none")
  | .str s => .lit s

/-! ## Extracted licenses and `create_extracted_license` -/

/-- `spdx.document.ExtractedLicense` data used by the RDF writer. -/
structure ExtractedLicense where
  identifier : String
  text : String
  full_name : Option SpecialValue
  cross_ref : List String
  comment : Option String
deriving DecidableEq, Repr

/-- The `else` branch of `LicenseWriter.create_extracted_license`, split
into the successive `graph.add` calls: type triple, `licenseId` triple,
`extractedText` triple, then the optional and repeated triples below. -/
def addNameTriple (cnt : Nat) (fn : Option SpecialValue) (g : Graph) : Graph :=
  match fn with
  | none => g
  | some nm => addTriple g ⟨.blank cnt, licenseNamePred, to_special_value nm⟩

def addCommentTriple (cnt : Nat) (c : Option String) (g : Graph) : Graph :=
  match c with
  | none => g
  | some c => addTriple g ⟨.blank cnt, rdfsCommentPred, .lit c⟩

def addSeeAlsoTriples (cnt : Nat) (refs : List String) (g : Graph) : Graph :=
  refs.foldl (fun g r => addTriple g ⟨.blank cnt, rdfsSeeAlsoPred, .uri r⟩) g

def create_extracted_license_fresh (g : Graph) (cnt : Nat) (lic : ExtractedLicense) : Graph :=
  addCommentTriple cnt lic.comment
    (addSeeAlsoTriples cnt lic.cross_ref
      (addNameTriple cnt lic.full_name
        (addTriple
          (addTriple
            (addTriple g ⟨.blank cnt, rdfTypePred, .uri (spdxNs ++ "ExtractedLicensingInfo")⟩)
            ⟨.blank cnt, licenseIdPred, .lit lic.identifier⟩)
          ⟨.blank cnt, extractedTextPred, .lit lic.text⟩)))

/-- `LicenseWriter.create_extracted_license` from `spdx/writers/rdf.py`:
look the license up by its `licenseId` triple; if some triple matches,
return the subject of the first match and leave the graph alone, otherwise
create a fresh blank node carrying the license data.  Returns the node,
the new graph and the new blank-node counter. -/
def create_extracted_license (g : Graph) (cnt : Nat) (lic : ExtractedLicense) :
    Node × Graph × Nat :=
  match g.filter (fun t => t.pred == licenseIdPred && t.obj == Node.lit lic.identifier) with
  | t :: _ => (t.subj, g, cnt)
  | [] => (.blank cnt, create_extracted_license_fresh g cnt lic, cnt + 1)

/-! ## Builder model

Error kinds raised by builder operations
(`spdx/parsers/builderexceptions.py`), plus `attrError` marking the place
where the Python code would dereference a missing entity and die with an
`AttributeError` or `IndexError`.  Python exceptions do not roll back
prior mutations, so every setter returns the final builder state, the
final document and an optional raised error.
-/

inductive BuildErr where
  | cardinality (field : String)
  | value (field : String)
  | order (field : String)
  | attrError
deriving DecidableEq, Repr

/-- `spdx.checksum.Algorithm`. -/
structure Algorithm where
  identifier : String
  value : String
deriving DecidableEq, Repr

structure VersionRec where
  major : Nat
  minor : Nat
deriving DecidableEq, Repr

structure BFile where
  spdx_id : Option String
  chk_sum : Option Algorithm
deriving DecidableEq, Repr

structure BPackage where
  check_sum : Option Algorithm
  files : List BFile
deriving DecidableEq, Repr

structure BSnippet where
  license_comment : Option String
  comment : Option String
deriving DecidableEq, Repr

/-- The parts of `spdx.document.Document` the builder claims touch. -/
structure BDoc where
  version : Option VersionRec
  spdx_id : Option String
  package : Option BPackage
  snippet : List BSnippet
deriving DecidableEq, Repr

/-- The per-field already-set flags of the mixed-in builder classes. -/
structure BuilderState where
  doc_version_set : Bool
  doc_spdx_id_set : Bool
  package_chk_sum_set : Bool
  file_chksum_set : Bool
  file_spdx_id_set : Bool
  snippet_lic_comment_set : Bool
  snippet_comment_set : Bool
deriving DecidableEq, Repr

/-- All flags clear: the state after `Builder.reset`. -/
def initState : BuilderState :=
  ⟨false, false, false, false, false, false, false⟩

/-- A document with nothing built yet. -/
def emptyDoc : BDoc :=
  ⟨none, none, none, []⟩

abbrev BResult := BuilderState × BDoc × Option BuildErr

/-- Modelled from the spec: `tagvaluebuilders.PackageBuilder.assert_package_exists`
(`spdx/parsers/tagvaluebuilders.py` is not in the source tree).  Spec 4.4
step 1: a package-level setter first asserts that the package exists and
signals an OrderError naming the missing predecessor otherwise. -/
def assert_package_exists (doc : BDoc) : Option BuildErr :=
  match doc.package with
  | some _ => none
  | none => some (.order "Package")

/-- Modelled from the spec: `tagvaluebuilders.FileBuilder.has_package` —
whether the document already owns a package (spec 4.4 step 1). -/
def has_package (doc : BDoc) : Bool :=
  doc.package.isSome

/-- Modelled from the spec: `tagvaluebuilders.FileBuilder.has_file` —
whether the current package already owns at least one file. -/
def has_file (doc : BDoc) : Bool :=
  match doc.package with
  | some p => !p.files.isEmpty
  | none => false

/-- Modelled from the spec: `tagvaluebuilders.SnippetBuilder.assert_snippet_exists`
— OrderError when no snippet has been created yet. -/
def assert_snippet_exists (doc : BDoc) : Option BuildErr :=
  if doc.snippet.isEmpty then some (.order "Snippet") else none

/-- Mutate the most recently created file (`self.file(doc)`, i.e.
`doc.package.files[-1]`); `attrError` when the entity is missing. -/
def updateLastFile (doc : BDoc) (f : BFile → BFile) : BDoc × Option BuildErr :=
  match doc.package with
  | none => (doc, some .attrError)
  | some p =>
    match p.files.getLast? with
    | none => (doc, some .attrError)
    | some fl => ({doc with package := some {p with files := p.files.dropLast ++ [f fl]}}, none)

/-- Mutate the most recently created snippet (`doc.snippet[-1]`). -/
def updateLastSnippet (doc : BDoc) (f : BSnippet → BSnippet) : BDoc × Option BuildErr :=
  match doc.snippet.getLast? with
  | none => (doc, some .attrError)
  | some s => ({doc with snippet := doc.snippet.dropLast ++ [f s]}, none)

def digitsToNat (ds : List Char) : Nat :=
  ds.foldl (fun n c => n * 10 + (c.toNat - 48)) 0

/-- `DocBuilder.VERS_STR_REGEX.match(value)` from
`spdx/parsers/rdfbuilders.py`: the pattern `SPDX-(\d+)\.(\d+)` anchored at
the start of the string, returning the two captured numbers. -/
def VERS_STR_REGEX_match (value : String) : Option (Nat × Nat) :=
  if value.startsWith "SPDX-" then
    let rest := (value.drop 5).toList
    let d1 := rest.takeWhile Char.isDigit
    if d1.isEmpty then none
    else
      match rest.dropWhile Char.isDigit with
      | '.' :: rest2 =>
        let d2 := rest2.takeWhile Char.isDigit
        if d2.isEmpty then none
        else some (digitsToNat d1, digitsToNat d2)
      | _ => none
  else none

/-- `DocBuilder.set_doc_version` from `spdx/parsers/rdfbuilders.py`.  The
source sets `self.doc_version_set = True` before matching the value
against `VERS_STR_REGEX`, so the flag survives a `SPDXValueError`. -/
def set_doc_version (st : BuilderState) (doc : BDoc) (value : String) : BResult :=
  if !st.doc_version_set then
    let st := {st with doc_version_set := true}
    match VERS_STR_REGEX_match value with
    | none => (st, doc, some (.value "Document::Version"))
    | some (ma, mi) => (st, {doc with version := some ⟨ma, mi⟩}, none)
  else (st, doc, some (.cardinality "Document::Version"))

/-- `DocBuilder.set_doc_spdx_id` from `spdx/parsers/rdfbuilders.py`.  The
validator `validations.validate_doc_spdx_id` lives in a file outside the
source tree and is taken as a parameter. -/
def set_doc_spdx_id (valid : String → Bool) (st : BuilderState) (doc : BDoc)
    (doc_spdx_id_line : String) : BResult :=
  if !st.doc_spdx_id_set then
    if valid doc_spdx_id_line then
      ({st with doc_spdx_id_set := true}, {doc with spdx_id := some doc_spdx_id_line}, none)
    else (st, doc, some (.value "Document::SPDXID"))
  else (st, doc, some (.cardinality "Document::SPDXID"))

/-- `PackageBuilder.set_pkg_chk_sum` from `spdx/parsers/rdfbuilders.py`:
assert the package exists, then the cardinality flag, then store an
`Algorithm("SHA1", value)` on the package. -/
def set_pkg_chk_sum (st : BuilderState) (doc : BDoc) (chk_sum : String) : BResult :=
  match assert_package_exists doc with
  | some e => (st, doc, some e)
  | none =>
    if !st.package_chk_sum_set then
      let st := {st with package_chk_sum_set := true}
      match doc.package with
      | none => (st, doc, some .attrError)
      | some p =>
        (st, {doc with package := some {p with check_sum := some ⟨"SHA1", chk_sum⟩}}, none)
    else (st, doc, some (.cardinality "Package::CheckSum"))

/-- `FileBuilder.set_file_chksum` from `spdx/parsers/rdfbuilders.py`:
guarded by `has_package` and `has_file`; OrderError otherwise. -/
def set_file_chksum (st : BuilderState) (doc : BDoc) (chk_sum : String) : BResult :=
  if has_package doc && has_file doc then
    if !st.file_chksum_set then
      let st := {st with file_chksum_set := true}
      let (doc, e) := updateLastFile doc (fun f => {f with chk_sum := some ⟨"SHA1", chk_sum⟩})
      (st, doc, e)
    else (st, doc, some (.cardinality "File::CheckSum"))
  else (st, doc, some (.order "File::CheckSum"))

/-- `SnippetBuilder.set_snippet_lic_comment` from
`spdx/parsers/rdfbuilders.py`.  In the already-set branch the source
evaluates `CardinalityError(...)` without a `raise` statement, so the
call constructs the exception object, discards it and returns normally:
the embedding returns no error there. -/
def set_snippet_lic_comment (st : BuilderState) (doc : BDoc) (lic_comment : String) : BResult :=
  match assert_snippet_exists doc with
  | some e => (st, doc, some e)
  | none =>
    if !st.snippet_lic_comment_set then
      let st := {st with snippet_lic_comment_set := true}
      let (doc, e) := updateLastSnippet doc (fun s => {s with license_comment := some lic_comment})
      (st, doc, e)
    else (st, doc, none)

/-- `SnippetBuilder.set_snippet_comment` from `spdx/parsers/rdfbuilders.py`
(this one does raise its CardinalityError). -/
def set_snippet_comment (st : BuilderState) (doc : BDoc) (comment : String) : BResult :=
  match assert_snippet_exists doc with
  | some e => (st, doc, some e)
  | none =>
    if !st.snippet_comment_set then
      let st := {st with snippet_comment_set := true}
      let (doc, e) := updateLastSnippet doc (fun s => {s with comment := some comment})
      (st, doc, e)
    else (st, doc, some (.cardinality "Snippet::comment"))

/-- Total last-file update, usable once `has_file` has been checked. -/
def updateLastFileD (doc : BDoc) (f : BFile → BFile) : BDoc :=
  (updateLastFile doc f).1

/-- Modelled from the spec: `tagvaluebuilders.FileBuilder.set_file_spdx_id`
(`spdx/parsers/tagvaluebuilders.py` is not in the source tree).  Spec 4.4:
assert the predecessor file exists (OrderError), assert the field unset
(CardinalityError), validate the shape (ValueError), then store the value
on the current focus file; the document identifier is untouched. -/
def set_file_spdx_id (valid : String → Bool) (st : BuilderState) (doc : BDoc)
    (value : String) : BResult :=
  if has_package doc && has_file doc then
    if !st.file_spdx_id_set then
      if valid value then
        ({st with file_spdx_id_set := true},
          updateLastFileD doc (fun f => {f with spdx_id := some value}), none)
      else (st, doc, some (.value "File::SPDXID"))
    else (st, doc, some (.cardinality "File::SPDXID"))
  else (st, doc, some (.order "File::SPDXID"))

/-- `Parser.p_spdx_id` from `spdx/parsers/tagvalue.py`: the first SPDXID
line goes to `set_doc_spdx_id` while `doc_spdx_id_set` is still clear;
afterwards SPDXID lines go to `set_file_spdx_id`. -/
def p_spdx_id (dvalid fvalid : String → Bool) (st : BuilderState) (doc : BDoc)
    (value : String) : BResult :=
  if !st.doc_spdx_id_set then set_doc_spdx_id dvalid st doc value
  else set_file_spdx_id fvalid st doc value

/-- Run `p_spdx_id` over a whole pass of SPDXID lines. -/
def p_spdx_id_all (dvalid fvalid : String → Bool) :
    List String → BuilderState → BDoc → BuilderState × BDoc
  | [], st, doc => (st, doc)
  | v :: vs, st, doc =>
    let r := p_spdx_id dvalid fvalid st doc v
    p_spdx_id_all dvalid fvalid vs r.1 r.2.1

/-! ## Package verification code (`core.py`, `utils.py`)

Hashing file contents is I/O and is a collaborator per spec 1; it is
modelled by a `content` parameter (the bytes of a file) composed with the
`sha1hex` parameter (the hex digest `hashlib.sha1(...).hexdigest()`), so
that the per-file checksum and the verification code visibly use the same
digest algorithm.
-/

def FILES_TO_EXCLUDE : List String := ["VERSION", "LICENSE"]

/-- Whether `needle` occurs contiguously in the character list. -/
def listContainsSub (needle : List Char) : List Char → Bool
  | [] => needle.isEmpty
  | c :: cs => needle.isPrefixOf (c :: cs) || listContainsSub needle cs

/-- The Python substring test `needle in hay`. -/
def strContains (hay needle : String) : Bool :=
  listContainsSub needle.toList hay.toList

/-- `utils.should_skip_file`: skip when any entry of `FILES_TO_EXCLUDE`
occurs in the path or the output file name occurs in the path. -/
def should_skip_file (file_path output_file : String) : Bool :=
  FILES_TO_EXCLUDE.any (fun item => strContains file_path item)
    || strContains file_path output_file

/-- `utils.get_file_hash`: SHA1 hex digest of the file content. -/
def get_file_hash (sha1hex content : String → String) (file_path : String) : String :=
  sha1hex (content file_path)

/-- `SPDXFile.get_package_verification_code` from `core.py`: hash each
non-skipped scan entry, sort the digests, concatenate and hash again. -/
def get_package_verification_code (sha1hex content : String → String)
    (id_scan_results : List String) (output_file_name : String) : String :=
  let templist := (id_scan_results.filter
    (fun item => !should_skip_file item output_file_name)).map (get_file_hash sha1hex content)
  sha1hex (String.join templist.mergeSort)

/-! ## Snippet validation (`spdx/snippet.py`)

`Snippet.validate` threads a `messages` argument that defaults to `None`;
each failed check evaluates `messages + [text]`, which in Python raises
`TypeError` when `messages` is `None`.  `Messages` is `Option (List
String)` and `TypeError` is the `Except Unit` error.
-/

abbrev Messages := Option (List String)

/-- `messages + [m]`: `TypeError` when `messages` is `None`. -/
def msgAppend (messages : Messages) (m : String) : Except Unit Messages :=
  match messages with
  | none => .error ()
  | some l => .ok (some (l ++ [m]))

/-- Python values that can sit in the license-ish snippet fields: a str,
a `document.License`, `utils.NoAssert`, `utils.SPDXNone`, or `None`. -/
inductive SnipFieldVal where
  | pyStr (s : String)
  | lic
  | noAssert
  | spdxNone
  | pyNone
deriving DecidableEq, Repr

/-- `isinstance(x, (six.string_types, six.text_type, utils.NoAssert, utils.SPDXNone))`. -/
def isStrLike : SnipFieldVal → Bool
  | .pyStr _ => true
  | .noAssert => true
  | .spdxNone => true
  | _ => false

/-- `isinstance(x, (document.License, utils.NoAssert, utils.SPDXNone))`. -/
def isLicLike : SnipFieldVal → Bool
  | .lic => true
  | .noAssert => true
  | .spdxNone => true
  | _ => false

/-- The fields of `spdx.snippet.Snippet` that `validate` inspects. -/
structure SnippetV where
  spdx_id : Option String
  copyright : SnipFieldVal
  snip_from_file_spdxid : Option String
  conc_lics : SnipFieldVal
  licenses_in_snippet : List SnipFieldVal
deriving DecidableEq, Repr

def validate_spdx_id (s : SnippetV) (messages : Messages) : Except Unit Messages :=
  match s.spdx_id with
  | none => msgAppend messages "Snippet has no SPDX Identifier."
  | some _ => .ok messages

def validate_copyright_text (s : SnippetV) (messages : Messages) : Except Unit Messages :=
  if !isStrLike s.copyright then
    msgAppend messages
      "Snippet copyright must be str or unicode or utils.NoAssert or utils.SPDXNone"
  else .ok messages

def validate_snip_from_file_spdxid (s : SnippetV) (messages : Messages) :
    Except Unit Messages :=
  match s.snip_from_file_spdxid with
  | none => msgAppend messages "Snippet has no Snippet from File SPDX Identifier."
  | some _ => .ok messages

def validate_concluded_license (s : SnippetV) (messages : Messages) : Except Unit Messages :=
  if !isLicLike s.conc_lics then
    msgAppend messages
      "Snippet Concluded License must be one of document.License, utils.NoAssert or utils.SPDXNone"
  else .ok messages

/-- The `for lic in self.licenses_in_snippet` loop. -/
def licLoop (lics : List SnipFieldVal) (messages : Messages) : Except Unit Messages :=
  match lics with
  | [] => .ok messages
  | l :: ls =>
    match (if !isLicLike l then
        msgAppend messages
          "Licenses in Snippet must be one of document.License, utils.NoAssert or utils.SPDXNone"
      else .ok messages) with
    | .error e => .error e
    | .ok messages => licLoop ls messages

def validate_licenses_in_snippet (s : SnippetV) (messages : Messages) :
    Except Unit Messages :=
  if s.licenses_in_snippet.length = 0 then
    msgAppend messages "Snippet must have at least one license in file."
  else licLoop s.licenses_in_snippet messages

/-- `Snippet.validate` from `spdx/snippet.py`: run the five field checks
in order, rebinding `messages`; a raised `TypeError` propagates. -/
def SnippetV.validate (s : SnippetV) (messages : Messages) : Except Unit Messages :=
  match validate_spdx_id s messages with
  | .error e => .error e
  | .ok messages =>
    match validate_copyright_text s messages with
    | .error e => .error e
    | .ok messages =>
      match validate_snip_from_file_spdxid s messages with
      | .error e => .error e
      | .ok messages =>
        match validate_concluded_license s messages with
        | .error e => .error e
        | .ok messages => validate_licenses_in_snippet s messages

/-- Whether all five checks of `Snippet.validate` pass. -/
def snippetChecksPass (s : SnippetV) : Bool :=
  s.spdx_id.isSome && isStrLike s.copyright && s.snip_from_file_spdxid.isSome
    && isLicLike s.conc_lics
    && (!s.licenses_in_snippet.isEmpty && s.licenses_in_snippet.all isLicLike)

/-! ## License expressions and the writer flattening (`spdx/writers/rdf.py`) -/

/-- Modelled from the spec: the static license catalog (spec secs. 2 and
6; `licenses.json` is a static resource outside the source tree),
restricted to the identifiers this development mentions. -/
def LICENSE_MAP : List String := ["MIT", "Apache-2.0", "BSD-3-Clause", "CC0-1.0"]

/-- Modelled from the spec: catalog licenses map to a fixed external URI
(spec 4.7); `document.License.url` derives it from the identifier. -/
def licenseUrl (identifier : String) : String :=
  "http://spdx.org/licenses/" ++ identifier

/-- `document.License` values as a closed sum (spec sec. 9): a catalog or
bare-identifier leaf, an extracted license, or a binary conjunction or
disjunction. -/
inductive LicenseExpr where
  | lic (identifier : String)
  | extracted (el : ExtractedLicense)
  | conj (license_1 license_2 : LicenseExpr)
  | disj (license_1 license_2 : LicenseExpr)
deriving DecidableEq, Repr

/-- Python `identifier.rstrip('+')`. -/
def rstripPlus (s : String) : String :=
  ⟨(s.toList.reverse.dropWhile (fun c => c = '+')).reverse⟩

/-- `LicenseWriter.create_license_helper`: an `ExtractedLicense` goes to
`create_extracted_license`; a catalog identifier becomes its URI; any
other identifier is looked up among the document's extracted licenses and
a miss raises `InvalidDocumentError`.  A conjunction or disjunction value
would hit the missing-attribute access `lic.identifier` in Python. -/
def create_license_helper (doc_extr : List ExtractedLicense) (g : Graph) (cnt : Nat) :
    LicenseExpr → Except String (Node × Graph × Nat)
  | .extracted el => .ok (create_extracted_license g cnt el)
  | .lic identifier =>
    if rstripPlus identifier ∈ LICENSE_MAP then
      .ok (.uri (licenseUrl identifier), g, cnt)
    else
      match doc_extr.filter (fun l => l.identifier == identifier) with
      | m :: _ => .ok (create_extracted_license g cnt m)
      | [] => .error ("Missing extracted license: " ++ identifier)
  | _ => .error "AttributeError"

/-- `licenses.add(...)`: Python set insertion. -/
def setAdd (lics : List Node) (n : Node) : List Node :=
  if n ∈ lics then lics else lics ++ [n]

/-- `LicenseWriter.licenses_from_tree_helper`: recurse into BOTH
conjunctions and disjunctions, collecting the leaf nodes into one set. -/
def licenses_from_tree_helper (doc_extr : List ExtractedLicense) :
    LicenseExpr → List Node × Graph × Nat → Except String (List Node × Graph × Nat)
  | .conj l r, acc =>
    match licenses_from_tree_helper doc_extr l acc with
    | .error e => .error e
    | .ok acc => licenses_from_tree_helper doc_extr r acc
  | .disj l r, acc =>
    match licenses_from_tree_helper doc_extr l acc with
    | .error e => .error e
    | .ok acc => licenses_from_tree_helper doc_extr r acc
  | current, (lics, g, cnt) =>
    match create_license_helper doc_extr g cnt current with
    | .error e => .error e
    | .ok (n, g, cnt) => .ok (setAdd lics n, g, cnt)

/-- `LicenseWriter.licenses_from_tree`. -/
def licenses_from_tree (doc_extr : List ExtractedLicense) (tree : LicenseExpr)
    (g : Graph) (cnt : Nat) : Except String (List Node × Graph × Nat) :=
  licenses_from_tree_helper doc_extr tree ([], g, cnt)

/-- `LicenseWriter.create_conjunction_node`: allocate the set node, type
it `ConjunctiveLicenseSet`, then add one `member` triple per collected
leaf of the whole subtree. -/
def create_conjunction_node (doc_extr : List ExtractedLicense) (g : Graph) (cnt : Nat)
    (conjunction : LicenseExpr) : Except String (Node × Graph × Nat) :=
  let node : Node := .blank cnt
  let g := addTriple g ⟨node, rdfTypePred, .uri (spdxNs ++ "ConjunctiveLicenseSet")⟩
  match licenses_from_tree doc_extr conjunction g (cnt + 1) with
  | .error e => .error e
  | .ok (lics, g, cnt) =>
    .ok (node, lics.foldl (fun g l => addTriple g ⟨node, memberPred, l⟩) g, cnt)

/-- `LicenseWriter.create_disjunction_node`. -/
def create_disjunction_node (doc_extr : List ExtractedLicense) (g : Graph) (cnt : Nat)
    (disjunction : LicenseExpr) : Except String (Node × Graph × Nat) :=
  let node : Node := .blank cnt
  let g := addTriple g ⟨node, rdfTypePred, .uri (spdxNs ++ "DisjunctiveLicenseSet")⟩
  match licenses_from_tree doc_extr disjunction g (cnt + 1) with
  | .error e => .error e
  | .ok (lics, g, cnt) =>
    .ok (node, lics.foldl (fun g l => addTriple g ⟨node, memberPred, l⟩) g, cnt)

/-- `LicenseWriter.create_license_node`. -/
def create_license_node (doc_extr : List ExtractedLicense) (g : Graph) (cnt : Nat) :
    LicenseExpr → Except String (Node × Graph × Nat)
  | .conj a b => create_conjunction_node doc_extr g cnt (.conj a b)
  | .disj a b => create_disjunction_node doc_extr g cnt (.disj a b)
  | l => create_license_helper doc_extr g cnt l

/-- The member nodes of a license-set node in the graph. -/
def memberNodes (g : Graph) (node : Node) : List Node :=
  (g.filter (fun t => t.subj == node && t.pred == memberPred)).map Triple.obj

/-- The license expression `MIT AND (Apache-2.0 OR BSD-3-Clause)`. -/
def exampleConj : LicenseExpr :=
  .conj (.lic "MIT") (.disj (.lic "Apache-2.0") (.lic "BSD-3-Clause"))

/-! ## File dependencies (`FileWriter.add_file_dependencies`) -/

/-- The fields of `spdx.file.File` the dependency pass uses. -/
structure WFile where
  name : String
  dependencies : List String
deriving DecidableEq, Repr

/-- The triples `(None, fileName, Literal(nm))` of the graph. -/
def fnMatches (g : Graph) (nm : String) : List Triple :=
  g.filter (fun t => t.pred == fileNamePred && t.obj == Node.lit nm)

def depWarn (fname dep : String) : String :=
  "Warning could not resolve file dependency " ++ fname ++ " -> " ++ dep

/-- One iteration of the dependency loop in
`FileWriter.add_file_dependencies_helper`: a dependency whose name
matches exactly one `fileName` triple gains a `fileDependency` edge;
otherwise a warning is printed and nothing is added. -/
def depStep (subjN : Node) (fname : String) (acc : Graph × List String) (dep : String) :
    Graph × List String :=
  match fnMatches acc.1 dep with
  | [dt] => (addTriple acc.1 ⟨subjN, fileDependencyPred, dt.subj⟩, acc.2)
  | _ => (acc.1, acc.2 ++ [depWarn fname dep])

/-- `FileWriter.add_file_dependencies_helper`: find the unique subject for
the file itself (`InvalidDocumentError` otherwise), then process each
dependency.  Returns the new graph and the printed warnings. -/
def add_file_dependencies_helper (g : Graph) (doc_file : WFile) :
    Except String (Graph × List String) :=
  match fnMatches g doc_file.name with
  | [st] => .ok (doc_file.dependencies.foldl (depStep st.subj doc_file.name) (g, []))
  | _ => .error ("Could not find dependency subject " ++ doc_file.name)

/-- `FileWriter.add_file_dependencies`: the helper over every file. -/
def add_file_dependencies (g : Graph) (files : List WFile) :
    Except String (Graph × List String) :=
  files.foldlM (fun acc f =>
    match add_file_dependencies_helper acc.1 f with
    | .error e => .error e
    | .ok (g2, ws) => .ok (g2, acc.2 ++ ws)) (g, [])

/-! ## The full RDF `write` pass (`spdx/writers/rdf.py`)

The writer functions all thread the graph and the blank-node counter;
`Except String` carries `InvalidDocumentError`.  The annotation writer is
not invoked by `Writer.write` and is omitted.
-/

def checksumPred : String := spdxNs ++ "checksum"

def algorithmPred : String := spdxNs ++ "algorithm"

def checksumValuePred : String := spdxNs ++ "checksumValue"

def licenseConcludedPred : String := spdxNs ++ "licenseConcluded"

def licenseInfoInFilePred : String := spdxNs ++ "licenseInfoInFile"

def licenseCommentsPred : String := spdxNs ++ "licenseComments"

def copyrightTextPred : String := spdxNs ++ "copyrightText"

def noticeTextPred : String := spdxNs ++ "noticeText"

def fileContributorPred : String := spdxNs ++ "fileContributor"

def fileTypePred : String := spdxNs ++ "fileType"

def referencesFilePred : String := spdxNs ++ "referencesFile"

def hasExtractedLicensingInfoPred : String := spdxNs ++ "hasExtractedLicensingInfo"

def creationInfoPred : String := spdxNs ++ "creationInfo"

def createdPred : String := spdxNs ++ "created"

def creatorPred : String := spdxNs ++ "creator"

def reviewedPred : String := spdxNs ++ "reviewed"

def reviewerPred : String := spdxNs ++ "reviewer"

def reviewDatePred : String := spdxNs ++ "reviewDate"

def externalDocumentRefPred : String := spdxNs ++ "externalDocumentRef"

def externalDocumentIdPred : String := spdxNs ++ "externalDocumentId"

def spdxDocumentPred : String := spdxNs ++ "spdxDocument"

def describesPackagePred : String := spdxNs ++ "describesPackage"

def specVersionPred : String := spdxNs ++ "specVersion"

def dataLicensePred : String := spdxNs ++ "dataLicense"

def namePred : String := spdxNs ++ "name"

def snippetPred : String := spdxNs ++ "Snippet"

def snippetFromFilePred : String := spdxNs ++ "snippetFromFile"

def licenseInfoInSnippetPred : String := spdxNs ++ "licenseInfoInSnippet"

def packageVerificationCodePred : String := spdxNs ++ "packageVerificationCode"

def packageVerificationCodeValuePred : String := spdxNs ++ "packageVerificationCodeValue"

def packageVerificationCodeExcludedFilePred : String :=
  spdxNs ++ "packageVerificationCodeExcludedFile"

def downloadLocationPred : String := spdxNs ++ "downloadLocation"

def licenseDeclaredPred : String := spdxNs ++ "licenseDeclared"

def licenseInfoFromFilesPred : String := spdxNs ++ "licenseInfoFromFiles"

def hasFilePred : String := spdxNs ++ "hasFile"

def homepagePred : String := "http://usefulinc.com/ns/doap#homepage"

/-- A license-valued field: `utils.NoAssert`, `utils.SPDXNone` or a
license expression (`license_or_special`). -/
inductive LicOrSpecial where
  | noAssert
  | spdxNone
  | expr (e : LicenseExpr)
deriving DecidableEq, Repr

/-- `spdx.file.FileType`. -/
inductive WFileType where
  | source
  | other
  | binary
  | archive
deriving DecidableEq, Repr

/-- `FileWriter.FILE_TYPES` composed with `spdx_namespace[...]`. -/
def fileTypeUri : WFileType → String
  | .source => spdxNs ++ "fileType_source"
  | .other => spdxNs ++ "fileType_other"
  | .binary => spdxNs ++ "fileType_binary"
  | .archive => spdxNs ++ "fileType_archive"

/-- `spdx.creationinfo.CreationInfo` as the writer reads it (creators
already rendered by `to_value()`). -/
structure WCreationInfo where
  created_iso : String
  creators : List String
  comment : Option String
deriving DecidableEq, Repr

structure WReview where
  reviewer : String
  review_date_iso : String
  comment : Option String
deriving DecidableEq, Repr

structure WExtDocRef where
  external_document_id : String
  spdx_document_uri : String
  check_sum : Algorithm
deriving DecidableEq, Repr

/-- `spdx.file.File` as the RDF writer reads it. -/
structure WFileFull where
  spdx_id : String
  name : String
  comment : Option String
  type : Option WFileType
  chk_sum : Algorithm
  conc_lics : LicOrSpecial
  licenses_in_file : List LicOrSpecial
  license_comment : Option String
  copyright : SpecialValue
  notice : Option String
  contributors : List String
  dependencies : List String
deriving DecidableEq, Repr

/-- `spdx.package.Package` as the RDF writer reads it. -/
structure WPackage where
  version : Option SpecialValue
  file_name : Option SpecialValue
  supplier : Option SpecialValue
  originator : Option SpecialValue
  source_info : Option SpecialValue
  license_comment : Option SpecialValue
  summary : Option SpecialValue
  description : Option SpecialValue
  check_sum : Option Algorithm
  homepage : Option SpecialValue
  name : String
  download_location : SpecialValue
  verif_code : String
  verif_exc_files : List String
  conc_lics : LicOrSpecial
  license_declared : LicOrSpecial
  licenses_from_files : List LicOrSpecial
  cr_text : SpecialValue
  files : List WFileFull
deriving DecidableEq, Repr

structure WSnippet where
  spdx_id : String
  comment : Option String
  name : Option String
  license_comment : Option String
  copyright : SpecialValue
  snip_from_file_spdxid : String
  conc_lics : LicOrSpecial
  licenses_in_snippet : List LicOrSpecial
deriving DecidableEq, Repr

/-- `spdx.document.Document` as `Writer.write` reads it
(`document.files` is the package file list). -/
structure WDoc where
  version_str : String
  data_license_url : String
  name : String
  creation_info : WCreationInfo
  reviews : List WReview
  ext_document_references : List WExtDocRef
  extracted_licenses : List ExtractedLicense
  package : WPackage
  snippets : List WSnippet
deriving DecidableEq, Repr

/-- `BaseWriter.create_checksum_node`. -/
def create_checksum_node (chksum : Algorithm) (g : Graph) (cnt : Nat) :
    Node × Graph × Nat :=
  let chksum_node : Node := .blank cnt
  let g := addTriple g ⟨chksum_node, rdfTypePred, .uri (spdxNs ++ "Checksum")⟩
  let g := addTriple g ⟨chksum_node, algorithmPred, .lit chksum.identifier⟩
  let g := addTriple g ⟨chksum_node, checksumValuePred, .lit chksum.value⟩
  (chksum_node, g, cnt + 1)

/-- `LicenseWriter.license_or_special`. -/
def license_or_special (doc_extr : List ExtractedLicense) (g : Graph) (cnt : Nat) :
    LicOrSpecial → Except String (Node × Graph × Nat)
  | .noAssert => .ok (.uri (spdxNs ++ "noassertion"), g, cnt)
  | .spdxNone => .ok (.uri (spdxNs ++ "none"), g, cnt)
  | .expr e => create_license_node doc_extr g cnt e

/-- Add one triple per element of a list, all sharing subject and
predicate, with the object built by `obj` (the writer's literal loops). -/
def addLitTriples (subj : Node) (pred : String) (objs : List Node) (g : Graph) : Graph :=
  objs.foldl (fun g o => addTriple g ⟨subj, pred, o⟩) g

/-- The license loops of the file, package and snippet writers: create a
node per license value and link it with `pred`. -/
def addLicenseTriples (doc_extr : List ExtractedLicense) (subj : Node) (pred : String)
    (lics : List LicOrSpecial) (g : Graph) (cnt : Nat) :
    Except String (Graph × Nat) :=
  lics.foldlM (fun (s : Graph × Nat) l =>
    match license_or_special doc_extr s.1 s.2 l with
    | .error e => .error e
    | .ok (n, g, cnt) => .ok (addTriple g ⟨subj, pred, n⟩, cnt)) (g, cnt)

/-- Add `⟨subj, pred, .lit v⟩` when the optional field is set. -/
def addOptLit (subj : Node) (pred : String) (v : Option String) (g : Graph) : Graph :=
  match v with
  | none => g
  | some s => addTriple g ⟨subj, pred, .lit s⟩

/-- The file node URI. -/
def file_node_uri (f : WFileFull) : Node :=
  .uri ("http://www.spdx.org/files#" ++ f.spdx_id)

/-- The triples of `FileWriter.create_file_node` added before the
checksum node: type, `fileName`, optional comment, optional file type. -/
def file_pre (f : WFileFull) (g : Graph) : Graph :=
  let g := addTriple g ⟨file_node_uri f, rdfTypePred, .uri (spdxNs ++ "File")⟩
  let g := addTriple g ⟨file_node_uri f, fileNamePred, .lit f.name⟩
  let g := addOptLit (file_node_uri f) rdfsCommentPred f.comment g
  match f.type with
  | none => g
  | some ft => addTriple g ⟨file_node_uri f, fileTypePred, .uri (fileTypeUri ft)⟩

/-- The triples of `FileWriter.create_file_node` added after the license
loop: optional license comment, copyright, optional notice,
contributors. -/
def file_tail (f : WFileFull) (g : Graph) : Graph :=
  let g := addOptLit (file_node_uri f) licenseCommentsPred f.license_comment g
  let g := addTriple g ⟨file_node_uri f, copyrightTextPred, to_special_value f.copyright⟩
  let g := addOptLit (file_node_uri f) noticeTextPred f.notice g
  addLitTriples (file_node_uri f) fileContributorPred (f.contributors.map Node.lit) g

/-- `FileWriter.create_file_node`. -/
def create_file_node (doc_extr : List ExtractedLicense) (f : WFileFull)
    (g : Graph) (cnt : Nat) : Except String (Node × Graph × Nat) :=
  match create_checksum_node f.chk_sum (file_pre f g) cnt with
  | (chk_node, g, cnt) =>
    let g := addTriple g ⟨file_node_uri f, checksumPred, chk_node⟩
    match license_or_special doc_extr g cnt f.conc_lics with
    | .error e => .error e
    | .ok (conc_node, g, cnt) =>
      let g := addTriple g ⟨file_node_uri f, licenseConcludedPred, conc_node⟩
      match addLicenseTriples doc_extr (file_node_uri f) licenseInfoInFilePred
          f.licenses_in_file g cnt with
      | .error e => .error e
      | .ok (g, cnt) => .ok (file_node_uri f, file_tail f g, cnt)

/-- The file loop of `Writer.write`: the lazy `map` in `files()` is
driven by the `referencesFile` loop, so each file node is created right
before its `referencesFile` triple is added. -/
def writeFiles (doc_extr : List ExtractedLicense) (doc_node : Node)
    (files : List WFileFull) (g : Graph) (cnt : Nat) :
    Except String (Graph × Nat) :=
  files.foldlM (fun (s : Graph × Nat) f =>
    match create_file_node doc_extr f s.1 s.2 with
    | .error e => .error e
    | .ok (fn, g, cnt) => .ok (addTriple g ⟨doc_node, referencesFilePred, fn⟩, cnt)) (g, cnt)

/-- `FileWriter.add_file_dependencies` over the full file records. -/
def add_file_dependencies_full (g : Graph) (files : List WFileFull) :
    Except String Graph :=
  files.foldlM (fun g f =>
    match add_file_dependencies_helper g ⟨f.name, f.dependencies⟩ with
    | .error e => .error e
    | .ok (g, _) => .ok g) g

/-- `PackageWriter.package_verif_node`. -/
def package_verif_node (p : WPackage) (g : Graph) (cnt : Nat) : Node × Graph × Nat :=
  let verif_node : Node := .blank cnt
  let g := addTriple g ⟨verif_node, rdfTypePred, .uri (spdxNs ++ "PackageVerificationCode")⟩
  let g := addTriple g ⟨verif_node, packageVerificationCodeValuePred, .lit p.verif_code⟩
  let g := addLitTriples verif_node packageVerificationCodeExcludedFilePred
    (p.verif_exc_files.map Node.lit) g
  (verif_node, g, cnt + 1)

/-- `PackageWriter.handle_package_literal_optional` specialised to each
field by the caller. -/
def handle_package_literal_optional (package_node : Node) (pred : String)
    (v : Option SpecialValue) (g : Graph) : Graph :=
  match v with
  | none => g
  | some sv => addTriple g ⟨package_node, pred, to_special_value sv⟩

/-- `to_special_value` rendered into a URI (the homepage triple wraps the
special value in `URIRef`). -/
def renderSpecial : SpecialValue → String
  | .noAssert => spdxNs ++ "noassertion"
  | .spdxNone => spdxNs ++ "none"
  | .str s => s

/-- The eight optional literal fields of
`PackageWriter.handle_pkg_optional_fields`, in emission order. -/
def pkg_opt_lits (p : WPackage) (package_node : Node) (g : Graph) : Graph :=
  let g := handle_package_literal_optional package_node (spdxNs ++ "versionInfo") p.version g
  let g := handle_package_literal_optional package_node (spdxNs ++ "packageFileName") p.file_name g
  let g := handle_package_literal_optional package_node (spdxNs ++ "supplier") p.supplier g
  let g := handle_package_literal_optional package_node (spdxNs ++ "originator") p.originator g
  let g := handle_package_literal_optional package_node (spdxNs ++ "sourceInfo") p.source_info g
  let g := handle_package_literal_optional package_node licenseCommentsPred p.license_comment g
  let g := handle_package_literal_optional package_node (spdxNs ++ "summary") p.summary g
  handle_package_literal_optional package_node (spdxNs ++ "description") p.description g

/-- The optional homepage triple of
`PackageWriter.handle_pkg_optional_fields`. -/
def pkg_homepage (p : WPackage) (package_node : Node) (g : Graph) : Graph :=
  match p.homepage with
  | none => g
  | some hp => addTriple g ⟨package_node, homepagePred, .uri (renderSpecial hp)⟩

/-- `PackageWriter.handle_pkg_optional_fields`. -/
def handle_pkg_optional_fields (p : WPackage) (package_node : Node)
    (g : Graph) (cnt : Nat) : Graph × Nat :=
  let g := pkg_opt_lits p package_node g
  match p.check_sum with
  | none => (pkg_homepage p package_node g, cnt)
  | some chk =>
    match create_checksum_node chk g cnt with
    | (chk_node, g, cnt) =>
      let g := addTriple g ⟨package_node, checksumPred, chk_node⟩
      (pkg_homepage p package_node g, cnt)

/-- `PackageWriter.handle_package_has_file_helper`: the file node is the
unique `fileName` match; any other count is an `InvalidDocumentError`. -/
def handle_package_has_file_helper (g : Graph) (name : String) : Except String Node :=
  match fnMatches g name with
  | [t] => .ok t.subj
  | _ => .error ("handle_package_has_file_helper could not find file node for file: " ++ name)

/-- `PackageWriter.handle_package_has_file`. -/
def handle_package_has_file (p : WPackage) (package_node : Node) (g : Graph) :
    Except String Graph :=
  p.files.foldlM (fun g f =>
    match handle_package_has_file_helper g f.name with
    | .error e => .error e
    | .ok n => .ok (addTriple g ⟨package_node, hasFilePred, n⟩)) g

/-- `PackageWriter.create_package_node`. -/
def create_package_node (doc_extr : List ExtractedLicense) (p : WPackage)
    (g : Graph) (cnt : Nat) : Except String (Node × Graph × Nat) :=
  let package_node : Node := .blank cnt
  let cnt := cnt + 1
  let g := addTriple g ⟨package_node, rdfTypePred, .uri (spdxNs ++ "Package")⟩
  match handle_pkg_optional_fields p package_node g cnt with
  | (g, cnt) =>
    let g := addTriple g ⟨package_node, namePred, .lit p.name⟩
    let g := addTriple g ⟨package_node, downloadLocationPred, to_special_value p.download_location⟩
    match package_verif_node p g cnt with
    | (verif_node, g, cnt) =>
      let g := addTriple g ⟨package_node, packageVerificationCodePred, verif_node⟩
      match license_or_special doc_extr g cnt p.conc_lics with
      | .error e => .error e
      | .ok (conc_node, g, cnt) =>
        let g := addTriple g ⟨package_node, licenseConcludedPred, conc_node⟩
        match license_or_special doc_extr g cnt p.license_declared with
        | .error e => .error e
        | .ok (decl_node, g, cnt) =>
          let g := addTriple g ⟨package_node, licenseDeclaredPred, decl_node⟩
          match addLicenseTriples doc_extr package_node licenseInfoFromFilesPred
              p.licenses_from_files g cnt with
          | .error e => .error e
          | .ok (g, cnt) =>
            let g := addTriple g ⟨package_node, copyrightTextPred, to_special_value p.cr_text⟩
            match handle_package_has_file p package_node g with
            | .error e => .error e
            | .ok g => .ok (package_node, g, cnt)

/-- The snippet node URI. -/
def snippet_node_uri (s : WSnippet) : Node :=
  .uri ("http://spdx.org/rdf/terms/Snippet#" ++ s.spdx_id)

/-- The triples of `SnippetWriter.create_snippet_node` added before the
concluded license: type, optional comment, optional name, optional
license comment, copyright, `snippetFromFile`. -/
def snippet_pre (s : WSnippet) (g : Graph) : Graph :=
  let g := addTriple g ⟨snippet_node_uri s, rdfTypePred, .uri (spdxNs ++ "Snippet")⟩
  let g := addOptLit (snippet_node_uri s) rdfsCommentPred s.comment g
  let g := addOptLit (snippet_node_uri s) namePred s.name g
  let g := addOptLit (snippet_node_uri s) licenseCommentsPred s.license_comment g
  let g := addTriple g ⟨snippet_node_uri s, copyrightTextPred, to_special_value s.copyright⟩
  addTriple g ⟨snippet_node_uri s, snippetFromFilePred, .lit s.snip_from_file_spdxid⟩

/-- `SnippetWriter.create_snippet_node`. -/
def create_snippet_node (doc_extr : List ExtractedLicense) (s : WSnippet)
    (g : Graph) (cnt : Nat) : Except String (Node × Graph × Nat) :=
  match license_or_special doc_extr (snippet_pre s g) cnt s.conc_lics with
  | .error e => .error e
  | .ok (conc_node, g, cnt) =>
    let g := addTriple g ⟨snippet_node_uri s, licenseConcludedPred, conc_node⟩
    match addLicenseTriples doc_extr (snippet_node_uri s) licenseInfoInSnippetPred
        s.licenses_in_snippet g cnt with
    | .error e => .error e
    | .ok (g, cnt) => .ok (snippet_node_uri s, g, cnt)

/-- The snippet loop of `Writer.write`. -/
def writeSnippets (doc_extr : List ExtractedLicense) (doc_node : Node)
    (snips : List WSnippet) (g : Graph) (cnt : Nat) : Except String (Graph × Nat) :=
  snips.foldlM (fun (s : Graph × Nat) sn =>
    match create_snippet_node doc_extr sn s.1 s.2 with
    | .error e => .error e
    | .ok (n, g, cnt) => .ok (addTriple g ⟨doc_node, snippetPred, n⟩, cnt)) (g, cnt)

/-- `ReviewInfoWriter.create_review_node`. -/
def create_review_node (r : WReview) (g : Graph) (cnt : Nat) : Node × Graph × Nat :=
  let review_node : Node := .blank cnt
  let g := addTriple g ⟨review_node, rdfTypePred, .uri (spdxNs ++ "Review")⟩
  let g := addTriple g ⟨review_node, reviewerPred, .lit r.reviewer⟩
  let g := addTriple g ⟨review_node, reviewDatePred, .lit r.review_date_iso⟩
  let g := addOptLit review_node rdfsCommentPred r.comment g
  (review_node, g, cnt + 1)

/-- The review loop of `Writer.write`. -/
def writeReviews (doc_node : Node) (rs : List WReview) (g : Graph) (cnt : Nat) :
    Graph × Nat :=
  rs.foldl (fun (s : Graph × Nat) r =>
    match create_review_node r s.1 s.2 with
    | (n, g, cnt) => (addTriple g ⟨doc_node, reviewedPred, n⟩, cnt)) (g, cnt)

/-- `CreationInfoWriter.create_creation_info`. -/
def create_creation_info (ci : WCreationInfo) (g : Graph) (cnt : Nat) :
    Node × Graph × Nat :=
  let ci_node : Node := .blank cnt
  let g := addTriple g ⟨ci_node, rdfTypePred, .uri (spdxNs ++ "CreationInfo")⟩
  let g := addTriple g ⟨ci_node, createdPred, .lit ci.created_iso⟩
  let g := addLitTriples ci_node creatorPred (ci.creators.map Node.lit) g
  let g := addOptLit ci_node rdfsCommentPred ci.comment g
  (ci_node, g, cnt + 1)

/-- `ExternalDocumentRefWriter.create_external_document_ref_node`. -/
def create_external_document_ref_node (r : WExtDocRef) (g : Graph) (cnt : Nat) :
    Node × Graph × Nat :=
  let ref_node : Node := .blank cnt
  let cnt := cnt + 1
  let g := addTriple g ⟨ref_node, rdfTypePred, .uri (spdxNs ++ "ExternalDocumentRef")⟩
  let g := addTriple g ⟨ref_node, externalDocumentIdPred, .lit r.external_document_id⟩
  let g := addTriple g ⟨ref_node, spdxDocumentPred, .lit r.spdx_document_uri⟩
  match create_checksum_node r.check_sum g cnt with
  | (chk_node, g, cnt) => (ref_node, addTriple g ⟨ref_node, checksumPred, chk_node⟩, cnt)

/-- The external-document-reference loop of `Writer.write`. -/
def writeExtDocRefs (doc_node : Node) (rs : List WExtDocRef) (g : Graph) (cnt : Nat) :
    Graph × Nat :=
  rs.foldl (fun (s : Graph × Nat) r =>
    match create_external_document_ref_node r s.1 s.2 with
    | (n, g, cnt) => (addTriple g ⟨doc_node, externalDocumentRefPred, n⟩, cnt)) (g, cnt)

/-- One iteration of the extracted-license loop of `Writer.write`. -/
def extrStep (doc_node : Node) (s : Graph × Nat) (lic : ExtractedLicense) : Graph × Nat :=
  match create_extracted_license s.1 s.2 lic with
  | (n, g, cnt) => (addTriple g ⟨doc_node, hasExtractedLicensingInfoPred, n⟩, cnt)

/-- The extracted-license loop of `Writer.write`. -/
def writeExtractedLicenses (doc_node : Node) (lics : List ExtractedLicense)
    (g : Graph) (cnt : Nat) : Graph × Nat :=
  lics.foldl (extrStep doc_node) (g, cnt)

/-- The triples the fresh branch of `LicenseWriter.create_extracted_license`
attempts to add, in order: the conditional adds of the optional fields
become empty or singleton segments. -/
def nameTriples (cnt : Nat) (fn : Option SpecialValue) : List Triple :=
  match fn with
  | none => []
  | some nm => [⟨.blank cnt, licenseNamePred, to_special_value nm⟩]

def commentTriples (cnt : Nat) (c : Option String) : List Triple :=
  match c with
  | none => []
  | some c => [⟨.blank cnt, rdfsCommentPred, .lit c⟩]

def freshTriples (cnt : Nat) (lic : ExtractedLicense) : List Triple :=
  ⟨.blank cnt, rdfTypePred, .uri (spdxNs ++ "ExtractedLicensingInfo")⟩ ::
    ⟨.blank cnt, licenseIdPred, .lit lic.identifier⟩ ::
      ⟨.blank cnt, extractedTextPred, .lit lic.text⟩ ::
        (nameTriples cnt lic.full_name ++
          lic.cross_ref.map (fun r => ⟨.blank cnt, rdfsSeeAlsoPred, .uri r⟩) ++
          commentTriples cnt lic.comment)

/-- The URI of the root document node. -/
def docNode : Node := .uri "http://www.spdx.org/tools#SPDXRef-DOCUMENT"

/-- `Writer.create_doc`. -/
def create_doc (doc : WDoc) (g : Graph) (cnt : Nat) : Node × Graph × Nat :=
  let g := addTriple g ⟨docNode, rdfTypePred, .uri (spdxNs ++ "SpdxDocument")⟩
  let g := addTriple g ⟨docNode, specVersionPred, .lit doc.version_str⟩
  let g := addTriple g ⟨docNode, dataLicensePred, .uri doc.data_license_url⟩
  let g := addTriple g ⟨docNode, namePred, .uri doc.name⟩
  (docNode, g, cnt)

/-- `Writer.write` up to (but not including) the `to_isomorphic` and
`serialize` calls: the complete triple graph of the document. -/
def writeGraph (doc : WDoc) : Except String Graph :=
  match create_doc doc [] 0 with
  | (doc_node, g, cnt) =>
    match create_creation_info doc.creation_info g cnt with
    | (ci_node, g, cnt) =>
      let g := addTriple g ⟨doc_node, creationInfoPred, ci_node⟩
      match writeReviews doc_node doc.reviews g cnt with
      | (g, cnt) =>
        match writeExtDocRefs doc_node doc.ext_document_references g cnt with
        | (g, cnt) =>
          match writeExtractedLicenses doc_node doc.extracted_licenses g cnt with
          | (g, cnt) =>
            match writeFiles doc.extracted_licenses doc_node doc.package.files g cnt with
            | .error e => .error e
            | .ok (g, cnt) =>
              match add_file_dependencies_full g doc.package.files with
              | .error e => .error e
              | .ok g =>
                match create_package_node doc.extracted_licenses doc.package g cnt with
                | .error e => .error e
                | .ok (package_node, g, cnt) =>
                  let g := addTriple g ⟨doc_node, describesPackagePred, package_node⟩
                  match writeSnippets doc.extracted_licenses doc_node doc.snippets g cnt with
                  | .error e => .error e
                  | .ok (g, _) => .ok g

/-! ## Blank-node renamings and graph isomorphism -/

def renameNode (ρ : Nat → Nat) : Node → Node
  | .blank n => .blank (ρ n)
  | .uri s => .uri s
  | .lit s => .lit s

def renameTriple (ρ : Nat → Nat) (t : Triple) : Triple :=
  ⟨renameNode ρ t.subj, t.pred, renameNode ρ t.obj⟩

/-- Graph isomorphism: a bijective relabelling of the blank nodes maps
one triple set onto the other. -/
def IsoGraphs (g1 g2 : Graph) : Prop :=
  ∃ ρ : Nat → Nat, Function.Bijective ρ ∧ (g1.map (renameTriple ρ)).Perm g2

/-- A blank node below the allocation counter. -/
def blankLt (cnt : Nat) : Node → Prop
  | .blank n => n < cnt
  | .uri _ => True
  | .lit _ => True

def graphBlanksLt (g : Graph) (cnt : Nat) : Prop :=
  ∀ t ∈ g, blankLt cnt t.subj ∧ blankLt cnt t.obj

/-- The `licenseId` triples for one identifier. -/
def licFilter (g : Graph) (idf : String) : List Triple :=
  g.filter (fun t => t.pred == licenseIdPred && t.obj == Node.lit idf)

/-- Each extracted-license identifier owns at most one node. -/
def uniqLic (g : Graph) : Prop :=
  ∀ idf : String, (licFilter g idf).length ≤ 1

/-- The simulation relation between the two writer runs: equal counters,
a blank-node bijection fixing all yet-unallocated labels, graphs equal as
triple multisets up to the relabelling, and the bookkeeping invariants on
the left graph. -/
structure Sim (ρ : Nat → Nat) (s1 s2 : Graph × Nat) : Prop where
  cntEq : s1.2 = s2.2
  bij : Function.Bijective ρ
  fix : ∀ n, s1.2 ≤ n → ρ n = n
  rel : (s1.1.map (renameTriple ρ)).Perm s2.1
  blanks : graphBlanksLt s1.1 s1.2
  uniq : uniqLic s1.1

/-- Result relation for node-returning writer steps: related nodes, the
left node within the allocation bound, and related final states. -/
def NodeOk (ρ : Nat → Nat) (r1 r2 : Node × Graph × Nat) : Prop :=
  r2.1 = renameNode ρ r1.1 ∧ blankLt r1.2.2 r1.1 ∧ Sim ρ r1.2 r2.2

/-- Result relation for fallible writer steps: both fail, or both succeed
with related results. -/
def ExcOk {α β : Type} (rel : α → β → Prop) :
    Except String α → Except String β → Prop
  | .error _, .error _ => True
  | .ok a, .ok b => rel a b
  | _, _ => False

/-- A canonical serialization: collapse every blank label to 0 and take the
triple multiset.  It is invariant under graph isomorphism, standing in for
rdflib `to_isomorphic` + `serialize`. -/
def collapseBlank (g : Graph) : Multiset Triple :=
  Multiset.ofList (g.map (renameTriple (fun _ => 0)))

def licAW : ExtractedLicense :=
  { identifier := "LicenseRef-A", text := "text of license A", full_name := none,
    cross_ref := [], comment := none }

def licBW : ExtractedLicense :=
  { identifier := "LicenseRef-B", text := "text of license B", full_name := none,
    cross_ref := [], comment := none }

def packageW : WPackage :=
  { version := none, file_name := none, supplier := none, originator := none,
    source_info := none, license_comment := none, summary := none, description := none,
    check_sum := none, homepage := none, name := "pkg",
    download_location := .noAssert, verif_code := "da39a3ee5e6b4b0d3255bfef95601890afd80709",
    verif_exc_files := [], conc_lics := .noAssert, license_declared := .noAssert,
    licenses_from_files := [], cr_text := .noAssert, files := [] }

def wdocW : WDoc :=
  { version_str := "SPDX-2.1",
    data_license_url := "http://spdx.org/licenses/CC0-1.0",
    name := "sample", creation_info := ⟨"2020-01-01T00:00:00Z", ["Tool: gen"], none⟩,
    reviews := [], ext_document_references := [],
    extracted_licenses := [licAW, licBW], package := packageW, snippets := [] }

def licA2W : ExtractedLicense :=
  { identifier := "LicenseRef-A", text := "completely different text",
    full_name := some (.str "Alternative Name"), cross_ref := ["http://example.com/a"],
    comment := some "second submission of the same identifier" }

/-! ## Theorems -/

theorem addTriple_filter_of_neg (g : Graph) (t : Triple) (p : Triple → Bool)
    (h : p t = false) : (addTriple g t).filter p = g.filter p := by
  unfold addTriple
  split
  · rfl
  · simp [List.filter_append, h]

theorem mem_addTriple (g : Graph) (t u : Triple) :
    u ∈ addTriple g t ↔ u ∈ g ∨ u = t := by
  unfold addTriple
  split
  · constructor
    · exact fun h => Or.inl h
    · rintro (h | rfl)
      · exact h
      · assumption
  · simp [or_comm]

theorem addTriple_eq_append (g : Graph) (t : Triple) (h : t ∉ g) :
    addTriple g t = g ++ [t] := by
  unfold addTriple
  simp [h]

theorem foldl_addTriple_filter_stable {α : Type} (l : List α) (p : Triple → Bool)
    (f : α → Triple) (h : ∀ a ∈ l, p (f a) = false) :
    ∀ g : Graph, (l.foldl (fun g a => addTriple g (f a)) g).filter p = g.filter p := by
  induction l with
  | nil => intro g; rfl
  | cons a l ih =>
    intro g
    rw [List.foldl_cons, ih (fun b hb => h b (List.mem_cons_of_mem a hb)),
      addTriple_filter_of_neg _ _ _ (h a (List.mem_cons_self a l))]

theorem addNameTriple_filter (cnt : Nat) (fn : Option SpecialValue) (g : Graph)
    (p : Triple → Bool) (h : ∀ nm, p ⟨.blank cnt, licenseNamePred, to_special_value nm⟩ = false) :
    (addNameTriple cnt fn g).filter p = g.filter p := by
  cases fn with
  | none => rfl
  | some nm => exact addTriple_filter_of_neg _ _ _ (h nm)

theorem addCommentTriple_filter (cnt : Nat) (c : Option String) (g : Graph)
    (p : Triple → Bool) (h : ∀ s, p ⟨.blank cnt, rdfsCommentPred, .lit s⟩ = false) :
    (addCommentTriple cnt c g).filter p = g.filter p := by
  cases c with
  | none => rfl
  | some c => exact addTriple_filter_of_neg _ _ _ (h c)

theorem addSeeAlsoTriples_filter (cnt : Nat) (refs : List String) (g : Graph)
    (p : Triple → Bool) (h : ∀ r, p ⟨.blank cnt, rdfsSeeAlsoPred, .uri r⟩ = false) :
    (addSeeAlsoTriples cnt refs g).filter p = g.filter p :=
  foldl_addTriple_filter_stable refs p (fun r => ⟨.blank cnt, rdfsSeeAlsoPred, .uri r⟩)
    (fun a _ => h a) g

theorem create_extracted_license_fresh_filter (g : Graph) (cnt : Nat) (lic : ExtractedLicense)
    (h : g.filter (fun t => t.pred == licenseIdPred && t.obj == Node.lit lic.identifier) = []) :
    (create_extracted_license_fresh g cnt lic).filter
        (fun t => t.pred == licenseIdPred && t.obj == Node.lit lic.identifier)
      = [⟨.blank cnt, licenseIdPred, .lit lic.identifier⟩] := by
  have hident : (⟨.blank cnt, licenseIdPred, .lit lic.identifier⟩ : Triple) ∉
      addTriple g ⟨.blank cnt, rdfTypePred, .uri (spdxNs ++ "ExtractedLicensingInfo")⟩ := by
    intro hmem
    rcases (mem_addTriple _ _ _).1 hmem with hmem' | heq
    · have hin : (⟨.blank cnt, licenseIdPred, .lit lic.identifier⟩ : Triple) ∈
          g.filter (fun t => t.pred == licenseIdPred && t.obj == Node.lit lic.identifier) := by
        rw [List.mem_filter]
        exact ⟨hmem', by simp⟩
      rw [h] at hin
      exact absurd hin (List.not_mem_nil _)
    · have hpred : licenseIdPred = rdfTypePred := congrArg Triple.pred heq
      exact absurd hpred (by decide)
  unfold create_extracted_license_fresh
  have hc : (rdfsCommentPred == licenseIdPred) = false := by decide
  have hn : (licenseNamePred == licenseIdPred) = false := by decide
  have ht : (extractedTextPred == licenseIdPred) = false := by decide
  unfold create_extracted_license_fresh at *
  rw [addCommentTriple_filter _ _ _ _ (by intro s; simp [hc]),
    addSeeAlsoTriples_filter _ _ _ _ (by intro r; simp),
    addNameTriple_filter _ _ _ _ (by intro nm; simp [hn]),
    addTriple_filter_of_neg _ _ _ (by simp [ht]),
    addTriple_eq_append _ _ hident, List.filter_append,
    addTriple_filter_of_neg _ _ _ (by simp), h]
  simp

/-- C5: re-adding an extracted license never duplicates it.  For every
extracted license, every graph and every blank-node counter, calling
`create_extracted_license` a second time with any license `lic2` that
bears the same identifier — its text and every other field are arbitrary —
returns the node produced by the first call and leaves the graph and the
counter exactly as the first call left them (the existing node is found
through its `licenseId` triple alone). -/
theorem create_extracted_license_dedup_by_identifier (g : Graph) (cnt : Nat)
    (lic lic2 : ExtractedLicense) (hid : lic2.identifier = lic.identifier) :
    create_extracted_license (create_extracted_license g cnt lic).2.1
      (create_extracted_license g cnt lic).2.2 lic2
      = ((create_extracted_license g cnt lic).1,
        (create_extracted_license g cnt lic).2.1,
        (create_extracted_license g cnt lic).2.2) := by
  unfold create_extracted_license
  rw [hid]
  cases hf : g.filter (fun t => t.pred == licenseIdPred && t.obj == Node.lit lic.identifier) with
  | cons t ts => simp [hf]
  | nil =>
    simp only [hf]
    rw [create_extracted_license_fresh_filter g cnt lic hf]

theorem updateLastFileD_spdx_id (doc : BDoc) (f : BFile → BFile) :
    (updateLastFileD doc f).spdx_id = doc.spdx_id := by
  unfold updateLastFileD updateLastFile
  cases doc.package with
  | none => rfl
  | some p =>
    dsimp only
    cases p.files.getLast? with
    | none => rfl
    | some fl => rfl

theorem set_file_spdx_id_preserves (fvalid : String → Bool) (st : BuilderState)
    (doc : BDoc) (v : String) :
    (set_file_spdx_id fvalid st doc v).1.doc_spdx_id_set = st.doc_spdx_id_set ∧
    (set_file_spdx_id fvalid st doc v).2.1.spdx_id = doc.spdx_id := by
  unfold set_file_spdx_id
  split
  · split
    · split
      · exact ⟨rfl, updateLastFileD_spdx_id _ _⟩
      · exact ⟨rfl, rfl⟩
    · exact ⟨rfl, rfl⟩
  · exact ⟨rfl, rfl⟩

theorem p_spdx_id_all_preserves (dvalid fvalid : String → Bool) (vs : List String) :
    ∀ st doc, st.doc_spdx_id_set = true →
      (p_spdx_id_all dvalid fvalid vs st doc).1.doc_spdx_id_set = true ∧
      (p_spdx_id_all dvalid fvalid vs st doc).2.spdx_id = doc.spdx_id := by
  induction vs with
  | nil => exact fun st doc h => ⟨h, rfl⟩
  | cons v vs ih =>
    intro st doc h
    have hstep : p_spdx_id dvalid fvalid st doc v = set_file_spdx_id fvalid st doc v := by
      unfold p_spdx_id
      rw [h]
      rfl
    have hpres := set_file_spdx_id_preserves fvalid st doc v
    have hrec := ih (set_file_spdx_id fvalid st doc v).1
      (set_file_spdx_id fvalid st doc v).2.1 (hpres.1.trans h)
    unfold p_spdx_id_all
    rw [hstep]
    exact ⟨hrec.1, hrec.2.trans hpres.2⟩

/-- C1 (code bug in `SnippetBuilder.set_snippet_lic_comment`): the claim
says a second call to a single-valued setter, in particular
`set_snippet_lic_comment`, raises CardinalityError.  The source line 382
of `spdx/parsers/rdfbuilders.py` constructs `CardinalityError` without
`raise`, so on a document with one snippet the second call returns with
no error at all, leaving the first value in place. -/
theorem set_snippet_lic_comment_second_call_silent :
    (set_snippet_lic_comment initState ⟨none, none, none, [⟨none, none⟩]⟩ "first").2.2
        = none ∧
    (set_snippet_lic_comment
        (set_snippet_lic_comment initState ⟨none, none, none, [⟨none, none⟩]⟩ "first").1
        (set_snippet_lic_comment initState ⟨none, none, none, [⟨none, none⟩]⟩ "first").2.1
        "second").2.2 = none ∧
    (set_snippet_lic_comment
        (set_snippet_lic_comment initState ⟨none, none, none, [⟨none, none⟩]⟩ "first").1
        (set_snippet_lic_comment initState ⟨none, none, none, [⟨none, none⟩]⟩ "first").2.1
        "second").2.1.snippet = [⟨some "first", none⟩] := by
  decide

/-- C2 (code bug in `DocBuilder.set_doc_version`): the claim says a setter
that raises SPDXValueError leaves the already-set flag clear, so a later
valid occurrence succeeds.  The source sets `doc_version_set = True`
before matching the value, so after a malformed `"2.1"` the valid
`"SPDX-2.1"` is rejected with CardinalityError and the version is never
stored. -/
theorem set_doc_version_flag_poisoned :
    (set_doc_version initState emptyDoc "2.1").2.2 = some (.value "Document::Version") ∧
    (set_doc_version initState emptyDoc "2.1").2.1.version = none ∧
    (set_doc_version (set_doc_version initState emptyDoc "2.1").1
        (set_doc_version initState emptyDoc "2.1").2.1 "SPDX-2.1").2.2
      = some (.cardinality "Document::Version") ∧
    (set_doc_version (set_doc_version initState emptyDoc "2.1").1
        (set_doc_version initState emptyDoc "2.1").2.1 "SPDX-2.1").2.1.version = none := by
  decide

/-- C7: a package-level or file-level setter invoked before the required
predecessor entity exists raises OrderError, leaves the document
untouched, and never reaches the dereference of the missing entity (no
`attrError`): `set_file_chksum` with no package, or with a package that
has no file yet, and `set_pkg_chk_sum` with no package. -/
theorem missing_predecessor_gives_order_error (st : BuilderState) (doc : BDoc) (v : String)
    (h : doc.package = none ∨ ∃ p, doc.package = some p ∧ p.files = []) :
    set_file_chksum st doc v = (st, doc, some (.order "File::CheckSum")) ∧
    (doc.package = none → set_pkg_chk_sum st doc v = (st, doc, some (.order "Package"))) := by
  constructor
  · have hguard : (has_package doc && has_file doc) = false := by
      rcases h with h | ⟨p, hp, hf⟩
      · unfold has_package
        rw [h]
        rfl
      · unfold has_package has_file
        rw [hp]
        dsimp only
        rw [hf]
        rfl
    unfold set_file_chksum
    rw [hguard]
    rfl
  · intro h0
    unfold set_pkg_chk_sum assert_package_exists
    rw [h0]

/-- Witness for C7 at the empty document. -/
theorem missing_predecessor_gives_order_error_witness :
    (emptyDoc.package = none ∨ ∃ p, emptyDoc.package = some p ∧ p.files = []) ∧
    (set_file_chksum initState emptyDoc "aaaa"
        = (initState, emptyDoc, some (.order "File::CheckSum")) ∧
      (emptyDoc.package = none → set_pkg_chk_sum initState emptyDoc "aaaa"
        = (initState, emptyDoc, some (.order "Package")))) :=
  ⟨Or.inl rfl, missing_predecessor_gives_order_error initState emptyDoc "aaaa" (Or.inl rfl)⟩

/-- C9: in a parse pass the first SPDXID line (with a value accepted by
the document-identifier validation) stores the document identifier, and
every later SPDXID line of the pass is dispatched to `set_file_spdx_id`,
so the document identifier is never overwritten: after the whole pass it
still holds the first value. -/
theorem p_spdx_id_first_sets_doc_id (dvalid fvalid : String → Bool) (st0 : BuilderState)
    (doc0 : BDoc) (v : String) (vs : List String)
    (h0 : st0.doc_spdx_id_set = false) (hv : dvalid v = true) :
    (p_spdx_id_all dvalid fvalid (v :: vs) st0 doc0).2.spdx_id = some v ∧
    (∀ st doc w, st.doc_spdx_id_set = true →
      p_spdx_id dvalid fvalid st doc w = set_file_spdx_id fvalid st doc w) := by
  constructor
  · have hstep : p_spdx_id dvalid fvalid st0 doc0 v =
        ({st0 with doc_spdx_id_set := true}, {doc0 with spdx_id := some v}, none) := by
      unfold p_spdx_id set_doc_spdx_id
      rw [h0]
      simp [hv]
    show (p_spdx_id_all dvalid fvalid (v :: vs) st0 doc0).2.spdx_id = some v
    unfold p_spdx_id_all
    rw [hstep]
    have hrec := p_spdx_id_all_preserves dvalid fvalid vs {st0 with doc_spdx_id_set := true}
      {doc0 with spdx_id := some v} rfl
    exact hrec.2
  · intro st doc w hset
    unfold p_spdx_id
    rw [hset]
    rfl

/-- Witness for C9: two SPDXID lines; the document keeps the first. -/
theorem p_spdx_id_first_sets_doc_id_witness :
    initState.doc_spdx_id_set = false ∧
    (fun s => s == "SPDXRef-DOCUMENT") "SPDXRef-DOCUMENT" = true ∧
    ((p_spdx_id_all (fun s => s == "SPDXRef-DOCUMENT") (fun _ => true)
          ("SPDXRef-DOCUMENT" :: ["SPDXRef-File1"]) initState emptyDoc).2.spdx_id
        = some "SPDXRef-DOCUMENT" ∧
      (∀ st doc w, st.doc_spdx_id_set = true →
        p_spdx_id (fun s => s == "SPDXRef-DOCUMENT") (fun _ => true) st doc w
          = set_file_spdx_id (fun _ => true) st doc w)) :=
  ⟨rfl, by decide,
    p_spdx_id_first_sets_doc_id (fun s => s == "SPDXRef-DOCUMENT") (fun _ => true)
      initState emptyDoc "SPDXRef-DOCUMENT" ["SPDXRef-File1"] rfl (by decide)⟩

theorem mergeSort_congr_of_perm {l1 l2 : List String} (h : l1.Perm l2) :
    l1.mergeSort = l2.mergeSort :=
  List.eq_of_perm_of_sorted
    ((List.mergeSort_perm l1 _).trans (h.trans (List.mergeSort_perm l2 _).symm))
    (List.sorted_mergeSort' l1) (List.sorted_mergeSort' l2)

/-- C3: the verification code hashes (with the same digest `sha1hex` used
for single files) the separator-free concatenation of an ascending
lexically sorted arrangement of the checksums of the non-excluded files,
and is therefore invariant under any permutation of the scan-result
list. -/
theorem get_package_verification_code_spec (sha1hex content : String → String)
    (scan scan' : List String) (out : String) (h : scan.Perm scan') :
    (∃ cs : List String,
        cs.Perm ((scan.filter (fun item => !should_skip_file item out)).map
          (get_file_hash sha1hex content)) ∧
        List.Sorted (· ≤ ·) cs ∧
        get_package_verification_code sha1hex content scan out = sha1hex (String.join cs)) ∧
    get_package_verification_code sha1hex content scan out
      = get_package_verification_code sha1hex content scan' out := by
  constructor
  · exact ⟨_, List.mergeSort_perm _ _, List.sorted_mergeSort' _, rfl⟩
  · unfold get_package_verification_code
    dsimp only
    have hp : (((scan.filter (fun item => !should_skip_file item out)).map
        (get_file_hash sha1hex content))).Perm
        ((scan'.filter (fun item => !should_skip_file item out)).map
          (get_file_hash sha1hex content)) := (h.filter _).map _
    rw [mergeSort_congr_of_perm hp]

/-- Witness for C3 on a two-element scan list in both orders. -/
theorem get_package_verification_code_spec_witness :
    (["b", "a"] : List String).Perm ["a", "b"] ∧
    ((∃ cs : List String,
        cs.Perm (((["b", "a"] : List String).filter
          (fun item => !should_skip_file item "out")).map (get_file_hash id id)) ∧
        List.Sorted (· ≤ ·) cs ∧
        get_package_verification_code id id ["b", "a"] "out" = id (String.join cs)) ∧
      get_package_verification_code id id ["b", "a"] "out"
        = get_package_verification_code id id ["a", "b"] "out") :=
  ⟨by decide, get_package_verification_code_spec id id ["b", "a"] ["a", "b"] "out" (by decide)⟩

theorem validate_spdx_id_none (s : SnippetV) :
    validate_spdx_id s none = if s.spdx_id.isSome then .ok none else .error () := by
  unfold validate_spdx_id
  cases s.spdx_id
  · rfl
  · rfl

theorem validate_copyright_text_none (s : SnippetV) :
    validate_copyright_text s none
      = if isStrLike s.copyright then .ok none else .error () := by
  unfold validate_copyright_text
  cases hc : isStrLike s.copyright
  · simp [hc, msgAppend]
  · simp [hc]

theorem validate_snip_from_file_spdxid_none (s : SnippetV) :
    validate_snip_from_file_spdxid s none
      = if s.snip_from_file_spdxid.isSome then .ok none else .error () := by
  unfold validate_snip_from_file_spdxid
  cases s.snip_from_file_spdxid
  · rfl
  · rfl

theorem validate_concluded_license_none (s : SnippetV) :
    validate_concluded_license s none
      = if isLicLike s.conc_lics then .ok none else .error () := by
  unfold validate_concluded_license
  cases hc : isLicLike s.conc_lics
  · simp [hc, msgAppend]
  · simp [hc]

theorem licLoop_none (lics : List SnipFieldVal) :
    licLoop lics none = if lics.all isLicLike then .ok none else .error () := by
  induction lics with
  | nil => rfl
  | cons l ls ih =>
    unfold licLoop
    cases hl : isLicLike l
    · simp [hl, msgAppend]
    · simp [hl, ih]

theorem validate_licenses_in_snippet_none (s : SnippetV) :
    validate_licenses_in_snippet s none =
      if !s.licenses_in_snippet.isEmpty && s.licenses_in_snippet.all isLicLike
      then .ok none else .error () := by
  unfold validate_licenses_in_snippet
  cases hl : s.licenses_in_snippet with
  | nil => rfl
  | cons a as => simp [licLoop_none]

/-- C10: with the default `messages=None`, `Snippet.validate` either
returns `None` (exactly when the five checks pass) or dies with a
`TypeError` at the first check that must add a diagnostic; it never
returns a list of messages. -/
theorem snippet_validate_none_spec (s : SnippetV) :
    SnippetV.validate s none =
      if snippetChecksPass s then Except.ok none else Except.error () := by
  rcases s with ⟨sid, cr, sfid, cl, lics⟩
  cases sid <;> cases sfid <;> cases cr <;> cases cl <;>
    simp [SnippetV.validate, snippetChecksPass, validate_spdx_id, validate_copyright_text,
      validate_snip_from_file_spdxid, validate_concluded_license,
      validate_licenses_in_snippet_none, msgAppend, isStrLike, isLicLike]

/-- C4 counterexample: for `MIT AND (Apache-2.0 OR BSD-3-Clause)` the
writer produces a conjunction node with THREE members — the flattened
leaf set of the whole subtree — and creates no `DisjunctiveLicenseSet`
node at all, refuting the claimed 2-member conjunction containing a
disjunction node. -/
theorem conjunction_flattening_counterexample :
    (create_license_node [] [] 0 exampleConj).toOption.map
        (fun r => (memberNodes r.2.1 r.1).length) = some 3 ∧
    ¬ (create_license_node [] [] 0 exampleConj).toOption.map
        (fun r => (memberNodes r.2.1 r.1).length) = some 2 ∧
    (create_license_node [] [] 0 exampleConj).toOption.map
        (fun r => (r.2.1.filter (fun t =>
          t.pred == rdfTypePred
            && t.obj == Node.uri (spdxNs ++ "DisjunctiveLicenseSet"))).length)
      = some 0 := by
  decide

/-- C4 amended: emitting `MIT AND (Apache-2.0 OR BSD-3-Clause)` yields a
conjunction node whose members are exactly the three catalog leaves MIT,
Apache-2.0 and BSD-3-Clause (the nested disjunction is flattened away and
no disjunction node is created). -/
theorem conjunction_flattening_amended :
    (create_license_node [] [] 0 exampleConj).toOption.map
        (fun r => (memberNodes r.2.1 r.1,
          (r.2.1.filter (fun t =>
            t.pred == rdfTypePred
              && t.obj == Node.uri (spdxNs ++ "DisjunctiveLicenseSet"))).length))
      = some ([.uri (licenseUrl "MIT"), .uri (licenseUrl "Apache-2.0"),
          .uri (licenseUrl "BSD-3-Clause")], 0) := by
  decide

theorem fnMatches_addTriple_edge (g : Graph) (s o : Node) (nm : String) :
    fnMatches (addTriple g ⟨s, fileDependencyPred, o⟩) nm = fnMatches g nm := by
  unfold fnMatches
  refine addTriple_filter_of_neg _ _ _ ?_
  have hne : (fileDependencyPred == fileNamePred) = false := by decide
  simp [hne]

theorem depStep_foldl_spec (g : Graph) (subjN : Node) (fname : String) :
    ∀ (deps : List String) (gc : Graph) (ws : List String) (P : Triple → Prop),
      (∀ nm, fnMatches gc nm = fnMatches g nm) →
      (∀ t, t ∈ gc ↔ t ∈ g ∨ P t) →
      (∀ nm, fnMatches (deps.foldl (depStep subjN fname) (gc, ws)).1 nm = fnMatches g nm) ∧
      (deps.foldl (depStep subjN fname) (gc, ws)).2
        = ws ++ (deps.filter (fun dep => (fnMatches g dep).length != 1)).map (depWarn fname) ∧
      (∀ t, t ∈ (deps.foldl (depStep subjN fname) (gc, ws)).1 ↔ t ∈ g ∨ P t ∨
        ∃ dep ∈ deps, ∃ dt : Triple, fnMatches g dep = [dt] ∧
          t = ⟨subjN, fileDependencyPred, dt.subj⟩) := by
  intro deps
  induction deps with
  | nil =>
    intro gc ws P hfn hmem
    refine ⟨hfn, by simp, ?_⟩
    intro t
    simp [hmem t]
  | cons dep deps ih =>
    intro gc ws P hfn hmem
    rw [List.foldl_cons]
    cases hm : fnMatches gc dep with
    | nil =>
      have hms : fnMatches g dep = [] := (hfn dep).symm.trans hm
      have hstep : depStep subjN fname (gc, ws) dep = (gc, ws ++ [depWarn fname dep]) := by
        unfold depStep
        dsimp only
        rw [hm]
      rw [hstep]
      obtain ⟨h1, h2, h3⟩ := ih gc (ws ++ [depWarn fname dep]) P hfn hmem
      refine ⟨h1, ?_, ?_⟩
      · rw [h2]
        have hbad : ((fnMatches g dep).length != 1) = true := by
          rw [hms]
          rfl
        simp [List.filter_cons, hbad]
      · intro t
        rw [h3 t]
        constructor
        · rintro (h | h | ⟨d, hd, dt, hdt, rfl⟩)
          · exact Or.inl h
          · exact Or.inr (Or.inl h)
          · exact Or.inr (Or.inr ⟨d, List.mem_cons_of_mem _ hd, dt, hdt, rfl⟩)
        · rintro (h | h | ⟨d, hd, dt, hdt, rfl⟩)
          · exact Or.inl h
          · exact Or.inr (Or.inl h)
          · rcases List.mem_cons.1 hd with rfl | hd2
            · rw [hms] at hdt
              exact absurd hdt (by simp)
            · exact Or.inr (Or.inr ⟨d, hd2, dt, hdt, rfl⟩)
    | cons dt ds =>
      cases ds with
      | nil =>
        have hms : fnMatches g dep = [dt] := (hfn dep).symm.trans hm
        have hstep : depStep subjN fname (gc, ws) dep
            = (addTriple gc ⟨subjN, fileDependencyPred, dt.subj⟩, ws) := by
          unfold depStep
          dsimp only
          rw [hm]
        rw [hstep]
        have hfn2 : ∀ nm, fnMatches (addTriple gc ⟨subjN, fileDependencyPred, dt.subj⟩) nm
            = fnMatches g nm :=
          fun nm => (fnMatches_addTriple_edge gc subjN dt.subj nm).trans (hfn nm)
        have hmem2 : ∀ t, t ∈ addTriple gc ⟨subjN, fileDependencyPred, dt.subj⟩ ↔
            t ∈ g ∨ (P t ∨ t = ⟨subjN, fileDependencyPred, dt.subj⟩) := by
          intro t
          rw [mem_addTriple, hmem t, or_assoc]
        obtain ⟨h1, h2, h3⟩ := ih (addTriple gc ⟨subjN, fileDependencyPred, dt.subj⟩) ws
          (fun t => P t ∨ t = ⟨subjN, fileDependencyPred, dt.subj⟩) hfn2 hmem2
        refine ⟨h1, ?_, ?_⟩
        · rw [h2]
          have hgood : ((fnMatches g dep).length != 1) = false := by
            rw [hms]
            rfl
          simp [List.filter_cons, hgood]
        · intro t
          rw [h3 t]
          constructor
          · rintro (h | (h | rfl) | ⟨d, hd, dt2, hdt2, rfl⟩)
            · exact Or.inl h
            · exact Or.inr (Or.inl h)
            · exact Or.inr (Or.inr ⟨dep, List.mem_cons_self _ _, dt, hms, rfl⟩)
            · exact Or.inr (Or.inr ⟨d, List.mem_cons_of_mem _ hd, dt2, hdt2, rfl⟩)
          · rintro (h | h | ⟨d, hd, dt2, hdt2, rfl⟩)
            · exact Or.inl h
            · exact Or.inr (Or.inl (Or.inl h))
            · rcases List.mem_cons.1 hd with rfl | hd2
              · rw [hms] at hdt2
                cases hdt2
                exact Or.inr (Or.inl (Or.inr rfl))
              · exact Or.inr (Or.inr ⟨d, hd2, dt2, hdt2, rfl⟩)
      | cons d2 ds2 =>
        have hms : fnMatches g dep = dt :: d2 :: ds2 := (hfn dep).symm.trans hm
        have hstep : depStep subjN fname (gc, ws) dep = (gc, ws ++ [depWarn fname dep]) := by
          unfold depStep
          dsimp only
          rw [hm]
        rw [hstep]
        obtain ⟨h1, h2, h3⟩ := ih gc (ws ++ [depWarn fname dep]) P hfn hmem
        refine ⟨h1, ?_, ?_⟩
        · rw [h2]
          have hbad : ((fnMatches g dep).length != 1) = true := by
            rw [hms]
            simp
          simp [List.filter_cons, hbad]
        · intro t
          rw [h3 t]
          constructor
          · rintro (h | h | ⟨d, hd, dt2, hdt2, rfl⟩)
            · exact Or.inl h
            · exact Or.inr (Or.inl h)
            · exact Or.inr (Or.inr ⟨d, List.mem_cons_of_mem _ hd, dt2, hdt2, rfl⟩)
          · rintro (h | h | ⟨d, hd, dt2, hdt2, rfl⟩)
            · exact Or.inl h
            · exact Or.inr (Or.inl h)
            · rcases List.mem_cons.1 hd with rfl | hd2
              · rw [hms] at hdt2
                exact absurd hdt2 (by simp)
              · exact Or.inr (Or.inr ⟨d, hd2, dt2, hdt2, rfl⟩)

/-- C6: once the file itself resolves to exactly one emitted file node,
the dependency pass never raises: it returns the updated graph together
with one warning per dependency whose name does not match exactly one
`fileName` triple, and the graph gains exactly the `fileDependency`
edges of the dependencies with a unique match — an unresolved dependency
contributes no edge. -/
theorem add_file_dependencies_helper_spec (g : Graph) (f : WFile) (st : Triple)
    (h : fnMatches g f.name = [st]) :
    ∃ g' : Graph,
      add_file_dependencies_helper g f = .ok (g',
        (f.dependencies.filter (fun dep => (fnMatches g dep).length != 1)).map
          (depWarn f.name)) ∧
      (∀ t : Triple, t ∈ g' ↔ t ∈ g ∨
        ∃ dep ∈ f.dependencies, ∃ dt : Triple, fnMatches g dep = [dt] ∧
          t = ⟨st.subj, fileDependencyPred, dt.subj⟩) := by
  obtain ⟨h1, h2, h3⟩ := depStep_foldl_spec g st.subj f.name f.dependencies g []
    (fun _ => False) (fun nm => rfl) (fun t => by simp)
  refine ⟨(f.dependencies.foldl (depStep st.subj f.name) (g, [])).1, ?_, ?_⟩
  · unfold add_file_dependencies_helper
    rw [h]
    have hpair : f.dependencies.foldl (depStep st.subj f.name) (g, [])
        = ((f.dependencies.foldl (depStep st.subj f.name) (g, [])).1,
          (f.dependencies.filter (fun dep => (fnMatches g dep).length != 1)).map
            (depWarn f.name)) := by
      have h2' := h2
      rw [List.nil_append] at h2'
      exact Prod.ext rfl h2'
    dsimp only
    exact congrArg Except.ok hpair
  · intro t
    rw [h3 t]
    simp

/-- Witness for C6: files `./a.py` and `./b.py` are emitted; `./a.py`
depends on `./b.py` (resolved) and `./missing.py` (warned, no edge). -/
theorem add_file_dependencies_helper_spec_witness :
    fnMatches [⟨.uri "f1", fileNamePred, .lit "./a.py"⟩,
        ⟨.uri "f2", fileNamePred, .lit "./b.py"⟩] "./a.py"
      = [⟨.uri "f1", fileNamePred, .lit "./a.py"⟩] ∧
    (∃ g' : Graph,
      add_file_dependencies_helper
          [⟨.uri "f1", fileNamePred, .lit "./a.py"⟩,
            ⟨.uri "f2", fileNamePred, .lit "./b.py"⟩]
          ⟨"./a.py", ["./b.py", "./missing.py"]⟩ = .ok (g',
        ((⟨"./a.py", ["./b.py", "./missing.py"]⟩ : WFile).dependencies.filter
            (fun dep => (fnMatches [⟨.uri "f1", fileNamePred, .lit "./a.py"⟩,
              ⟨.uri "f2", fileNamePred, .lit "./b.py"⟩] dep).length != 1)).map
          (depWarn "./a.py")) ∧
      (∀ t : Triple, t ∈ g' ↔ t ∈ [⟨.uri "f1", fileNamePred, .lit "./a.py"⟩,
          ⟨.uri "f2", fileNamePred, .lit "./b.py"⟩] ∨
        ∃ dep ∈ (⟨"./a.py", ["./b.py", "./missing.py"]⟩ : WFile).dependencies,
          ∃ dt : Triple, fnMatches [⟨.uri "f1", fileNamePred, .lit "./a.py"⟩,
              ⟨.uri "f2", fileNamePred, .lit "./b.py"⟩] dep = [dt] ∧
            t = ⟨(⟨.uri "f1", fileNamePred, .lit "./a.py"⟩ : Triple).subj,
              fileDependencyPred, dt.subj⟩)) :=
  ⟨by decide,
    add_file_dependencies_helper_spec
      [⟨.uri "f1", fileNamePred, .lit "./a.py"⟩, ⟨.uri "f2", fileNamePred, .lit "./b.py"⟩]
      ⟨"./a.py", ["./b.py", "./missing.py"]⟩
      ⟨.uri "f1", fileNamePred, .lit "./a.py"⟩ (by decide)⟩

theorem renameNode_injective {ρ : Nat → Nat} (h : Function.Injective ρ) :
    Function.Injective (renameNode ρ) := by
  intro a b hab
  cases a <;> cases b <;> simp [renameNode] at hab <;> simp [hab]
  exact h hab

theorem renameTriple_injective {ρ : Nat → Nat} (h : Function.Injective ρ) :
    Function.Injective (renameTriple ρ) := by
  intro a b hab
  have h1 := congrArg Triple.subj hab
  have h2 := congrArg Triple.pred hab
  have h3 := congrArg Triple.obj hab
  simp only [renameTriple] at h1 h2 h3
  cases a
  cases b
  rw [Triple.mk.injEq]
  exact ⟨renameNode_injective h h1, h2, renameNode_injective h h3⟩

theorem mem_of_rel {ρ : Nat → Nat} {g1 g2 : Graph}
    (hinj : Function.Injective ρ) (hrel : (g1.map (renameTriple ρ)).Perm g2) (t : Triple) :
    t ∈ g1 ↔ renameTriple ρ t ∈ g2 := by
  rw [← hrel.mem_iff, List.mem_map]
  constructor
  · exact fun h => ⟨t, h, rfl⟩
  · rintro ⟨u, hu, hequ⟩
    rw [← renameTriple_injective hinj hequ]
    exact hu

theorem map_addTriple {ρ : Nat → Nat} (hinj : Function.Injective ρ) (g : Graph) (t : Triple) :
    (addTriple g t).map (renameTriple ρ) = addTriple (g.map (renameTriple ρ)) (renameTriple ρ t) := by
  unfold addTriple
  by_cases hm : t ∈ g
  · rw [if_pos hm, if_pos (List.mem_map_of_mem _ hm)]
  · rw [if_neg hm, if_neg, List.map_append]
    rfl
    intro hmem
    rcases List.mem_map.1 hmem with ⟨u, hu, hequ⟩
    rw [renameTriple_injective hinj hequ] at hu
    exact hm hu

theorem perm_addTriple {g g' : Graph} (h : g.Perm g') (t : Triple) :
    (addTriple g t).Perm (addTriple g' t) := by
  unfold addTriple
  by_cases hm : t ∈ g
  · rw [if_pos hm, if_pos (h.mem_iff.1 hm)]
    exact h
  · rw [if_neg hm, if_neg (fun hc => hm (h.mem_iff.2 hc))]
    exact h.append_right [t]

theorem graphBlanksLt_mono {g : Graph} {c c' : Nat} (h : graphBlanksLt g c) (hle : c ≤ c') :
    graphBlanksLt g c' := by
  intro t ht
  obtain ⟨h1, h2⟩ := h t ht
  constructor
  · cases hs : t.subj <;> simp [blankLt] at h1 ⊢ <;> rw [hs] at h1 <;>
      simp [blankLt] at h1 <;> omega
  · cases hs : t.obj <;> simp [blankLt] at h2 ⊢ <;> rw [hs] at h2 <;>
      simp [blankLt] at h2 <;> omega

theorem graphBlanksLt_addTriple {g : Graph} {c : Nat} {t : Triple}
    (h : graphBlanksLt g c) (h1 : blankLt c t.subj) (h2 : blankLt c t.obj) :
    graphBlanksLt (addTriple g t) c := by
  intro u hu
  rcases (mem_addTriple g t u).1 hu with hmem | rfl
  · exact h u hmem
  · exact ⟨h1, h2⟩

theorem uniqLic_addTriple {g : Graph} {t : Triple} (h : uniqLic g)
    (hp : (t.pred == licenseIdPred) = false) : uniqLic (addTriple g t) := by
  intro idf
  unfold licFilter
  rw [addTriple_filter_of_neg _ _ _ (by simp [hp])]
  exact h idf

theorem Sim_bump {ρ : Nat → Nat} {g1 g2 : Graph} {c1 c2 : Nat}
    (h : Sim ρ (g1, c1) (g2, c2)) : Sim ρ (g1, c1 + 1) (g2, c2 + 1) :=
  ⟨congrArg (· + 1) h.cntEq, h.bij, fun n hn => h.fix n (Nat.le_of_succ_le hn), h.rel,
    graphBlanksLt_mono h.blanks (Nat.le_succ c1), h.uniq⟩

theorem Sim_addTriple {ρ : Nat → Nat} {g1 g2 : Graph} {c1 c2 : Nat} {t : Triple}
    (h : Sim ρ (g1, c1) (g2, c2))
    (hb1 : blankLt c1 t.subj) (hb2 : blankLt c1 t.obj)
    (hp : (t.pred == licenseIdPred) = false) :
    Sim ρ (addTriple g1 t, c1) (addTriple g2 (renameTriple ρ t), c2) :=
  ⟨h.cntEq, h.bij, h.fix,
    by rw [map_addTriple h.bij.injective]; exact perm_addTriple h.rel _,
    graphBlanksLt_addTriple h.blanks hb1 hb2,
    uniqLic_addTriple h.uniq hp⟩

theorem Sim_addFixed {ρ : Nat → Nat} {g1 g2 : Graph} {c1 c2 : Nat} {t : Triple}
    (h : Sim ρ (g1, c1) (g2, c2)) (hfix : renameTriple ρ t = t)
    (hb1 : blankLt c1 t.subj) (hb2 : blankLt c1 t.obj)
    (hp : (t.pred == licenseIdPred) = false) :
    Sim ρ (addTriple g1 t, c1) (addTriple g2 t, c2) := by
  have := Sim_addTriple h hb1 hb2 hp
  rwa [hfix] at this

theorem licFilter_addTriple_ident {g : Graph} {c : Nat} {lid : String}
    (hlic : licFilter g lid = []) :
    ∀ idf, licFilter (addTriple g ⟨.blank c, licenseIdPred, .lit lid⟩) idf
      = if idf = lid then [⟨.blank c, licenseIdPred, .lit lid⟩] else licFilter g idf := by
  have hnotmem : (⟨.blank c, licenseIdPred, .lit lid⟩ : Triple) ∉ g := by
    intro hmem
    have hmem2 : (⟨.blank c, licenseIdPred, .lit lid⟩ : Triple) ∈ licFilter g lid := by
      unfold licFilter
      rw [List.mem_filter]
      exact ⟨hmem, by simp⟩
    rw [hlic] at hmem2
    exact absurd hmem2 (List.not_mem_nil _)
  intro idf
  by_cases hid : idf = lid
  · rw [if_pos hid, hid]
    unfold licFilter at hlic ⊢
    rw [addTriple_eq_append _ _ hnotmem, List.filter_append, hlic]
    simp
  · rw [if_neg hid]
    unfold licFilter
    refine addTriple_filter_of_neg _ _ _ ?_
    have hne : (Node.lit lid == Node.lit idf) = false := by
      simp only [beq_eq_false_iff_ne, ne_eq, Node.lit.injEq]
      exact fun hc => hid hc.symm
    simp [hne]

theorem Sim_addIdent {ρ : Nat → Nat} {g1 g2 : Graph} {c1 c2 cb : Nat} {lid : String}
    (h : Sim ρ (g1, c1) (g2, c2)) (hfix : ρ cb = cb) (hb : cb < c1)
    (hlic : licFilter g1 lid = []) :
    Sim ρ (addTriple g1 ⟨.blank cb, licenseIdPred, .lit lid⟩, c1)
      (addTriple g2 ⟨.blank cb, licenseIdPred, .lit lid⟩, c2) := by
  have hren : renameTriple ρ (⟨.blank cb, licenseIdPred, .lit lid⟩ : Triple)
      = ⟨.blank cb, licenseIdPred, .lit lid⟩ := by
    simp [renameTriple, renameNode, hfix]
  refine ⟨h.cntEq, h.bij, h.fix, ?_, ?_, ?_⟩
  · have := perm_addTriple h.rel (renameTriple ρ ⟨.blank cb, licenseIdPred, .lit lid⟩)
    rw [← map_addTriple h.bij.injective] at this
    rwa [hren] at this
  · exact graphBlanksLt_addTriple h.blanks (by simpa [blankLt] using hb) (by simp [blankLt])
  · intro idf
    rw [licFilter_addTriple_ident hlic idf]
    split
    · simp
    · exact h.uniq idf

theorem filter_map_rename {ρ : Nat → Nat} (p : Triple → Bool)
    (hp : ∀ t, p (renameTriple ρ t) = p t) (g : Graph) :
    (g.map (renameTriple ρ)).filter p = (g.filter p).map (renameTriple ρ) := by
  induction g with
  | nil => rfl
  | cons t g ih =>
    rw [List.map_cons, List.filter_cons, List.filter_cons, hp t]
    cases hpt : p t <;> simp [hpt, ih]

theorem licPred_compat {ρ : Nat → Nat} (idf : String) (t : Triple) :
    ((renameTriple ρ t).pred == licenseIdPred && (renameTriple ρ t).obj == Node.lit idf)
      = (t.pred == licenseIdPred && t.obj == Node.lit idf) := by
  rcases t with ⟨s, p, o⟩
  cases o <;> rfl

theorem fnPred_compat {ρ : Nat → Nat} (nm : String) (t : Triple) :
    ((renameTriple ρ t).pred == fileNamePred && (renameTriple ρ t).obj == Node.lit nm)
      = (t.pred == fileNamePred && t.obj == Node.lit nm) := by
  rcases t with ⟨s, p, o⟩
  cases o <;> rfl

theorem Sim_licFilter {ρ : Nat → Nat} {g1 g2 : Graph} {c1 c2 : Nat}
    (h : Sim ρ (g1, c1) (g2, c2)) (idf : String) :
    ((licFilter g1 idf).map (renameTriple ρ)).Perm (licFilter g2 idf) := by
  have hf := h.rel.filter (fun t => t.pred == licenseIdPred && t.obj == Node.lit idf)
  unfold licFilter
  rwa [filter_map_rename _ (licPred_compat idf)] at hf

theorem Sim_fnMatches {ρ : Nat → Nat} {g1 g2 : Graph} {c1 c2 : Nat}
    (h : Sim ρ (g1, c1) (g2, c2)) (nm : String) :
    ((fnMatches g1 nm).map (renameTriple ρ)).Perm (fnMatches g2 nm) := by
  have hf := h.rel.filter (fun t => t.pred == fileNamePred && t.obj == Node.lit nm)
  unfold fnMatches
  rwa [filter_map_rename _ (fnPred_compat nm)] at hf

theorem Sim_licFilter_nil {ρ : Nat → Nat} {g1 g2 : Graph} {c1 c2 : Nat}
    (h : Sim ρ (g1, c1) (g2, c2)) {idf : String} (hnil : licFilter g1 idf = []) :
    licFilter g2 idf = [] := by
  have := Sim_licFilter h idf
  rw [hnil] at this
  exact this.symm.eq_nil

theorem Sim_licFilter_cons {ρ : Nat → Nat} {g1 g2 : Graph} {c1 c2 : Nat}
    (h : Sim ρ (g1, c1) (g2, c2)) {idf : String} {t : Triple} {ts : List Triple}
    (hc : licFilter g1 idf = t :: ts) :
    licFilter g2 idf = [renameTriple ρ t] ∧ ts = [] := by
  have hlen := h.uniq idf
  rw [hc] at hlen
  have hts : ts = [] := by
    cases ts with
    | nil => rfl
    | cons a as => simp at hlen
  subst hts
  have hp := Sim_licFilter h idf
  rw [hc] at hp
  exact ⟨(List.perm_singleton.1 hp.symm).symm ▸ rfl, rfl⟩

theorem pred_and_false {b : Bool} {p q : String} (h : (p == q) = false) :
    (p == q && b) = false := by
  simp [h]

theorem blankLt_uri (c : Nat) (s : String) : blankLt c (.uri s) := trivial

theorem blankLt_lit (c : Nat) (s : String) : blankLt c (.lit s) := trivial

theorem blankLt_blank {c n : Nat} (h : n < c) : blankLt c (.blank n) := h

theorem renameNode_uri (ρ : Nat → Nat) (s : String) : renameNode ρ (.uri s) = .uri s := rfl

theorem renameNode_lit (ρ : Nat → Nat) (s : String) : renameNode ρ (.lit s) = .lit s := rfl

theorem renameNode_blank_fix {ρ : Nat → Nat} {n : Nat} (h : ρ n = n) :
    renameNode ρ (.blank n) = .blank n := by
  simp [renameNode, h]

theorem renameNode_to_special (ρ : Nat → Nat) (sv : SpecialValue) :
    renameNode ρ (to_special_value sv) = to_special_value sv := by
  cases sv <;> rfl

theorem blankLt_to_special (c : Nat) (sv : SpecialValue) : blankLt c (to_special_value sv) := by
  cases sv <;> trivial

theorem renameTriple_fixed {ρ : Nat → Nat} {t : Triple}
    (h1 : renameNode ρ t.subj = t.subj) (h2 : renameNode ρ t.obj = t.obj) :
    renameTriple ρ t = t := by
  rcases t with ⟨s, p, o⟩
  simp only [renameTriple] at h1 h2 ⊢
  rw [h1, h2]

theorem Sim_addNameTriple {ρ : Nat → Nat} {g1 g2 : Graph} {c1 c2 cb : Nat}
    (h : Sim ρ (g1, c1) (g2, c2)) (hcb : cb < c1) (hfix : ρ cb = cb)
    (fn : Option SpecialValue) :
    Sim ρ (addNameTriple cb fn g1, c1) (addNameTriple cb fn g2, c2) := by
  cases fn with
  | none => exact h
  | some nm =>
    exact Sim_addFixed h
      (renameTriple_fixed (renameNode_blank_fix hfix) (renameNode_to_special ρ nm))
      (blankLt_blank hcb) (blankLt_to_special c1 nm)
      (by decide : (licenseNamePred == licenseIdPred) = false)

theorem Sim_addCommentTriple {ρ : Nat → Nat} {g1 g2 : Graph} {c1 c2 cb : Nat}
    (h : Sim ρ (g1, c1) (g2, c2)) (hcb : cb < c1) (hfix : ρ cb = cb)
    (cm : Option String) :
    Sim ρ (addCommentTriple cb cm g1, c1) (addCommentTriple cb cm g2, c2) := by
  cases cm with
  | none => exact h
  | some s =>
    exact Sim_addFixed h
      (renameTriple_fixed (renameNode_blank_fix hfix) (renameNode_lit ρ s))
      (blankLt_blank hcb) (blankLt_lit c1 s)
      (by decide : (rdfsCommentPred == licenseIdPred) = false)

theorem Sim_addSeeAlsoTriples {ρ : Nat → Nat} {cb : Nat} (refs : List String) :
    ∀ {g1 g2 : Graph} {c1 c2 : Nat}, Sim ρ (g1, c1) (g2, c2) → cb < c1 → ρ cb = cb →
      Sim ρ (addSeeAlsoTriples cb refs g1, c1) (addSeeAlsoTriples cb refs g2, c2) := by
  induction refs with
  | nil => exact fun h _ _ => h
  | cons r rs ih =>
    intro g1 g2 c1 c2 h hcb hfix
    unfold addSeeAlsoTriples at ih ⊢
    rw [List.foldl_cons, List.foldl_cons]
    exact ih (Sim_addFixed h
      (renameTriple_fixed (renameNode_blank_fix hfix) (renameNode_uri ρ r))
      (blankLt_blank hcb) (blankLt_uri c1 r)
      (by decide : (rdfsSeeAlsoPred == licenseIdPred) = false)) hcb hfix

theorem create_extracted_license_fresh_sim {ρ : Nat → Nat} {g1 g2 : Graph} {c : Nat}
    {lic : ExtractedLicense} (h : Sim ρ (g1, c) (g2, c))
    (hlic : licFilter g1 lic.identifier = []) :
    Sim ρ (create_extracted_license_fresh g1 c lic, c + 1)
      (create_extracted_license_fresh g2 c lic, c + 1) := by
  have hfixc : ρ c = c := h.fix c le_rfl
  have hcc : c < c + 1 := Nat.lt_succ_self c
  have h1 := Sim_bump h
  have ht1 : renameTriple ρ (⟨.blank c, rdfTypePred,
      .uri (spdxNs ++ "ExtractedLicensingInfo")⟩ : Triple)
      = ⟨.blank c, rdfTypePred, .uri (spdxNs ++ "ExtractedLicensingInfo")⟩ :=
    renameTriple_fixed (renameNode_blank_fix hfixc) rfl
  have h2 := Sim_addFixed h1 ht1 (blankLt_blank hcc) (blankLt_uri _ _)
    (by decide : (rdfTypePred == licenseIdPred) = false)
  have hlic1 : licFilter (addTriple g1 ⟨.blank c, rdfTypePred,
      .uri (spdxNs ++ "ExtractedLicensingInfo")⟩) lic.identifier = [] := by
    unfold licFilter at hlic ⊢
    rw [addTriple_filter_of_neg _ _ _
      (pred_and_false (by decide : (rdfTypePred == licenseIdPred) = false))]
    exact hlic
  have h3 := Sim_addIdent h2 hfixc hcc hlic1
  have ht3 : renameTriple ρ (⟨.blank c, extractedTextPred, .lit lic.text⟩ : Triple)
      = ⟨.blank c, extractedTextPred, .lit lic.text⟩ :=
    renameTriple_fixed (renameNode_blank_fix hfixc) rfl
  have h4 := Sim_addFixed h3 ht3 (blankLt_blank hcc) (blankLt_lit _ _)
    (by decide : (extractedTextPred == licenseIdPred) = false)
  have h5 := Sim_addNameTriple h4 hcc hfixc lic.full_name
  have h6 := Sim_addSeeAlsoTriples lic.cross_ref h5 hcc hfixc
  have h7 := Sim_addCommentTriple h6 hcc hfixc lic.comment
  exact h7

theorem create_extracted_license_sim {ρ : Nat → Nat} {g1 g2 : Graph} {c1 c2 : Nat}
    (h : Sim ρ (g1, c1) (g2, c2)) (lic : ExtractedLicense) :
    NodeOk ρ (create_extracted_license g1 c1 lic) (create_extracted_license g2 c2 lic) := by
  have hcc : c1 = c2 := h.cntEq
  subst hcc
  unfold create_extracted_license
  cases hf : licFilter g1 lic.identifier with
  | cons t ts =>
    obtain ⟨h2f, hts⟩ := Sim_licFilter_cons h hf
    unfold licFilter at hf h2f
    rw [hf, h2f]
    refine ⟨rfl, ?_, h⟩
    have hmem : t ∈ g1 := by
      have : t ∈ g1.filter (fun u => u.pred == licenseIdPred
          && u.obj == Node.lit lic.identifier) := by
        rw [hf]
        exact List.mem_cons_self t ts
      exact (List.mem_filter.1 this).1
    exact (h.blanks t hmem).1
  | nil =>
    have h2f := Sim_licFilter_nil h hf
    have hfix := create_extracted_license_fresh_sim h hf
    unfold licFilter at hf h2f
    rw [hf, h2f]
    refine ⟨?_, blankLt_blank (Nat.lt_succ_self c1), hfix⟩
    exact (renameNode_blank_fix (h.fix c1 le_rfl)).symm

theorem setAdd_map {f : Node → Node} (hf : Function.Injective f) (l : List Node) (n : Node) :
    (setAdd l n).map f = setAdd (l.map f) (f n) := by
  unfold setAdd
  by_cases hm : n ∈ l
  · rw [if_pos hm, if_pos (List.mem_map_of_mem f hm)]
  · rw [if_neg hm, if_neg, List.map_append]
    rfl
    intro hc
    rcases List.mem_map.1 hc with ⟨u, hu, hequ⟩
    rw [hf hequ] at hu
    exact hm hu

theorem filter_id_len_le_one {α β : Type} [BEq β] [LawfulBEq β] {f : α → β} :
    ∀ {l : List α}, (l.map f).Nodup → ∀ v : β, (l.filter (fun x => f x == v)).length ≤ 1 := by
  intro l
  induction l with
  | nil => intro _ v; simp
  | cons a l ih =>
    intro hnd v
    rw [List.map_cons, List.nodup_cons] at hnd
    rw [List.filter_cons]
    cases hfa : (f a == v)
    · simpa using ih hnd.2 v
    · have hnil : l.filter (fun x => f x == v) = [] := by
        rw [List.eq_nil_iff_forall_not_mem]
        intro x hx
        rw [List.mem_filter] at hx
        have hfx : f x = v := by simpa using hx.2
        have hfav : f a = v := by simpa using hfa
        exact hnd.1 (by
          rw [List.mem_map]
          exact ⟨x, hx.1, by rw [hfx, hfav]⟩)
      simp [hnil]

theorem extr_filter_eq {l1 l2 : List ExtractedLicense} (hperm : l1.Perm l2)
    (hnodup : (l1.map ExtractedLicense.identifier).Nodup) (idf : String) :
    l1.filter (fun l => l.identifier == idf) = l2.filter (fun l => l.identifier == idf) := by
  have hp := hperm.filter (fun l => l.identifier == idf)
  have hlen := filter_id_len_le_one hnodup idf
  cases hf : l1.filter (fun l => l.identifier == idf) with
  | nil =>
    rw [hf] at hp
    exact (hp.symm.eq_nil).symm
  | cons a as =>
    rw [hf] at hp hlen
    cases as with
    | nil => exact (List.perm_singleton.1 hp.symm).symm
    | cons b bs => simp at hlen

theorem create_extracted_license_cnt_le (g : Graph) (c : Nat) (lic : ExtractedLicense) :
    c ≤ (create_extracted_license g c lic).2.2 := by
  unfold create_extracted_license
  cases g.filter (fun t => t.pred == licenseIdPred && t.obj == Node.lit lic.identifier)
  · exact Nat.le_succ c
  · exact le_rfl

theorem create_license_helper_sim {ρ : Nat → Nat} {g1 g2 : Graph} {c1 c2 : Nat}
    {doc_extr1 doc_extr2 : List ExtractedLicense}
    (hperm : doc_extr1.Perm doc_extr2)
    (hnodup : (doc_extr1.map ExtractedLicense.identifier).Nodup)
    (h : Sim ρ (g1, c1) (g2, c2)) (l : LicenseExpr) :
    ExcOk (NodeOk ρ) (create_license_helper doc_extr1 g1 c1 l)
      (create_license_helper doc_extr2 g2 c2 l) := by
  cases l with
  | extracted el => exact create_extracted_license_sim h el
  | conj a b => trivial
  | disj a b => trivial
  | lic identifier =>
    simp only [create_license_helper]
    by_cases hcat : rstripPlus identifier ∈ LICENSE_MAP
    · rw [if_pos hcat, if_pos hcat]
      exact ⟨rfl, blankLt_uri _ _, h⟩
    · rw [if_neg hcat, if_neg hcat, ← extr_filter_eq hperm hnodup identifier]
      cases doc_extr1.filter (fun l => l.identifier == identifier) with
      | nil => trivial
      | cons m ms => exact create_extracted_license_sim h m

theorem create_license_helper_cnt_le {doc_extr : List ExtractedLicense} {g : Graph}
    {c : Nat} {l : LicenseExpr} {r : Node × Graph × Nat}
    (h : create_license_helper doc_extr g c l = .ok r) : c ≤ r.2.2 := by
  cases l with
  | extracted el =>
    simp only [create_license_helper] at h
    cases h
    exact create_extracted_license_cnt_le g c el
  | conj a b => exact absurd h (by simp [create_license_helper])
  | disj a b => exact absurd h (by simp [create_license_helper])
  | lic identifier =>
    simp only [create_license_helper] at h
    by_cases hcat : rstripPlus identifier ∈ LICENSE_MAP
    · rw [if_pos hcat] at h
      cases h
      exact le_rfl
    · rw [if_neg hcat] at h
      cases hf : doc_extr.filter (fun l => l.identifier == identifier) with
      | nil => rw [hf] at h; cases h
      | cons m ms =>
        rw [hf] at h
        cases h
        exact create_extracted_license_cnt_le g c m

theorem blankLt_mono {c c' : Nat} {nd : Node} (h : blankLt c nd) (hle : c ≤ c') :
    blankLt c' nd := by
  cases nd with
  | blank n => exact Nat.lt_of_lt_of_le h hle
  | uri s => trivial
  | lit s => trivial

theorem licenses_from_tree_helper_cnt_le {doc_extr : List ExtractedLicense} :
    ∀ (l : LicenseExpr) (acc : List Node × Graph × Nat) (r : List Node × Graph × Nat),
      licenses_from_tree_helper doc_extr l acc = .ok r → acc.2.2 ≤ r.2.2 := by
  intro l
  induction l with
  | conj a b iha ihb =>
    intro acc r hr
    simp only [licenses_from_tree_helper] at hr
    cases h1 : licenses_from_tree_helper doc_extr a acc with
    | error e => rw [h1] at hr; cases hr
    | ok acc2 =>
      rw [h1] at hr
      exact le_trans (iha acc acc2 h1) (ihb acc2 r hr)
  | disj a b iha ihb =>
    intro acc r hr
    simp only [licenses_from_tree_helper] at hr
    cases h1 : licenses_from_tree_helper doc_extr a acc with
    | error e => rw [h1] at hr; cases hr
    | ok acc2 =>
      rw [h1] at hr
      exact le_trans (iha acc acc2 h1) (ihb acc2 r hr)
  | lic s =>
    intro acc r hr
    simp only [licenses_from_tree_helper] at hr
    cases h1 : create_license_helper doc_extr acc.2.1 acc.2.2 (.lic s) with
    | error e =>
      rw [show acc = (acc.1, acc.2.1, acc.2.2) from rfl, h1] at hr
      cases hr
    | ok nr =>
      rw [show acc = (acc.1, acc.2.1, acc.2.2) from rfl, h1] at hr
      cases hr
      exact create_license_helper_cnt_le h1
  | extracted el =>
    intro acc r hr
    simp only [licenses_from_tree_helper] at hr
    cases h1 : create_license_helper doc_extr acc.2.1 acc.2.2 (.extracted el) with
    | error e =>
      rw [show acc = (acc.1, acc.2.1, acc.2.2) from rfl, h1] at hr
      cases hr
    | ok nr =>
      rw [show acc = (acc.1, acc.2.1, acc.2.2) from rfl, h1] at hr
      cases hr
      exact create_license_helper_cnt_le h1

theorem licenses_from_tree_helper_sim {ρ : Nat → Nat}
    {doc_extr1 doc_extr2 : List ExtractedLicense}
    (hperm : doc_extr1.Perm doc_extr2)
    (hnodup : (doc_extr1.map ExtractedLicense.identifier).Nodup) :
    ∀ (l : LicenseExpr) {lics1 lics2 : List Node} {g1 g2 : Graph} {c1 c2 : Nat},
      Sim ρ (g1, c1) (g2, c2) → lics2 = lics1.map (renameNode ρ) →
      (∀ n ∈ lics1, blankLt c1 n) →
      ExcOk (fun a1 a2 => a2.1 = a1.1.map (renameNode ρ) ∧ Sim ρ a1.2 a2.2 ∧
          (∀ n ∈ a1.1, blankLt a1.2.2 n))
        (licenses_from_tree_helper doc_extr1 l (lics1, g1, c1))
        (licenses_from_tree_helper doc_extr2 l (lics2, g2, c2)) := by
  intro l
  induction l with
  | conj a b iha ihb =>
    intro lics1 lics2 g1 g2 c1 c2 h hl2 hbnd
    simp only [licenses_from_tree_helper]
    have ha := iha h hl2 hbnd
    cases hr1 : licenses_from_tree_helper doc_extr1 a (lics1, g1, c1) with
    | error e =>
      rw [hr1] at ha
      cases hr2 : licenses_from_tree_helper doc_extr2 a (lics2, g2, c2) with
      | error e2 => trivial
      | ok r2 => rw [hr2] at ha; exact absurd ha (by simp [ExcOk])
    | ok r1 =>
      rw [hr1] at ha
      cases hr2 : licenses_from_tree_helper doc_extr2 a (lics2, g2, c2) with
      | error e2 => rw [hr2] at ha; exact absurd ha (by simp [ExcOk])
      | ok r2 =>
        rw [hr2] at ha
        obtain ⟨hn, hs, hb⟩ := ha
        exact ihb hs hn hb
  | disj a b iha ihb =>
    intro lics1 lics2 g1 g2 c1 c2 h hl2 hbnd
    simp only [licenses_from_tree_helper]
    have ha := iha h hl2 hbnd
    cases hr1 : licenses_from_tree_helper doc_extr1 a (lics1, g1, c1) with
    | error e =>
      rw [hr1] at ha
      cases hr2 : licenses_from_tree_helper doc_extr2 a (lics2, g2, c2) with
      | error e2 => trivial
      | ok r2 => rw [hr2] at ha; exact absurd ha (by simp [ExcOk])
    | ok r1 =>
      rw [hr1] at ha
      cases hr2 : licenses_from_tree_helper doc_extr2 a (lics2, g2, c2) with
      | error e2 => rw [hr2] at ha; exact absurd ha (by simp [ExcOk])
      | ok r2 =>
        rw [hr2] at ha
        obtain ⟨hn, hs, hb⟩ := ha
        exact ihb hs hn hb
  | lic s =>
    intro lics1 lics2 g1 g2 c1 c2 h hl2 hbnd
    simp only [licenses_from_tree_helper]
    have hh := create_license_helper_sim hperm hnodup h (.lic s)
    cases hr1 : create_license_helper doc_extr1 g1 c1 (.lic s) with
    | error e =>
      rw [hr1] at hh
      cases hr2 : create_license_helper doc_extr2 g2 c2 (.lic s) with
      | error e2 => trivial
      | ok r2 => rw [hr2] at hh; exact absurd hh (by simp [ExcOk])
    | ok r1 =>
      rw [hr1] at hh
      cases hr2 : create_license_helper doc_extr2 g2 c2 (.lic s) with
      | error e2 => rw [hr2] at hh; exact absurd hh (by simp [ExcOk])
      | ok r2 =>
        rw [hr2] at hh
        obtain ⟨hn, hb, hs⟩ := hh
        rw [show r1 = (r1.1, r1.2.1, r1.2.2) from rfl, show r2 = (r2.1, r2.2.1, r2.2.2) from rfl]
        refine ⟨?_, hs, ?_⟩
        · rw [hl2, hn]
          exact (setAdd_map (renameNode_injective h.bij.injective) lics1 r1.1).symm
        · intro n hnmem
          unfold setAdd at hnmem
          by_cases hm : r1.1 ∈ lics1
          · rw [if_pos hm] at hnmem
            exact blankLt_mono (hbnd n hnmem) (create_license_helper_cnt_le hr1)
          · rw [if_neg hm] at hnmem
            rcases List.mem_append.1 hnmem with hmem | hmem
            · exact blankLt_mono (hbnd n hmem) (create_license_helper_cnt_le hr1)
            · rw [List.mem_singleton.1 hmem]
              exact hb
  | extracted el =>
    intro lics1 lics2 g1 g2 c1 c2 h hl2 hbnd
    simp only [licenses_from_tree_helper]
    have hh := create_license_helper_sim hperm hnodup h (.extracted el)
    cases hr1 : create_license_helper doc_extr1 g1 c1 (.extracted el) with
    | error e =>
      rw [hr1] at hh
      cases hr2 : create_license_helper doc_extr2 g2 c2 (.extracted el) with
      | error e2 => trivial
      | ok r2 => rw [hr2] at hh; exact absurd hh (by simp [ExcOk])
    | ok r1 =>
      rw [hr1] at hh
      cases hr2 : create_license_helper doc_extr2 g2 c2 (.extracted el) with
      | error e2 => rw [hr2] at hh; exact absurd hh (by simp [ExcOk])
      | ok r2 =>
        rw [hr2] at hh
        obtain ⟨hn, hb, hs⟩ := hh
        rw [show r1 = (r1.1, r1.2.1, r1.2.2) from rfl, show r2 = (r2.1, r2.2.1, r2.2.2) from rfl]
        refine ⟨?_, hs, ?_⟩
        · rw [hl2, hn]
          exact (setAdd_map (renameNode_injective h.bij.injective) lics1 r1.1).symm
        · intro n hnmem
          unfold setAdd at hnmem
          by_cases hm : r1.1 ∈ lics1
          · rw [if_pos hm] at hnmem
            exact blankLt_mono (hbnd n hnmem) (create_license_helper_cnt_le hr1)
          · rw [if_neg hm] at hnmem
            rcases List.mem_append.1 hnmem with hmem | hmem
            · exact blankLt_mono (hbnd n hmem) (create_license_helper_cnt_le hr1)
            · rw [List.mem_singleton.1 hmem]
              exact hb

theorem renameTriple_member {ρ : Nat → Nat} {cb : Nat} (hfix : ρ cb = cb) (n : Node) :
    renameTriple ρ ⟨.blank cb, memberPred, n⟩ = ⟨.blank cb, memberPred, renameNode ρ n⟩ := by
  unfold renameTriple
  dsimp only
  rw [renameNode_blank_fix hfix]

theorem Sim_member_fold {ρ : Nat → Nat} {cb : Nat} (hfix : ρ cb = cb) :
    ∀ (lics1 : List Node) {g1 g2 : Graph} {c1 c2 : Nat},
      Sim ρ (g1, c1) (g2, c2) → cb < c1 → (∀ n ∈ lics1, blankLt c1 n) →
      Sim ρ (lics1.foldl (fun g l => addTriple g ⟨.blank cb, memberPred, l⟩) g1, c1)
        ((lics1.map (renameNode ρ)).foldl
          (fun g l => addTriple g ⟨.blank cb, memberPred, l⟩) g2, c2) := by
  intro lics1
  induction lics1 with
  | nil => exact fun h _ _ => h
  | cons n ns ih =>
    intro g1 g2 c1 c2 h hcb hbnd
    rw [List.map_cons, List.foldl_cons, List.foldl_cons]
    have h1 := @Sim_addTriple ρ g1 g2 c1 c2 ⟨.blank cb, memberPred, n⟩ h
      (blankLt_blank hcb) (hbnd n (List.mem_cons_self n ns))
      (by decide : (memberPred == licenseIdPred) = false)
    rw [renameTriple_member hfix] at h1
    exact ih h1 hcb (fun m hm => hbnd m (List.mem_cons_of_mem n hm))

theorem create_conjunction_node_sim {ρ : Nat → Nat} {g1 g2 : Graph} {c1 c2 : Nat}
    {doc_extr1 doc_extr2 : List ExtractedLicense}
    (hperm : doc_extr1.Perm doc_extr2)
    (hnodup : (doc_extr1.map ExtractedLicense.identifier).Nodup)
    (h : Sim ρ (g1, c1) (g2, c2)) (e : LicenseExpr) :
    ExcOk (NodeOk ρ) (create_conjunction_node doc_extr1 g1 c1 e)
      (create_conjunction_node doc_extr2 g2 c2 e) := by
  have hcc : c1 = c2 := h.cntEq
  subst hcc
  have hfixc : ρ c1 = c1 := h.fix c1 le_rfl
  simp only [create_conjunction_node]
  unfold licenses_from_tree
  have ht : renameTriple ρ (⟨.blank c1, rdfTypePred,
      .uri (spdxNs ++ "ConjunctiveLicenseSet")⟩ : Triple)
      = ⟨.blank c1, rdfTypePred, .uri (spdxNs ++ "ConjunctiveLicenseSet")⟩ :=
    renameTriple_fixed (renameNode_blank_fix hfixc) rfl
  have h1 := Sim_addFixed (Sim_bump h) ht
    (blankLt_blank (Nat.lt_succ_self c1)) (blankLt_uri _ _)
    (by decide : (rdfTypePred == licenseIdPred) = false)
  have htree := licenses_from_tree_helper_sim hperm hnodup e h1 rfl
    (fun n hn => absurd hn (List.not_mem_nil n))
  simp only [List.map_nil] at htree
  cases hr1 : licenses_from_tree_helper doc_extr1 e ([],
      addTriple g1 ⟨.blank c1, rdfTypePred, .uri (spdxNs ++ "ConjunctiveLicenseSet")⟩,
      c1 + 1) with
  | error e1 =>
    rw [hr1] at htree
    cases hr2 : licenses_from_tree_helper doc_extr2 e ([],
        addTriple g2 ⟨.blank c1, rdfTypePred, .uri (spdxNs ++ "ConjunctiveLicenseSet")⟩,
        c1 + 1) with
    | error e2 => trivial
    | ok r2 => rw [hr2] at htree; exact absurd htree (by simp [ExcOk])
  | ok r1 =>
    rw [hr1] at htree
    cases hr2 : licenses_from_tree_helper doc_extr2 e ([],
        addTriple g2 ⟨.blank c1, rdfTypePred, .uri (spdxNs ++ "ConjunctiveLicenseSet")⟩,
        c1 + 1) with
    | error e2 => rw [hr2] at htree; exact absurd htree (by simp [ExcOk])
    | ok r2 =>
      rw [hr2] at htree
      obtain ⟨hn, hs, hb⟩ := htree
      have hclt : c1 < r1.2.2 :=
        Nat.lt_of_lt_of_le (Nat.lt_succ_self c1)
          (licenses_from_tree_helper_cnt_le e _ r1 hr1)
      have hfold := Sim_member_fold hfixc r1.1 hs hclt hb
      rw [← hn] at hfold
      rw [show r1 = (r1.1, r1.2.1, r1.2.2) from rfl, show r2 = (r2.1, r2.2.1, r2.2.2) from rfl]
      exact ⟨(renameNode_blank_fix hfixc).symm, blankLt_blank hclt, hfold⟩

theorem create_disjunction_node_sim {ρ : Nat → Nat} {g1 g2 : Graph} {c1 c2 : Nat}
    {doc_extr1 doc_extr2 : List ExtractedLicense}
    (hperm : doc_extr1.Perm doc_extr2)
    (hnodup : (doc_extr1.map ExtractedLicense.identifier).Nodup)
    (h : Sim ρ (g1, c1) (g2, c2)) (e : LicenseExpr) :
    ExcOk (NodeOk ρ) (create_disjunction_node doc_extr1 g1 c1 e)
      (create_disjunction_node doc_extr2 g2 c2 e) := by
  have hcc : c1 = c2 := h.cntEq
  subst hcc
  have hfixc : ρ c1 = c1 := h.fix c1 le_rfl
  simp only [create_disjunction_node]
  unfold licenses_from_tree
  have ht : renameTriple ρ (⟨.blank c1, rdfTypePred,
      .uri (spdxNs ++ "DisjunctiveLicenseSet")⟩ : Triple)
      = ⟨.blank c1, rdfTypePred, .uri (spdxNs ++ "DisjunctiveLicenseSet")⟩ :=
    renameTriple_fixed (renameNode_blank_fix hfixc) rfl
  have h1 := Sim_addFixed (Sim_bump h) ht
    (blankLt_blank (Nat.lt_succ_self c1)) (blankLt_uri _ _)
    (by decide : (rdfTypePred == licenseIdPred) = false)
  have htree := licenses_from_tree_helper_sim hperm hnodup e h1 rfl
    (fun n hn => absurd hn (List.not_mem_nil n))
  simp only [List.map_nil] at htree
  cases hr1 : licenses_from_tree_helper doc_extr1 e ([],
      addTriple g1 ⟨.blank c1, rdfTypePred, .uri (spdxNs ++ "DisjunctiveLicenseSet")⟩,
      c1 + 1) with
  | error e1 =>
    rw [hr1] at htree
    cases hr2 : licenses_from_tree_helper doc_extr2 e ([],
        addTriple g2 ⟨.blank c1, rdfTypePred, .uri (spdxNs ++ "DisjunctiveLicenseSet")⟩,
        c1 + 1) with
    | error e2 => trivial
    | ok r2 => rw [hr2] at htree; exact absurd htree (by simp [ExcOk])
  | ok r1 =>
    rw [hr1] at htree
    cases hr2 : licenses_from_tree_helper doc_extr2 e ([],
        addTriple g2 ⟨.blank c1, rdfTypePred, .uri (spdxNs ++ "DisjunctiveLicenseSet")⟩,
        c1 + 1) with
    | error e2 => rw [hr2] at htree; exact absurd htree (by simp [ExcOk])
    | ok r2 =>
      rw [hr2] at htree
      obtain ⟨hn, hs, hb⟩ := htree
      have hclt : c1 < r1.2.2 :=
        Nat.lt_of_lt_of_le (Nat.lt_succ_self c1)
          (licenses_from_tree_helper_cnt_le e _ r1 hr1)
      have hfold := Sim_member_fold hfixc r1.1 hs hclt hb
      rw [← hn] at hfold
      rw [show r1 = (r1.1, r1.2.1, r1.2.2) from rfl, show r2 = (r2.1, r2.2.1, r2.2.2) from rfl]
      exact ⟨(renameNode_blank_fix hfixc).symm, blankLt_blank hclt, hfold⟩

theorem create_license_node_sim {ρ : Nat → Nat} {g1 g2 : Graph} {c1 c2 : Nat}
    {doc_extr1 doc_extr2 : List ExtractedLicense}
    (hperm : doc_extr1.Perm doc_extr2)
    (hnodup : (doc_extr1.map ExtractedLicense.identifier).Nodup)
    (h : Sim ρ (g1, c1) (g2, c2)) (e : LicenseExpr) :
    ExcOk (NodeOk ρ) (create_license_node doc_extr1 g1 c1 e)
      (create_license_node doc_extr2 g2 c2 e) := by
  cases e with
  | conj a b => exact create_conjunction_node_sim hperm hnodup h (.conj a b)
  | disj a b => exact create_disjunction_node_sim hperm hnodup h (.disj a b)
  | lic s => exact create_license_helper_sim hperm hnodup h (.lic s)
  | extracted el => exact create_license_helper_sim hperm hnodup h (.extracted el)

theorem license_or_special_sim {ρ : Nat → Nat} {g1 g2 : Graph} {c1 c2 : Nat}
    {doc_extr1 doc_extr2 : List ExtractedLicense}
    (hperm : doc_extr1.Perm doc_extr2)
    (hnodup : (doc_extr1.map ExtractedLicense.identifier).Nodup)
    (h : Sim ρ (g1, c1) (g2, c2)) (l : LicOrSpecial) :
    ExcOk (NodeOk ρ) (license_or_special doc_extr1 g1 c1 l)
      (license_or_special doc_extr2 g2 c2 l) := by
  cases l with
  | noAssert => exact ⟨rfl, blankLt_uri _ _, h⟩
  | spdxNone => exact ⟨rfl, blankLt_uri _ _, h⟩
  | expr e => exact create_license_node_sim hperm hnodup h e

theorem create_conjunction_node_cnt_le {doc_extr : List ExtractedLicense} {g : Graph}
    {c : Nat} {e : LicenseExpr} {r : Node × Graph × Nat}
    (h : create_conjunction_node doc_extr g c e = .ok r) : c ≤ r.2.2 := by
  simp only [create_conjunction_node] at h
  unfold licenses_from_tree at h
  cases hr : licenses_from_tree_helper doc_extr e ([],
      addTriple g ⟨.blank c, rdfTypePred, .uri (spdxNs ++ "ConjunctiveLicenseSet")⟩,
      c + 1) with
  | error e2 => rw [hr] at h; cases h
  | ok acc =>
    rw [hr] at h
    cases h
    exact le_trans (Nat.le_succ c) (licenses_from_tree_helper_cnt_le e _ acc hr)

theorem create_disjunction_node_cnt_le {doc_extr : List ExtractedLicense} {g : Graph}
    {c : Nat} {e : LicenseExpr} {r : Node × Graph × Nat}
    (h : create_disjunction_node doc_extr g c e = .ok r) : c ≤ r.2.2 := by
  simp only [create_disjunction_node] at h
  unfold licenses_from_tree at h
  cases hr : licenses_from_tree_helper doc_extr e ([],
      addTriple g ⟨.blank c, rdfTypePred, .uri (spdxNs ++ "DisjunctiveLicenseSet")⟩,
      c + 1) with
  | error e2 => rw [hr] at h; cases h
  | ok acc =>
    rw [hr] at h
    cases h
    exact le_trans (Nat.le_succ c) (licenses_from_tree_helper_cnt_le e _ acc hr)

theorem create_license_node_cnt_le {doc_extr : List ExtractedLicense} {g : Graph}
    {c : Nat} {e : LicenseExpr} {r : Node × Graph × Nat}
    (h : create_license_node doc_extr g c e = .ok r) : c ≤ r.2.2 := by
  cases e with
  | conj a b => exact create_conjunction_node_cnt_le h
  | disj a b => exact create_disjunction_node_cnt_le h
  | lic s =>
    simp only [create_license_node] at h
    exact create_license_helper_cnt_le h
  | extracted el =>
    simp only [create_license_node] at h
    exact create_license_helper_cnt_le h

theorem license_or_special_cnt_le {doc_extr : List ExtractedLicense} {g : Graph}
    {c : Nat} {l : LicOrSpecial} {r : Node × Graph × Nat}
    (h : license_or_special doc_extr g c l = .ok r) : c ≤ r.2.2 := by
  cases l with
  | noAssert => cases h; exact le_rfl
  | spdxNone => cases h; exact le_rfl
  | expr e => exact create_license_node_cnt_le h

theorem create_checksum_node_sim {ρ : Nat → Nat} {g1 g2 : Graph} {c1 c2 : Nat}
    (h : Sim ρ (g1, c1) (g2, c2)) (chk : Algorithm) :
    NodeOk ρ (create_checksum_node chk g1 c1) (create_checksum_node chk g2 c2) := by
  have hcc : c1 = c2 := h.cntEq
  subst hcc
  have hfixc : ρ c1 = c1 := h.fix c1 le_rfl
  unfold create_checksum_node
  have ht1 : renameTriple ρ (⟨.blank c1, rdfTypePred, .uri (spdxNs ++ "Checksum")⟩ : Triple)
      = ⟨.blank c1, rdfTypePred, .uri (spdxNs ++ "Checksum")⟩ :=
    renameTriple_fixed (renameNode_blank_fix hfixc) rfl
  have h1 := Sim_addFixed (Sim_bump h) ht1 (blankLt_blank (Nat.lt_succ_self c1))
    (blankLt_uri _ _) (by decide : (rdfTypePred == licenseIdPred) = false)
  have ht2 : renameTriple ρ (⟨.blank c1, algorithmPred, .lit chk.identifier⟩ : Triple)
      = ⟨.blank c1, algorithmPred, .lit chk.identifier⟩ :=
    renameTriple_fixed (renameNode_blank_fix hfixc) rfl
  have h2 := Sim_addFixed h1 ht2 (blankLt_blank (Nat.lt_succ_self c1)) (blankLt_lit _ _)
    (by decide : (algorithmPred == licenseIdPred) = false)
  have ht3 : renameTriple ρ (⟨.blank c1, checksumValuePred, .lit chk.value⟩ : Triple)
      = ⟨.blank c1, checksumValuePred, .lit chk.value⟩ :=
    renameTriple_fixed (renameNode_blank_fix hfixc) rfl
  have h3 := Sim_addFixed h2 ht3 (blankLt_blank (Nat.lt_succ_self c1)) (blankLt_lit _ _)
    (by decide : (checksumValuePred == licenseIdPred) = false)
  exact ⟨(renameNode_blank_fix hfixc).symm, blankLt_blank (Nat.lt_succ_self c1), h3⟩

theorem create_checksum_node_cnt_le (chk : Algorithm) (g : Graph) (c : Nat) :
    c ≤ (create_checksum_node chk g c).2.2 :=
  Nat.le_succ c

theorem Sim_addOptLit {ρ : Nat → Nat} {g1 g2 : Graph} {c1 c2 : Nat} {s1 : Node}
    (h : Sim ρ (g1, c1) (g2, c2)) (hb : blankLt c1 s1) {pred : String}
    (hp : (pred == licenseIdPred) = false) (v : Option String) :
    Sim ρ (addOptLit s1 pred v g1, c1) (addOptLit (renameNode ρ s1) pred v g2, c2) := by
  cases v with
  | none => exact h
  | some s =>
    exact @Sim_addTriple ρ g1 g2 c1 c2 ⟨s1, pred, .lit s⟩ h hb (blankLt_lit _ _) hp

theorem Sim_addLitTriples {ρ : Nat → Nat} {s1 : Node} {pred : String} :
    ∀ (objs : List Node) {g1 g2 : Graph} {c1 c2 : Nat},
      Sim ρ (g1, c1) (g2, c2) → blankLt c1 s1 → (pred == licenseIdPred) = false →
      (∀ o ∈ objs, renameNode ρ o = o ∧ blankLt c1 o) →
      Sim ρ (addLitTriples s1 pred objs g1, c1)
        (addLitTriples (renameNode ρ s1) pred objs g2, c2) := by
  intro objs
  induction objs with
  | nil => exact fun h _ _ _ => h
  | cons o os ih =>
    intro g1 g2 c1 c2 h hb hp hobjs
    unfold addLitTriples at ih ⊢
    rw [List.foldl_cons, List.foldl_cons]
    have hstep := @Sim_addTriple ρ g1 g2 c1 c2 ⟨s1, pred, o⟩ h hb
      (hobjs o (List.mem_cons_self o os)).2 hp
    have hren : renameTriple ρ (⟨s1, pred, o⟩ : Triple)
        = ⟨renameNode ρ s1, pred, o⟩ := by
      unfold renameTriple
      dsimp only
      rw [(hobjs o (List.mem_cons_self o os)).1]
    rw [hren] at hstep
    exact ih hstep hb hp (fun m hm => hobjs m (List.mem_cons_of_mem o hm))

theorem ExcOk_mono {α β : Type} {rel rel2 : α → β → Prop}
    (h : ∀ a b, rel a b → rel2 a b) :
    ∀ {x : Except String α} {y : Except String β}, ExcOk rel x y → ExcOk rel2 x y := by
  intro x y hxy
  cases x <;> cases y
  · trivial
  · exact hxy.elim
  · exact hxy.elim
  · exact h _ _ hxy

theorem addLicenseTriples_sim {ρ : Nat → Nat}
    {doc_extr1 doc_extr2 : List ExtractedLicense}
    (hperm : doc_extr1.Perm doc_extr2)
    (hnodup : (doc_extr1.map ExtractedLicense.identifier).Nodup)
    {s1 : Node} {pred : String} (hp : (pred == licenseIdPred) = false) :
    ∀ (lics : List LicOrSpecial) {g1 g2 : Graph} {c1 c2 : Nat},
      Sim ρ (g1, c1) (g2, c2) → blankLt c1 s1 →
      ExcOk (fun r1 r2 => Sim ρ r1 r2 ∧ c1 ≤ r1.2)
        (addLicenseTriples doc_extr1 s1 pred lics g1 c1)
        (addLicenseTriples doc_extr2 (renameNode ρ s1) pred lics g2 c2) := by
  intro lics
  induction lics with
  | nil => exact fun h _ => ⟨h, le_rfl⟩
  | cons l ls ih =>
    intro g1 g2 c1 c2 h hb
    unfold addLicenseTriples at ih ⊢
    rw [List.foldlM_cons, List.foldlM_cons]
    have hl := license_or_special_sim hperm hnodup h l
    cases hl1 : license_or_special doc_extr1 g1 c1 l with
    | error e =>
      rw [hl1] at hl
      cases hl2 : license_or_special doc_extr2 g2 c2 l with
      | error e2 => trivial
      | ok r2 =>
        rw [hl2] at hl
        exact hl.elim
    | ok r1 =>
      rw [hl1] at hl
      cases hl2 : license_or_special doc_extr2 g2 c2 l with
      | error e2 =>
        rw [hl2] at hl
        exact hl.elim
      | ok r2 =>
        rw [hl2] at hl
        obtain ⟨hn, hbn, hs⟩ := hl
        have hble : c1 ≤ r1.2.2 := license_or_special_cnt_le hl1
        have hstep := @Sim_addTriple ρ r1.2.1 r2.2.1 r1.2.2 r2.2.2 ⟨s1, pred, r1.1⟩ hs
          (blankLt_mono hb hble) hbn hp
        have hren : renameTriple ρ (⟨s1, pred, r1.1⟩ : Triple)
            = ⟨renameNode ρ s1, pred, r2.1⟩ := by
          unfold renameTriple
          dsimp only
          rw [hn]
        rw [hren] at hstep
        have hrec := ih hstep (blankLt_mono hb hble)
        exact ExcOk_mono (fun a b hab => ⟨hab.1, le_trans hble hab.2⟩) hrec

theorem blankLt_file_node (c : Nat) (f : WFileFull) : blankLt c (file_node_uri f) := trivial

theorem file_pre_sim {ρ : Nat → Nat} {g1 g2 : Graph} {c1 c2 : Nat}
    (h : Sim ρ (g1, c1) (g2, c2)) (f : WFileFull) :
    Sim ρ (file_pre f g1, c1) (file_pre f g2, c2) := by
  unfold file_pre
  have h1 := @Sim_addFixed ρ g1 g2 c1 c2
    ⟨file_node_uri f, rdfTypePred, .uri (spdxNs ++ "File")⟩ h rfl
    (blankLt_file_node c1 f) (blankLt_uri _ _)
    (by decide : (rdfTypePred == licenseIdPred) = false)
  have h2 := @Sim_addFixed ρ _ _ c1 c2
    ⟨file_node_uri f, fileNamePred, .lit f.name⟩ h1 rfl
    (blankLt_file_node c1 f) (blankLt_lit _ _)
    (by decide : (fileNamePred == licenseIdPred) = false)
  have h3 := Sim_addOptLit h2 (blankLt_file_node c1 f)
    (by decide : (rdfsCommentPred == licenseIdPred) = false) f.comment
  cases f.type with
  | none => exact h3
  | some ft =>
    exact @Sim_addFixed ρ _ _ c1 c2
      ⟨file_node_uri f, fileTypePred, .uri (fileTypeUri ft)⟩ h3 rfl
      (blankLt_file_node c1 f) (blankLt_uri _ _)
      (by decide : (fileTypePred == licenseIdPred) = false)

theorem file_tail_sim {ρ : Nat → Nat} {g1 g2 : Graph} {c1 c2 : Nat}
    (h : Sim ρ (g1, c1) (g2, c2)) (f : WFileFull) :
    Sim ρ (file_tail f g1, c1) (file_tail f g2, c2) := by
  unfold file_tail
  have h1 := Sim_addOptLit h (blankLt_file_node c1 f)
    (by decide : (licenseCommentsPred == licenseIdPred) = false) f.license_comment
  have h2 := @Sim_addFixed ρ _ _ c1 c2
    ⟨file_node_uri f, copyrightTextPred, to_special_value f.copyright⟩ h1
    (renameTriple_fixed rfl (renameNode_to_special ρ f.copyright))
    (blankLt_file_node c1 f) (blankLt_to_special _ _)
    (by decide : (copyrightTextPred == licenseIdPred) = false)
  have h3 := Sim_addOptLit h2 (blankLt_file_node c1 f)
    (by decide : (noticeTextPred == licenseIdPred) = false) f.notice
  have h4 := Sim_addLitTriples (f.contributors.map Node.lit) h3 (blankLt_file_node c1 f)
    (by decide : (fileContributorPred == licenseIdPred) = false)
    (by
      intro o ho
      rcases List.mem_map.1 ho with ⟨s, _, rfl⟩
      exact ⟨rfl, blankLt_lit _ _⟩)
  exact h4

theorem create_file_node_sim {ρ : Nat → Nat} {g1 g2 : Graph} {c1 c2 : Nat}
    {doc_extr1 doc_extr2 : List ExtractedLicense}
    (hperm : doc_extr1.Perm doc_extr2)
    (hnodup : (doc_extr1.map ExtractedLicense.identifier).Nodup)
    (h : Sim ρ (g1, c1) (g2, c2)) (f : WFileFull) :
    ExcOk (NodeOk ρ) (create_file_node doc_extr1 f g1 c1)
      (create_file_node doc_extr2 f g2 c2) := by
  have hcc : c1 = c2 := h.cntEq
  subst hcc
  unfold create_file_node
  obtain ⟨hcn, hcb, hcs⟩ := create_checksum_node_sim (file_pre_sim h f) f.chk_sum
  rcases hk1 : create_checksum_node f.chk_sum (file_pre f g1) c1 with ⟨kn1, kg1, kc1⟩
  rcases hk2 : create_checksum_node f.chk_sum (file_pre f g2) c1 with ⟨kn2, kg2, kc2⟩
  rw [hk1, hk2] at hcn hcs
  rw [hk1] at hcb
  dsimp only at hcn hcb hcs ⊢
  have hkc : kc1 = kc2 := hcs.cntEq
  subst hkc
  have hadd := @Sim_addTriple ρ kg1 kg2 kc1 kc1
    ⟨file_node_uri f, checksumPred, kn1⟩ hcs (blankLt_file_node kc1 f) hcb
    (by decide : (checksumPred == licenseIdPred) = false)
  have hren : renameTriple ρ (⟨file_node_uri f, checksumPred, kn1⟩ : Triple)
      = ⟨file_node_uri f, checksumPred, kn2⟩ := by
    unfold renameTriple
    dsimp only
    rw [← hcn]
    rfl
  rw [hren] at hadd
  have hl := license_or_special_sim hperm hnodup hadd f.conc_lics
  rcases hl1 : license_or_special doc_extr1
      (addTriple kg1 ⟨file_node_uri f, checksumPred, kn1⟩) kc1 f.conc_lics with e1 | r1
  · rcases hl2 : license_or_special doc_extr2
        (addTriple kg2 ⟨file_node_uri f, checksumPred, kn2⟩) kc1 f.conc_lics with e2 | r2
    · trivial
    · rw [hl1, hl2] at hl
      exact hl.elim
  · rcases hl2 : license_or_special doc_extr2
        (addTriple kg2 ⟨file_node_uri f, checksumPred, kn2⟩) kc1 f.conc_lics with e2 | r2
    · rw [hl1, hl2] at hl
      exact hl.elim
    · rw [hl1, hl2] at hl
      obtain ⟨ln1, lg1, lc1⟩ := r1
      obtain ⟨ln2, lg2, lc2⟩ := r2
      obtain ⟨hn2, hb2, hs2⟩ := hl
      dsimp only at hn2 hb2 hs2 ⊢
      have hlc : lc1 = lc2 := hs2.cntEq
      subst hlc
      have hadd2 := @Sim_addTriple ρ lg1 lg2 lc1 lc1
        ⟨file_node_uri f, licenseConcludedPred, ln1⟩ hs2 (blankLt_file_node lc1 f) hb2
        (by decide : (licenseConcludedPred == licenseIdPred) = false)
      have hren2 : renameTriple ρ (⟨file_node_uri f, licenseConcludedPred, ln1⟩ : Triple)
          = ⟨file_node_uri f, licenseConcludedPred, ln2⟩ := by
        unfold renameTriple
        dsimp only
        rw [← hn2]
        rfl
      rw [hren2] at hadd2
      have hlt := addLicenseTriples_sim hperm hnodup
        (by decide : (licenseInfoInFilePred == licenseIdPred) = false)
        f.licenses_in_file hadd2 (blankLt_file_node lc1 f)
      have hrn : renameNode ρ (file_node_uri f) = file_node_uri f := rfl
      rw [hrn] at hlt
      rcases hr1 : addLicenseTriples doc_extr1 (file_node_uri f) licenseInfoInFilePred
          f.licenses_in_file
          (addTriple lg1 ⟨file_node_uri f, licenseConcludedPred, ln1⟩) lc1 with e1 | q1
      · rcases hr2 : addLicenseTriples doc_extr2 (file_node_uri f) licenseInfoInFilePred
            f.licenses_in_file
            (addTriple lg2 ⟨file_node_uri f, licenseConcludedPred, ln2⟩) lc1 with e2 | q2
        · trivial
        · rw [hr1, hr2] at hlt
          exact hlt.elim
      · rcases hr2 : addLicenseTriples doc_extr2 (file_node_uri f) licenseInfoInFilePred
            f.licenses_in_file
            (addTriple lg2 ⟨file_node_uri f, licenseConcludedPred, ln2⟩) lc1 with e2 | q2
        · rw [hr1, hr2] at hlt
          exact hlt.elim
        · rw [hr1, hr2] at hlt
          obtain ⟨qg1, qc1⟩ := q1
          obtain ⟨qg2, qc2⟩ := q2
          obtain ⟨hsq, _⟩ := hlt
          exact ⟨rfl, trivial, file_tail_sim hsq f⟩

theorem writeFiles_sim {ρ : Nat → Nat}
    {doc_extr1 doc_extr2 : List ExtractedLicense}
    (hperm : doc_extr1.Perm doc_extr2)
    (hnodup : (doc_extr1.map ExtractedLicense.identifier).Nodup) :
    ∀ (files : List WFileFull) {g1 g2 : Graph} {c1 c2 : Nat},
      Sim ρ (g1, c1) (g2, c2) →
      ExcOk (Sim ρ) (writeFiles doc_extr1 docNode files g1 c1)
        (writeFiles doc_extr2 docNode files g2 c2) := by
  intro files
  induction files with
  | nil => exact fun h => h
  | cons f fs ih =>
    intro g1 g2 c1 c2 h
    unfold writeFiles at ih ⊢
    rw [List.foldlM_cons, List.foldlM_cons]
    have hf := create_file_node_sim hperm hnodup h f
    cases hc1 : create_file_node doc_extr1 f g1 c1 with
    | error e =>
      rw [hc1] at hf
      cases hc2 : create_file_node doc_extr2 f g2 c2 with
      | error e2 => trivial
      | ok r2 =>
        rw [hc2] at hf
        exact hf.elim
    | ok r1 =>
      rw [hc1] at hf
      cases hc2 : create_file_node doc_extr2 f g2 c2 with
      | error e2 =>
        rw [hc2] at hf
        exact hf.elim
      | ok r2 =>
        rw [hc2] at hf
        obtain ⟨hn, hbn, hs⟩ := hf
        have hstep := @Sim_addTriple ρ r1.2.1 r2.2.1 r1.2.2 r2.2.2
          ⟨docNode, referencesFilePred, r1.1⟩ hs (blankLt_uri _ _) hbn
          (by decide : (referencesFilePred == licenseIdPred) = false)
        have hren : renameTriple ρ (⟨docNode, referencesFilePred, r1.1⟩ : Triple)
            = ⟨docNode, referencesFilePred, r2.1⟩ := by
          unfold renameTriple
          dsimp only
          rw [hn]
          rfl
        rw [hren] at hstep
        exact ih hstep

theorem depStep_sim_step {ρ : Nat → Nat} {g1 g2 : Graph} {c1 c2 : Nat} {subjN : Node}
    (hb : blankLt c1 subjN) (fname d : String) (w1 w2 : List String)
    (h : Sim ρ (g1, c1) (g2, c2)) :
    Sim ρ ((depStep subjN fname (g1, w1) d).1, c1)
      ((depStep (renameNode ρ subjN) fname (g2, w2) d).1, c2) := by
  unfold depStep
  have hp := Sim_fnMatches h d
  cases hm1 : fnMatches g1 d with
  | nil =>
    rw [hm1] at hp
    have hm2 : fnMatches g2 d = [] := hp.symm.eq_nil
    rw [hm2]
    exact h
  | cons dt rest =>
    cases rest with
    | nil =>
      rw [hm1] at hp
      have hm2 : fnMatches g2 d = [renameTriple ρ dt] := List.perm_singleton.1 hp.symm
      rw [hm2]
      have hmem : dt ∈ g1 := List.mem_of_mem_filter (hm1 ▸ List.mem_singleton_self dt)
      have hbdt : blankLt c1 dt.subj := (h.blanks dt hmem).1
      have hstep := @Sim_addTriple ρ g1 g2 c1 c2 ⟨subjN, fileDependencyPred, dt.subj⟩
        h hb hbdt (by decide : (fileDependencyPred == licenseIdPred) = false)
      have hren : renameTriple ρ (⟨subjN, fileDependencyPred, dt.subj⟩ : Triple)
          = ⟨renameNode ρ subjN, fileDependencyPred, (renameTriple ρ dt).subj⟩ := rfl
      rw [hren] at hstep
      exact hstep
    | cons dt2 rest2 =>
      rw [hm1] at hp
      have hlen := hp.length_eq
      cases hm2 : fnMatches g2 d with
      | nil =>
        rw [hm2] at hlen
        simp at hlen
      | cons a as =>
        cases as with
        | nil =>
          rw [hm2] at hlen
          simp at hlen
        | cons b bs =>
          exact h

theorem depStep_fold_sim {ρ : Nat → Nat} {c1 c2 : Nat} {subjN : Node}
    (hb : blankLt c1 subjN) (fname : String) :
    ∀ (deps : List String) {a1 a2 : Graph × List String},
      Sim ρ (a1.1, c1) (a2.1, c2) →
      Sim ρ ((deps.foldl (depStep subjN fname) a1).1, c1)
        ((deps.foldl (depStep (renameNode ρ subjN) fname) a2).1, c2) := by
  intro deps
  induction deps with
  | nil => exact fun h => h
  | cons d ds ih =>
    intro a1 a2 h
    rw [List.foldl_cons, List.foldl_cons]
    exact ih (depStep_sim_step hb fname d a1.2 a2.2 h)

theorem add_file_dependencies_helper_sim {ρ : Nat → Nat} {g1 g2 : Graph} {c1 c2 : Nat}
    (h : Sim ρ (g1, c1) (g2, c2)) (f : WFile) :
    ExcOk (fun r1 r2 => Sim ρ (r1.1, c1) (r2.1, c2))
      (add_file_dependencies_helper g1 f) (add_file_dependencies_helper g2 f) := by
  unfold add_file_dependencies_helper
  have hp := Sim_fnMatches h f.name
  cases hm1 : fnMatches g1 f.name with
  | nil =>
    rw [hm1] at hp
    have hm2 : fnMatches g2 f.name = [] := hp.symm.eq_nil
    rw [hm2]
    trivial
  | cons st rest =>
    cases rest with
    | nil =>
      rw [hm1] at hp
      have hm2 : fnMatches g2 f.name = [renameTriple ρ st] := List.perm_singleton.1 hp.symm
      rw [hm2]
      have hmem : st ∈ g1 := List.mem_of_mem_filter (hm1 ▸ List.mem_singleton_self st)
      have hbst : blankLt c1 st.subj := (h.blanks st hmem).1
      exact depStep_fold_sim hbst f.name f.dependencies h
    | cons st2 rest2 =>
      rw [hm1] at hp
      have hlen := hp.length_eq
      cases hm2 : fnMatches g2 f.name with
      | nil =>
        rw [hm2] at hlen
        simp at hlen
      | cons a as =>
        cases as with
        | nil =>
          rw [hm2] at hlen
          simp at hlen
        | cons b bs =>
          trivial

theorem add_file_dependencies_full_sim {ρ : Nat → Nat} {c1 c2 : Nat} :
    ∀ (files : List WFileFull) {g1 g2 : Graph},
      Sim ρ (g1, c1) (g2, c2) →
      ExcOk (fun h1 h2 => Sim ρ (h1, c1) (h2, c2))
        (add_file_dependencies_full g1 files) (add_file_dependencies_full g2 files) := by
  intro files
  induction files with
  | nil => exact fun h => h
  | cons f fs ih =>
    intro g1 g2 h
    unfold add_file_dependencies_full at ih ⊢
    rw [List.foldlM_cons, List.foldlM_cons]
    have hf := add_file_dependencies_helper_sim h ⟨f.name, f.dependencies⟩
    cases hc1 : add_file_dependencies_helper g1 ⟨f.name, f.dependencies⟩ with
    | error e =>
      rw [hc1] at hf
      cases hc2 : add_file_dependencies_helper g2 ⟨f.name, f.dependencies⟩ with
      | error e2 => trivial
      | ok r2 =>
        rw [hc2] at hf
        exact hf.elim
    | ok r1 =>
      rw [hc1] at hf
      cases hc2 : add_file_dependencies_helper g2 ⟨f.name, f.dependencies⟩ with
      | error e2 =>
        rw [hc2] at hf
        exact hf.elim
      | ok r2 =>
        rw [hc2] at hf
        exact ih hf

theorem handle_package_literal_optional_sim {ρ : Nat → Nat} {g1 g2 : Graph}
    {c1 c2 : Nat} {pn : Node} (hfix : renameNode ρ pn = pn) (hb : blankLt c1 pn)
    {pred : String} (hp : (pred == licenseIdPred) = false) (v : Option SpecialValue)
    (h : Sim ρ (g1, c1) (g2, c2)) :
    Sim ρ (handle_package_literal_optional pn pred v g1, c1)
      (handle_package_literal_optional pn pred v g2, c2) := by
  cases v with
  | none => exact h
  | some sv =>
    exact Sim_addFixed h (renameTriple_fixed hfix (renameNode_to_special ρ sv)) hb
      (blankLt_to_special _ _) hp

theorem pkg_opt_lits_sim {ρ : Nat → Nat} {g1 g2 : Graph} {c1 c2 : Nat} {pn : Node}
    (hfix : renameNode ρ pn = pn) (hb : blankLt c1 pn) (p : WPackage)
    (h : Sim ρ (g1, c1) (g2, c2)) :
    Sim ρ (pkg_opt_lits p pn g1, c1) (pkg_opt_lits p pn g2, c2) := by
  unfold pkg_opt_lits
  have h1 := handle_package_literal_optional_sim hfix hb
    (by decide : (spdxNs ++ "versionInfo" == licenseIdPred) = false) p.version h
  have h2 := handle_package_literal_optional_sim hfix hb
    (by decide : (spdxNs ++ "packageFileName" == licenseIdPred) = false) p.file_name h1
  have h3 := handle_package_literal_optional_sim hfix hb
    (by decide : (spdxNs ++ "supplier" == licenseIdPred) = false) p.supplier h2
  have h4 := handle_package_literal_optional_sim hfix hb
    (by decide : (spdxNs ++ "originator" == licenseIdPred) = false) p.originator h3
  have h5 := handle_package_literal_optional_sim hfix hb
    (by decide : (spdxNs ++ "sourceInfo" == licenseIdPred) = false) p.source_info h4
  have h6 := handle_package_literal_optional_sim hfix hb
    (by decide : (licenseCommentsPred == licenseIdPred) = false) p.license_comment h5
  have h7 := handle_package_literal_optional_sim hfix hb
    (by decide : (spdxNs ++ "summary" == licenseIdPred) = false) p.summary h6
  exact handle_package_literal_optional_sim hfix hb
    (by decide : (spdxNs ++ "description" == licenseIdPred) = false) p.description h7

theorem pkg_homepage_sim {ρ : Nat → Nat} {g1 g2 : Graph} {c1 c2 : Nat} {pn : Node}
    (hfix : renameNode ρ pn = pn) (hb : blankLt c1 pn) (p : WPackage)
    (h : Sim ρ (g1, c1) (g2, c2)) :
    Sim ρ (pkg_homepage p pn g1, c1) (pkg_homepage p pn g2, c2) := by
  unfold pkg_homepage
  cases p.homepage with
  | none => exact h
  | some hpv =>
    exact Sim_addFixed h (renameTriple_fixed hfix rfl) hb (blankLt_uri _ _)
      (by decide : (homepagePred == licenseIdPred) = false)

theorem handle_pkg_optional_fields_sim {ρ : Nat → Nat} {g1 g2 : Graph} {c1 c2 : Nat}
    {pn : Node} (hfix : renameNode ρ pn = pn) (hb : blankLt c1 pn) (p : WPackage)
    (h : Sim ρ (g1, c1) (g2, c2)) :
    Sim ρ (handle_pkg_optional_fields p pn g1 c1) (handle_pkg_optional_fields p pn g2 c2)
      ∧ c1 ≤ (handle_pkg_optional_fields p pn g1 c1).2 := by
  have hcc : c1 = c2 := h.cntEq
  subst hcc
  unfold handle_pkg_optional_fields
  have h8 := pkg_opt_lits_sim hfix hb p h
  cases hchk : p.check_sum with
  | none =>
    exact ⟨pkg_homepage_sim hfix hb p h8, le_rfl⟩
  | some chk =>
    obtain ⟨hcn, hcb, hcs⟩ := create_checksum_node_sim h8 chk
    have hcle : c1 ≤ (create_checksum_node chk (pkg_opt_lits p pn g1) c1).2.2 :=
      create_checksum_node_cnt_le chk _ c1
    dsimp only
    rcases hk1 : create_checksum_node chk (pkg_opt_lits p pn g1) c1 with ⟨kn1, kg1, kc1⟩
    rcases hk2 : create_checksum_node chk (pkg_opt_lits p pn g2) c1 with ⟨kn2, kg2, kc2⟩
    rw [hk1, hk2] at hcn hcs
    rw [hk1] at hcb hcle
    dsimp only at hcn hcb hcs hcle ⊢
    have hkc : kc1 = kc2 := hcs.cntEq
    subst hkc
    have hbk : blankLt kc1 pn := blankLt_mono hb hcle
    have hadd := @Sim_addTriple ρ kg1 kg2 kc1 kc1
      ⟨pn, checksumPred, kn1⟩ hcs hbk hcb
      (by decide : (checksumPred == licenseIdPred) = false)
    have hren : renameTriple ρ (⟨pn, checksumPred, kn1⟩ : Triple)
        = ⟨pn, checksumPred, kn2⟩ := by
      unfold renameTriple
      dsimp only
      rw [← hcn, hfix]
    rw [hren] at hadd
    exact ⟨pkg_homepage_sim hfix hbk p hadd, hcle⟩

theorem package_verif_node_sim {ρ : Nat → Nat} {g1 g2 : Graph} {c1 c2 : Nat}
    (h : Sim ρ (g1, c1) (g2, c2)) (p : WPackage) :
    NodeOk ρ (package_verif_node p g1 c1) (package_verif_node p g2 c2) := by
  have hcc : c1 = c2 := h.cntEq
  subst hcc
  have hfixc : ρ c1 = c1 := h.fix c1 le_rfl
  unfold package_verif_node
  have ht1 : renameTriple ρ
      (⟨.blank c1, rdfTypePred, .uri (spdxNs ++ "PackageVerificationCode")⟩ : Triple)
      = ⟨.blank c1, rdfTypePred, .uri (spdxNs ++ "PackageVerificationCode")⟩ :=
    renameTriple_fixed (renameNode_blank_fix hfixc) rfl
  have h1 := Sim_addFixed (Sim_bump h) ht1 (blankLt_blank (Nat.lt_succ_self c1))
    (blankLt_uri _ _) (by decide : (rdfTypePred == licenseIdPred) = false)
  have ht2 : renameTriple ρ
      (⟨.blank c1, packageVerificationCodeValuePred, .lit p.verif_code⟩ : Triple)
      = ⟨.blank c1, packageVerificationCodeValuePred, .lit p.verif_code⟩ :=
    renameTriple_fixed (renameNode_blank_fix hfixc) rfl
  have h2 := Sim_addFixed h1 ht2 (blankLt_blank (Nat.lt_succ_self c1)) (blankLt_lit _ _)
    (by decide : (packageVerificationCodeValuePred == licenseIdPred) = false)
  have h3 := Sim_addLitTriples (p.verif_exc_files.map Node.lit) h2
    (blankLt_blank (Nat.lt_succ_self c1))
    (by decide : (packageVerificationCodeExcludedFilePred == licenseIdPred) = false)
    (by
      intro o ho
      rcases List.mem_map.1 ho with ⟨s, _, rfl⟩
      exact ⟨rfl, blankLt_lit _ _⟩)
  rw [renameNode_blank_fix hfixc] at h3
  exact ⟨(renameNode_blank_fix hfixc).symm, blankLt_blank (Nat.lt_succ_self c1), h3⟩

theorem handle_package_has_file_helper_sim {ρ : Nat → Nat} {g1 g2 : Graph}
    {c1 c2 : Nat} (h : Sim ρ (g1, c1) (g2, c2)) (nm : String) :
    ExcOk (fun n1 n2 => n2 = renameNode ρ n1 ∧ blankLt c1 n1)
      (handle_package_has_file_helper g1 nm) (handle_package_has_file_helper g2 nm) := by
  unfold handle_package_has_file_helper
  have hp := Sim_fnMatches h nm
  cases hm1 : fnMatches g1 nm with
  | nil =>
    rw [hm1] at hp
    have hm2 : fnMatches g2 nm = [] := hp.symm.eq_nil
    rw [hm2]
    trivial
  | cons st rest =>
    cases rest with
    | nil =>
      rw [hm1] at hp
      have hm2 : fnMatches g2 nm = [renameTriple ρ st] := List.perm_singleton.1 hp.symm
      rw [hm2]
      have hmem : st ∈ g1 := List.mem_of_mem_filter (hm1 ▸ List.mem_singleton_self st)
      exact ⟨rfl, (h.blanks st hmem).1⟩
    | cons st2 rest2 =>
      rw [hm1] at hp
      have hlen := hp.length_eq
      cases hm2 : fnMatches g2 nm with
      | nil =>
        rw [hm2] at hlen
        simp at hlen
      | cons a as =>
        cases as with
        | nil =>
          rw [hm2] at hlen
          simp at hlen
        | cons b bs =>
          trivial

theorem handle_package_has_file_sim {ρ : Nat → Nat} {c1 c2 : Nat} {pn : Node}
    (hfix : renameNode ρ pn = pn) (hb : blankLt c1 pn) (p : WPackage) :
    ∀ (fs : List WFileFull) {g1 g2 : Graph},
      Sim ρ (g1, c1) (g2, c2) →
      ExcOk (fun h1 h2 => Sim ρ (h1, c1) (h2, c2))
        (fs.foldlM (fun g f =>
          match handle_package_has_file_helper g f.name with
          | .error e => .error e
          | .ok n => .ok (addTriple g ⟨pn, hasFilePred, n⟩)) g1)
        (fs.foldlM (fun g f =>
          match handle_package_has_file_helper g f.name with
          | .error e => .error e
          | .ok n => .ok (addTriple g ⟨pn, hasFilePred, n⟩)) g2) := by
  intro fs
  induction fs with
  | nil => exact fun h => h
  | cons f fs ih =>
    intro g1 g2 h
    rw [List.foldlM_cons, List.foldlM_cons]
    have hf := handle_package_has_file_helper_sim h f.name
    cases hc1 : handle_package_has_file_helper g1 f.name with
    | error e =>
      rw [hc1] at hf
      cases hc2 : handle_package_has_file_helper g2 f.name with
      | error e2 => trivial
      | ok n2 =>
        rw [hc2] at hf
        exact hf.elim
    | ok n1 =>
      rw [hc1] at hf
      cases hc2 : handle_package_has_file_helper g2 f.name with
      | error e2 =>
        rw [hc2] at hf
        exact hf.elim
      | ok n2 =>
        rw [hc2] at hf
        obtain ⟨hn, hbn⟩ := hf
        have hstep := @Sim_addTriple ρ g1 g2 c1 c2 ⟨pn, hasFilePred, n1⟩ h hb hbn
          (by decide : (hasFilePred == licenseIdPred) = false)
        have hren : renameTriple ρ (⟨pn, hasFilePred, n1⟩ : Triple)
            = ⟨pn, hasFilePred, n2⟩ := by
          unfold renameTriple
          dsimp only
          rw [hn, hfix]
        rw [hren] at hstep
        exact ih hstep

theorem handle_package_has_file_sim2 {ρ : Nat → Nat} {c1 c2 : Nat} {pn : Node}
    (hfix : renameNode ρ pn = pn) (hb : blankLt c1 pn) (p : WPackage)
    {g1 g2 : Graph} (h : Sim ρ (g1, c1) (g2, c2)) :
    ExcOk (fun h1 h2 => Sim ρ (h1, c1) (h2, c2))
      (handle_package_has_file p pn g1) (handle_package_has_file p pn g2) :=
  handle_package_has_file_sim hfix hb p p.files h

theorem create_package_node_sim {ρ : Nat → Nat} {g1 g2 : Graph} {c1 c2 : Nat}
    {doc_extr1 doc_extr2 : List ExtractedLicense}
    (hperm : doc_extr1.Perm doc_extr2)
    (hnodup : (doc_extr1.map ExtractedLicense.identifier).Nodup)
    (h : Sim ρ (g1, c1) (g2, c2)) (p : WPackage) :
    ExcOk (NodeOk ρ) (create_package_node doc_extr1 p g1 c1)
      (create_package_node doc_extr2 p g2 c2) := by
  have hcc : c1 = c2 := h.cntEq
  subst hcc
  have hfixc : ρ c1 = c1 := h.fix c1 le_rfl
  have hpnfix : renameNode ρ (Node.blank c1) = Node.blank c1 := renameNode_blank_fix hfixc
  unfold create_package_node
  dsimp only
  have hty0 : renameTriple ρ
      (⟨Node.blank c1, rdfTypePred, .uri (spdxNs ++ "Package")⟩ : Triple)
      = ⟨Node.blank c1, rdfTypePred, .uri (spdxNs ++ "Package")⟩ :=
    renameTriple_fixed hpnfix rfl
  have hty := Sim_addFixed (Sim_bump h) hty0
    (blankLt_blank (Nat.lt_succ_self c1)) (blankLt_uri _ _)
    (by decide : (rdfTypePred == licenseIdPred) = false)
  obtain ⟨hopt, hoptle⟩ := handle_pkg_optional_fields_sim hpnfix
    (blankLt_blank (Nat.lt_succ_self c1)) p hty
  rcases ho1 : handle_pkg_optional_fields p (Node.blank c1)
      (addTriple g1 ⟨Node.blank c1, rdfTypePred, .uri (spdxNs ++ "Package")⟩) (c1 + 1)
    with ⟨og1, oc1⟩
  rcases ho2 : handle_pkg_optional_fields p (Node.blank c1)
      (addTriple g2 ⟨Node.blank c1, rdfTypePred, .uri (spdxNs ++ "Package")⟩) (c1 + 1)
    with ⟨og2, oc2⟩
  rw [ho1, ho2] at hopt
  rw [ho1] at hoptle
  dsimp only at hopt hoptle ⊢
  have hocc : oc1 = oc2 := hopt.cntEq
  subst hocc
  have hclt : c1 < oc1 := lt_of_lt_of_le (Nat.lt_succ_self c1) hoptle
  have hnm0 : renameTriple ρ (⟨Node.blank c1, namePred, .lit p.name⟩ : Triple)
      = ⟨Node.blank c1, namePred, .lit p.name⟩ :=
    renameTriple_fixed hpnfix rfl
  have hnm := Sim_addFixed hopt hnm0 (blankLt_blank hclt)
    (blankLt_lit _ _) (by decide : (namePred == licenseIdPred) = false)
  have hdl0 : renameTriple ρ (⟨Node.blank c1, downloadLocationPred,
      to_special_value p.download_location⟩ : Triple)
      = ⟨Node.blank c1, downloadLocationPred, to_special_value p.download_location⟩ :=
    renameTriple_fixed hpnfix (renameNode_to_special ρ p.download_location)
  have hdl := Sim_addFixed hnm hdl0
    (blankLt_blank hclt) (blankLt_to_special _ _)
    (by decide : (downloadLocationPred == licenseIdPred) = false)
  obtain ⟨hvn, hvb, hvs⟩ := package_verif_node_sim hdl p
  rcases hv1 : package_verif_node p
      (addTriple (addTriple og1 ⟨Node.blank c1, namePred, .lit p.name⟩)
        ⟨Node.blank c1, downloadLocationPred, to_special_value p.download_location⟩) oc1
    with ⟨vn1, vg1, vc1⟩
  rcases hv2 : package_verif_node p
      (addTriple (addTriple og2 ⟨Node.blank c1, namePred, .lit p.name⟩)
        ⟨Node.blank c1, downloadLocationPred, to_special_value p.download_location⟩) oc1
    with ⟨vn2, vg2, vc2⟩
  rw [hv1, hv2] at hvn hvs
  rw [hv1] at hvb
  dsimp only at hvn hvb hvs ⊢
  have hvcc : vc1 = vc2 := hvs.cntEq
  subst hvcc
  have hvle : oc1 + 1 = vc1 := congrArg (fun r => r.2.2) hv1
  have hltv : c1 < vc1 := lt_of_lt_of_le hclt ((Nat.le_succ oc1).trans (le_of_eq hvle))
  have hvtri := @Sim_addTriple ρ vg1 vg2 vc1 vc1
    ⟨Node.blank c1, packageVerificationCodePred, vn1⟩ hvs (blankLt_blank hltv) hvb
    (by decide : (packageVerificationCodePred == licenseIdPred) = false)
  have hrenv : renameTriple ρ (⟨Node.blank c1, packageVerificationCodePred, vn1⟩ : Triple)
      = ⟨Node.blank c1, packageVerificationCodePred, vn2⟩ := by
    unfold renameTriple
    dsimp only
    rw [← hvn, hpnfix]
  rw [hrenv] at hvtri
  have hl := license_or_special_sim hperm hnodup hvtri p.conc_lics
  rcases hl1 : license_or_special doc_extr1
      (addTriple vg1 ⟨Node.blank c1, packageVerificationCodePred, vn1⟩) vc1 p.conc_lics
    with e1 | r1
  · rcases hl2 : license_or_special doc_extr2
        (addTriple vg2 ⟨Node.blank c1, packageVerificationCodePred, vn2⟩) vc1 p.conc_lics
      with e2 | r2
    · trivial
    · rw [hl1, hl2] at hl
      exact hl.elim
  · rcases hl2 : license_or_special doc_extr2
        (addTriple vg2 ⟨Node.blank c1, packageVerificationCodePred, vn2⟩) vc1 p.conc_lics
      with e2 | r2
    · rw [hl1, hl2] at hl
      exact hl.elim
    · rw [hl1, hl2] at hl
      have hlle : vc1 ≤ r1.2.2 := license_or_special_cnt_le hl1
      obtain ⟨cn1, cg1, cc1⟩ := r1
      obtain ⟨cn2, cg2, cc2⟩ := r2
      obtain ⟨hcnn, hcbb, hcss⟩ := hl
      dsimp only at hcnn hcbb hcss hlle ⊢
      have hccc : cc1 = cc2 := hcss.cntEq
      subst hccc
      have hltc : c1 < cc1 := lt_of_lt_of_le hltv hlle
      have hctri := @Sim_addTriple ρ cg1 cg2 cc1 cc1
        ⟨Node.blank c1, licenseConcludedPred, cn1⟩ hcss (blankLt_blank hltc) hcbb
        (by decide : (licenseConcludedPred == licenseIdPred) = false)
      have hrenc : renameTriple ρ (⟨Node.blank c1, licenseConcludedPred, cn1⟩ : Triple)
          = ⟨Node.blank c1, licenseConcludedPred, cn2⟩ := by
        unfold renameTriple
        dsimp only
        rw [← hcnn, hpnfix]
      rw [hrenc] at hctri
      have hd := license_or_special_sim hperm hnodup hctri p.license_declared
      rcases hd1 : license_or_special doc_extr1
          (addTriple cg1 ⟨Node.blank c1, licenseConcludedPred, cn1⟩) cc1 p.license_declared
        with e1 | s1
      · rcases hd2 : license_or_special doc_extr2
            (addTriple cg2 ⟨Node.blank c1, licenseConcludedPred, cn2⟩) cc1 p.license_declared
          with e2 | s2
        · trivial
        · rw [hd1, hd2] at hd
          exact hd.elim
      · rcases hd2 : license_or_special doc_extr2
            (addTriple cg2 ⟨Node.blank c1, licenseConcludedPred, cn2⟩) cc1 p.license_declared
          with e2 | s2
        · rw [hd1, hd2] at hd
          exact hd.elim
        · rw [hd1, hd2] at hd
          have hdle : cc1 ≤ s1.2.2 := license_or_special_cnt_le hd1
          obtain ⟨dn1, dg1, dc1⟩ := s1
          obtain ⟨dn2, dg2, dc2⟩ := s2
          obtain ⟨hdnn, hdbb, hdss⟩ := hd
          dsimp only at hdnn hdbb hdss hdle ⊢
          have hdcc : dc1 = dc2 := hdss.cntEq
          subst hdcc
          have hltd : c1 < dc1 := lt_of_lt_of_le hltc hdle
          have hdtri := @Sim_addTriple ρ dg1 dg2 dc1 dc1
            ⟨Node.blank c1, licenseDeclaredPred, dn1⟩ hdss (blankLt_blank hltd) hdbb
            (by decide : (licenseDeclaredPred == licenseIdPred) = false)
          have hrend : renameTriple ρ (⟨Node.blank c1, licenseDeclaredPred, dn1⟩ : Triple)
              = ⟨Node.blank c1, licenseDeclaredPred, dn2⟩ := by
            unfold renameTriple
            dsimp only
            rw [← hdnn, hpnfix]
          rw [hrend] at hdtri
          have hlt := addLicenseTriples_sim hperm hnodup
            (by decide : (licenseInfoFromFilesPred == licenseIdPred) = false)
            p.licenses_from_files hdtri (blankLt_blank hltd)
          rw [hpnfix] at hlt
          rcases hq1 : addLicenseTriples doc_extr1 (Node.blank c1) licenseInfoFromFilesPred
              p.licenses_from_files
              (addTriple dg1 ⟨Node.blank c1, licenseDeclaredPred, dn1⟩) dc1 with e1 | q1
          · rcases hq2 : addLicenseTriples doc_extr2 (Node.blank c1) licenseInfoFromFilesPred
                p.licenses_from_files
                (addTriple dg2 ⟨Node.blank c1, licenseDeclaredPred, dn2⟩) dc1 with e2 | q2
            · trivial
            · rw [hq1, hq2] at hlt
              exact hlt.elim
          · rcases hq2 : addLicenseTriples doc_extr2 (Node.blank c1) licenseInfoFromFilesPred
                p.licenses_from_files
                (addTriple dg2 ⟨Node.blank c1, licenseDeclaredPred, dn2⟩) dc1 with e2 | q2
            · rw [hq1, hq2] at hlt
              exact hlt.elim
            · rw [hq1, hq2] at hlt
              obtain ⟨qg1, qc1⟩ := q1
              obtain ⟨qg2, qc2⟩ := q2
              obtain ⟨hqs, hqle⟩ := hlt
              dsimp only at hqs hqle ⊢
              have hqcc : qc1 = qc2 := hqs.cntEq
              subst hqcc
              have hltq : c1 < qc1 := lt_of_lt_of_le hltd hqle
              have hcr0 : renameTriple ρ (⟨Node.blank c1, copyrightTextPred,
                  to_special_value p.cr_text⟩ : Triple)
                  = ⟨Node.blank c1, copyrightTextPred, to_special_value p.cr_text⟩ :=
                renameTriple_fixed hpnfix (renameNode_to_special ρ p.cr_text)
              have hcr := Sim_addFixed hqs hcr0
                (blankLt_blank hltq) (blankLt_to_special _ _)
                (by decide : (copyrightTextPred == licenseIdPred) = false)
              have hhf := handle_package_has_file_sim2 hpnfix (blankLt_blank hltq) p hcr
              rcases hh1 : handle_package_has_file p (Node.blank c1)
                  (addTriple qg1 ⟨Node.blank c1, copyrightTextPred,
                    to_special_value p.cr_text⟩) with e1 | w1
              · rcases hh2 : handle_package_has_file p (Node.blank c1)
                    (addTriple qg2 ⟨Node.blank c1, copyrightTextPred,
                      to_special_value p.cr_text⟩) with e2 | w2
                · trivial
                · rw [hh1, hh2] at hhf
                  exact hhf.elim
              · rcases hh2 : handle_package_has_file p (Node.blank c1)
                    (addTriple qg2 ⟨Node.blank c1, copyrightTextPred,
                      to_special_value p.cr_text⟩) with e2 | w2
                · rw [hh1, hh2] at hhf
                  exact hhf.elim
                · rw [hh1, hh2] at hhf
                  exact ⟨hpnfix.symm, blankLt_blank hltq, hhf⟩

theorem blankLt_snippet_node (c : Nat) (s : WSnippet) : blankLt c (snippet_node_uri s) :=
  trivial

theorem renameNode_snippet (ρ : Nat → Nat) (s : WSnippet) :
    renameNode ρ (snippet_node_uri s) = snippet_node_uri s := rfl

theorem snippet_pre_sim {ρ : Nat → Nat} {g1 g2 : Graph} {c1 c2 : Nat}
    (h : Sim ρ (g1, c1) (g2, c2)) (s : WSnippet) :
    Sim ρ (snippet_pre s g1, c1) (snippet_pre s g2, c2) := by
  unfold snippet_pre
  have h1 := @Sim_addFixed ρ g1 g2 c1 c2
    ⟨snippet_node_uri s, rdfTypePred, .uri (spdxNs ++ "Snippet")⟩ h rfl
    (blankLt_snippet_node c1 s) (blankLt_uri _ _)
    (by decide : (rdfTypePred == licenseIdPred) = false)
  have h2 := Sim_addOptLit h1 (blankLt_snippet_node c1 s)
    (by decide : (rdfsCommentPred == licenseIdPred) = false) s.comment
  rw [renameNode_snippet] at h2
  have h3 := Sim_addOptLit h2 (blankLt_snippet_node c1 s)
    (by decide : (namePred == licenseIdPred) = false) s.name
  rw [renameNode_snippet] at h3
  have h4 := Sim_addOptLit h3 (blankLt_snippet_node c1 s)
    (by decide : (licenseCommentsPred == licenseIdPred) = false) s.license_comment
  rw [renameNode_snippet] at h4
  have h5 := @Sim_addFixed ρ _ _ c1 c2
    ⟨snippet_node_uri s, copyrightTextPred, to_special_value s.copyright⟩ h4
    (renameTriple_fixed rfl (renameNode_to_special ρ s.copyright))
    (blankLt_snippet_node c1 s) (blankLt_to_special _ _)
    (by decide : (copyrightTextPred == licenseIdPred) = false)
  exact @Sim_addFixed ρ _ _ c1 c2
    ⟨snippet_node_uri s, snippetFromFilePred, .lit s.snip_from_file_spdxid⟩ h5 rfl
    (blankLt_snippet_node c1 s) (blankLt_lit _ _)
    (by decide : (snippetFromFilePred == licenseIdPred) = false)

theorem create_snippet_node_sim {ρ : Nat → Nat} {g1 g2 : Graph} {c1 c2 : Nat}
    {doc_extr1 doc_extr2 : List ExtractedLicense}
    (hperm : doc_extr1.Perm doc_extr2)
    (hnodup : (doc_extr1.map ExtractedLicense.identifier).Nodup)
    (h : Sim ρ (g1, c1) (g2, c2)) (s : WSnippet) :
    ExcOk (NodeOk ρ) (create_snippet_node doc_extr1 s g1 c1)
      (create_snippet_node doc_extr2 s g2 c2) := by
  have hcc : c1 = c2 := h.cntEq
  subst hcc
  unfold create_snippet_node
  have hl := license_or_special_sim hperm hnodup (snippet_pre_sim h s) s.conc_lics
  rcases hl1 : license_or_special doc_extr1 (snippet_pre s g1) c1 s.conc_lics with e1 | r1
  · rcases hl2 : license_or_special doc_extr2 (snippet_pre s g2) c1 s.conc_lics with e2 | r2
    · trivial
    · rw [hl1, hl2] at hl
      exact hl.elim
  · rcases hl2 : license_or_special doc_extr2 (snippet_pre s g2) c1 s.conc_lics with e2 | r2
    · rw [hl1, hl2] at hl
      exact hl.elim
    · rw [hl1, hl2] at hl
      obtain ⟨ln1, lg1, lc1⟩ := r1
      obtain ⟨ln2, lg2, lc2⟩ := r2
      obtain ⟨hn2, hb2, hs2⟩ := hl
      dsimp only at hn2 hb2 hs2 ⊢
      have hlc : lc1 = lc2 := hs2.cntEq
      subst hlc
      have hadd2 := @Sim_addTriple ρ lg1 lg2 lc1 lc1
        ⟨snippet_node_uri s, licenseConcludedPred, ln1⟩ hs2 (blankLt_snippet_node lc1 s) hb2
        (by decide : (licenseConcludedPred == licenseIdPred) = false)
      have hren2 : renameTriple ρ (⟨snippet_node_uri s, licenseConcludedPred, ln1⟩ : Triple)
          = ⟨snippet_node_uri s, licenseConcludedPred, ln2⟩ := by
        unfold renameTriple
        dsimp only
        rw [← hn2]
        rfl
      rw [hren2] at hadd2
      have hlt := addLicenseTriples_sim hperm hnodup
        (by decide : (licenseInfoInSnippetPred == licenseIdPred) = false)
        s.licenses_in_snippet hadd2 (blankLt_snippet_node lc1 s)
      rw [renameNode_snippet] at hlt
      rcases hr1 : addLicenseTriples doc_extr1 (snippet_node_uri s) licenseInfoInSnippetPred
          s.licenses_in_snippet
          (addTriple lg1 ⟨snippet_node_uri s, licenseConcludedPred, ln1⟩) lc1 with e1 | q1
      · rcases hr2 : addLicenseTriples doc_extr2 (snippet_node_uri s) licenseInfoInSnippetPred
            s.licenses_in_snippet
            (addTriple lg2 ⟨snippet_node_uri s, licenseConcludedPred, ln2⟩) lc1 with e2 | q2
        · trivial
        · rw [hr1, hr2] at hlt
          exact hlt.elim
      · rcases hr2 : addLicenseTriples doc_extr2 (snippet_node_uri s) licenseInfoInSnippetPred
            s.licenses_in_snippet
            (addTriple lg2 ⟨snippet_node_uri s, licenseConcludedPred, ln2⟩) lc1 with e2 | q2
        · rw [hr1, hr2] at hlt
          exact hlt.elim
        · rw [hr1, hr2] at hlt
          obtain ⟨qg1, qc1⟩ := q1
          obtain ⟨qg2, qc2⟩ := q2
          obtain ⟨hsq, _⟩ := hlt
          exact ⟨rfl, trivial, hsq⟩

theorem writeSnippets_sim {ρ : Nat → Nat}
    {doc_extr1 doc_extr2 : List ExtractedLicense}
    (hperm : doc_extr1.Perm doc_extr2)
    (hnodup : (doc_extr1.map ExtractedLicense.identifier).Nodup) :
    ∀ (snips : List WSnippet) {g1 g2 : Graph} {c1 c2 : Nat},
      Sim ρ (g1, c1) (g2, c2) →
      ExcOk (Sim ρ) (writeSnippets doc_extr1 docNode snips g1 c1)
        (writeSnippets doc_extr2 docNode snips g2 c2) := by
  intro snips
  induction snips with
  | nil => exact fun h => h
  | cons s ss ih =>
    intro g1 g2 c1 c2 h
    unfold writeSnippets at ih ⊢
    rw [List.foldlM_cons, List.foldlM_cons]
    have hf := create_snippet_node_sim hperm hnodup h s
    cases hc1 : create_snippet_node doc_extr1 s g1 c1 with
    | error e =>
      rw [hc1] at hf
      cases hc2 : create_snippet_node doc_extr2 s g2 c2 with
      | error e2 => trivial
      | ok r2 =>
        rw [hc2] at hf
        exact hf.elim
    | ok r1 =>
      rw [hc1] at hf
      cases hc2 : create_snippet_node doc_extr2 s g2 c2 with
      | error e2 =>
        rw [hc2] at hf
        exact hf.elim
      | ok r2 =>
        rw [hc2] at hf
        obtain ⟨hn, hbn, hs⟩ := hf
        have hstep := @Sim_addTriple ρ r1.2.1 r2.2.1 r1.2.2 r2.2.2
          ⟨docNode, snippetPred, r1.1⟩ hs (blankLt_uri _ _) hbn
          (by decide : (snippetPred == licenseIdPred) = false)
        have hren : renameTriple ρ (⟨docNode, snippetPred, r1.1⟩ : Triple)
            = ⟨docNode, snippetPred, r2.1⟩ := by
          unfold renameTriple
          dsimp only
          rw [hn]
          rfl
        rw [hren] at hstep
        exact ih hstep

theorem create_review_node_sim {ρ : Nat → Nat} {g1 g2 : Graph} {c1 c2 : Nat}
    (h : Sim ρ (g1, c1) (g2, c2)) (r : WReview) :
    NodeOk ρ (create_review_node r g1 c1) (create_review_node r g2 c2) := by
  have hcc : c1 = c2 := h.cntEq
  subst hcc
  have hfixc : ρ c1 = c1 := h.fix c1 le_rfl
  unfold create_review_node
  have ht1 : renameTriple ρ (⟨.blank c1, rdfTypePred, .uri (spdxNs ++ "Review")⟩ : Triple)
      = ⟨.blank c1, rdfTypePred, .uri (spdxNs ++ "Review")⟩ :=
    renameTriple_fixed (renameNode_blank_fix hfixc) rfl
  have h1 := Sim_addFixed (Sim_bump h) ht1 (blankLt_blank (Nat.lt_succ_self c1))
    (blankLt_uri _ _) (by decide : (rdfTypePred == licenseIdPred) = false)
  have ht2 : renameTriple ρ (⟨.blank c1, reviewerPred, .lit r.reviewer⟩ : Triple)
      = ⟨.blank c1, reviewerPred, .lit r.reviewer⟩ :=
    renameTriple_fixed (renameNode_blank_fix hfixc) rfl
  have h2 := Sim_addFixed h1 ht2 (blankLt_blank (Nat.lt_succ_self c1)) (blankLt_lit _ _)
    (by decide : (reviewerPred == licenseIdPred) = false)
  have ht3 : renameTriple ρ (⟨.blank c1, reviewDatePred, .lit r.review_date_iso⟩ : Triple)
      = ⟨.blank c1, reviewDatePred, .lit r.review_date_iso⟩ :=
    renameTriple_fixed (renameNode_blank_fix hfixc) rfl
  have h3 := Sim_addFixed h2 ht3 (blankLt_blank (Nat.lt_succ_self c1)) (blankLt_lit _ _)
    (by decide : (reviewDatePred == licenseIdPred) = false)
  have h4 := Sim_addOptLit h3 (blankLt_blank (Nat.lt_succ_self c1))
    (by decide : (rdfsCommentPred == licenseIdPred) = false) r.comment
  rw [renameNode_blank_fix hfixc] at h4
  exact ⟨(renameNode_blank_fix hfixc).symm, blankLt_blank (Nat.lt_succ_self c1), h4⟩

theorem writeReviews_sim {ρ : Nat → Nat} :
    ∀ (rs : List WReview) {g1 g2 : Graph} {c1 c2 : Nat},
      Sim ρ (g1, c1) (g2, c2) →
      Sim ρ (writeReviews docNode rs g1 c1) (writeReviews docNode rs g2 c2) := by
  intro rs
  induction rs with
  | nil => exact fun h => h
  | cons r rs ih =>
    intro g1 g2 c1 c2 h
    unfold writeReviews at ih ⊢
    rw [List.foldl_cons, List.foldl_cons]
    obtain ⟨hn, hbn, hs⟩ := create_review_node_sim h r
    rcases hr1 : create_review_node r g1 c1 with ⟨rn1, rg1, rc1⟩
    rcases hr2 : create_review_node r g2 c2 with ⟨rn2, rg2, rc2⟩
    rw [hr1, hr2] at hn hs
    rw [hr1] at hbn
    dsimp only at hn hbn hs
    have hstep := @Sim_addTriple ρ rg1 rg2 rc1 rc2
      ⟨docNode, reviewedPred, rn1⟩ hs (blankLt_uri _ _) hbn
      (by decide : (reviewedPred == licenseIdPred) = false)
    have hren : renameTriple ρ (⟨docNode, reviewedPred, rn1⟩ : Triple)
        = ⟨docNode, reviewedPred, rn2⟩ := by
      unfold renameTriple
      dsimp only
      rw [← hn]
      rfl
    rw [hren] at hstep
    exact ih hstep

theorem create_external_document_ref_node_sim {ρ : Nat → Nat} {g1 g2 : Graph}
    {c1 c2 : Nat} (h : Sim ρ (g1, c1) (g2, c2)) (r : WExtDocRef) :
    NodeOk ρ (create_external_document_ref_node r g1 c1)
      (create_external_document_ref_node r g2 c2) := by
  have hcc : c1 = c2 := h.cntEq
  subst hcc
  have hfixc : ρ c1 = c1 := h.fix c1 le_rfl
  unfold create_external_document_ref_node
  have ht1 : renameTriple ρ
      (⟨.blank c1, rdfTypePred, .uri (spdxNs ++ "ExternalDocumentRef")⟩ : Triple)
      = ⟨.blank c1, rdfTypePred, .uri (spdxNs ++ "ExternalDocumentRef")⟩ :=
    renameTriple_fixed (renameNode_blank_fix hfixc) rfl
  have h1 := Sim_addFixed (Sim_bump h) ht1 (blankLt_blank (Nat.lt_succ_self c1))
    (blankLt_uri _ _) (by decide : (rdfTypePred == licenseIdPred) = false)
  have ht2 : renameTriple ρ
      (⟨.blank c1, externalDocumentIdPred, .lit r.external_document_id⟩ : Triple)
      = ⟨.blank c1, externalDocumentIdPred, .lit r.external_document_id⟩ :=
    renameTriple_fixed (renameNode_blank_fix hfixc) rfl
  have h2 := Sim_addFixed h1 ht2 (blankLt_blank (Nat.lt_succ_self c1)) (blankLt_lit _ _)
    (by decide : (externalDocumentIdPred == licenseIdPred) = false)
  have ht3 : renameTriple ρ
      (⟨.blank c1, spdxDocumentPred, .lit r.spdx_document_uri⟩ : Triple)
      = ⟨.blank c1, spdxDocumentPred, .lit r.spdx_document_uri⟩ :=
    renameTriple_fixed (renameNode_blank_fix hfixc) rfl
  have h3 := Sim_addFixed h2 ht3 (blankLt_blank (Nat.lt_succ_self c1)) (blankLt_lit _ _)
    (by decide : (spdxDocumentPred == licenseIdPred) = false)
  obtain ⟨hcn, hcb, hcs⟩ := create_checksum_node_sim h3 r.check_sum
  dsimp only
  have hcle := create_checksum_node_cnt_le r.check_sum
    (addTriple (addTriple (addTriple g1
      ⟨.blank c1, rdfTypePred, .uri (spdxNs ++ "ExternalDocumentRef")⟩)
      ⟨.blank c1, externalDocumentIdPred, .lit r.external_document_id⟩)
      ⟨.blank c1, spdxDocumentPred, .lit r.spdx_document_uri⟩) (c1 + 1)
  rcases hk1 : create_checksum_node r.check_sum
      (addTriple (addTriple (addTriple g1
        ⟨.blank c1, rdfTypePred, .uri (spdxNs ++ "ExternalDocumentRef")⟩)
        ⟨.blank c1, externalDocumentIdPred, .lit r.external_document_id⟩)
        ⟨.blank c1, spdxDocumentPred, .lit r.spdx_document_uri⟩) (c1 + 1)
    with ⟨kn1, kg1, kc1⟩
  rcases hk2 : create_checksum_node r.check_sum
      (addTriple (addTriple (addTriple g2
        ⟨.blank c1, rdfTypePred, .uri (spdxNs ++ "ExternalDocumentRef")⟩)
        ⟨.blank c1, externalDocumentIdPred, .lit r.external_document_id⟩)
        ⟨.blank c1, spdxDocumentPred, .lit r.spdx_document_uri⟩) (c1 + 1)
    with ⟨kn2, kg2, kc2⟩
  rw [hk1, hk2] at hcn hcs
  rw [hk1] at hcb hcle
  dsimp only at hcn hcb hcs hcle ⊢
  have hkc : kc1 = kc2 := hcs.cntEq
  subst hkc
  have hltk : c1 < kc1 := lt_of_lt_of_le (Nat.lt_succ_self c1) hcle
  have hadd := @Sim_addTriple ρ kg1 kg2 kc1 kc1
    ⟨.blank c1, checksumPred, kn1⟩ hcs (blankLt_blank hltk) hcb
    (by decide : (checksumPred == licenseIdPred) = false)
  have hren : renameTriple ρ (⟨.blank c1, checksumPred, kn1⟩ : Triple)
      = ⟨.blank c1, checksumPred, kn2⟩ := by
    unfold renameTriple
    dsimp only
    rw [← hcn, renameNode_blank_fix hfixc]
  rw [hren] at hadd
  exact ⟨(renameNode_blank_fix hfixc).symm, blankLt_blank hltk, hadd⟩

theorem writeExtDocRefs_sim {ρ : Nat → Nat} :
    ∀ (rs : List WExtDocRef) {g1 g2 : Graph} {c1 c2 : Nat},
      Sim ρ (g1, c1) (g2, c2) →
      Sim ρ (writeExtDocRefs docNode rs g1 c1) (writeExtDocRefs docNode rs g2 c2) := by
  intro rs
  induction rs with
  | nil => exact fun h => h
  | cons r rs ih =>
    intro g1 g2 c1 c2 h
    unfold writeExtDocRefs at ih ⊢
    rw [List.foldl_cons, List.foldl_cons]
    obtain ⟨hn, hbn, hs⟩ := create_external_document_ref_node_sim h r
    rcases hr1 : create_external_document_ref_node r g1 c1 with ⟨rn1, rg1, rc1⟩
    rcases hr2 : create_external_document_ref_node r g2 c2 with ⟨rn2, rg2, rc2⟩
    rw [hr1, hr2] at hn hs
    rw [hr1] at hbn
    dsimp only at hn hbn hs
    have hstep := @Sim_addTriple ρ rg1 rg2 rc1 rc2
      ⟨docNode, externalDocumentRefPred, rn1⟩ hs (blankLt_uri _ _) hbn
      (by decide : (externalDocumentRefPred == licenseIdPred) = false)
    have hren : renameTriple ρ (⟨docNode, externalDocumentRefPred, rn1⟩ : Triple)
        = ⟨docNode, externalDocumentRefPred, rn2⟩ := by
      unfold renameTriple
      dsimp only
      rw [← hn]
      rfl
    rw [hren] at hstep
    exact ih hstep

theorem create_doc_sim {ρ : Nat → Nat} {g1 g2 : Graph} {c1 c2 : Nat}
    (h : Sim ρ (g1, c1) (g2, c2)) (doc : WDoc) :
    NodeOk ρ (create_doc doc g1 c1) (create_doc doc g2 c2) := by
  unfold create_doc
  have h1 := @Sim_addFixed ρ g1 g2 c1 c2
    ⟨docNode, rdfTypePred, .uri (spdxNs ++ "SpdxDocument")⟩ h rfl
    (blankLt_uri _ _) (blankLt_uri _ _)
    (by decide : (rdfTypePred == licenseIdPred) = false)
  have h2 := @Sim_addFixed ρ _ _ c1 c2
    ⟨docNode, specVersionPred, .lit doc.version_str⟩ h1 rfl
    (blankLt_uri _ _) (blankLt_lit _ _)
    (by decide : (specVersionPred == licenseIdPred) = false)
  have h3 := @Sim_addFixed ρ _ _ c1 c2
    ⟨docNode, dataLicensePred, .uri doc.data_license_url⟩ h2 rfl
    (blankLt_uri _ _) (blankLt_uri _ _)
    (by decide : (dataLicensePred == licenseIdPred) = false)
  have h4 := @Sim_addFixed ρ _ _ c1 c2
    ⟨docNode, namePred, .uri doc.name⟩ h3 rfl
    (blankLt_uri _ _) (blankLt_uri _ _)
    (by decide : (namePred == licenseIdPred) = false)
  exact ⟨rfl, trivial, h4⟩

theorem create_creation_info_sim {ρ : Nat → Nat} {g1 g2 : Graph} {c1 c2 : Nat}
    (h : Sim ρ (g1, c1) (g2, c2)) (ci : WCreationInfo) :
    NodeOk ρ (create_creation_info ci g1 c1) (create_creation_info ci g2 c2) := by
  have hcc : c1 = c2 := h.cntEq
  subst hcc
  have hfixc : ρ c1 = c1 := h.fix c1 le_rfl
  unfold create_creation_info
  have ht1 : renameTriple ρ
      (⟨.blank c1, rdfTypePred, .uri (spdxNs ++ "CreationInfo")⟩ : Triple)
      = ⟨.blank c1, rdfTypePred, .uri (spdxNs ++ "CreationInfo")⟩ :=
    renameTriple_fixed (renameNode_blank_fix hfixc) rfl
  have h1 := Sim_addFixed (Sim_bump h) ht1 (blankLt_blank (Nat.lt_succ_self c1))
    (blankLt_uri _ _) (by decide : (rdfTypePred == licenseIdPred) = false)
  have ht2 : renameTriple ρ (⟨.blank c1, createdPred, .lit ci.created_iso⟩ : Triple)
      = ⟨.blank c1, createdPred, .lit ci.created_iso⟩ :=
    renameTriple_fixed (renameNode_blank_fix hfixc) rfl
  have h2 := Sim_addFixed h1 ht2 (blankLt_blank (Nat.lt_succ_self c1)) (blankLt_lit _ _)
    (by decide : (createdPred == licenseIdPred) = false)
  have h3 := Sim_addLitTriples (ci.creators.map Node.lit) h2
    (blankLt_blank (Nat.lt_succ_self c1))
    (by decide : (creatorPred == licenseIdPred) = false)
    (by
      intro o ho
      rcases List.mem_map.1 ho with ⟨s, _, rfl⟩
      exact ⟨rfl, blankLt_lit _ _⟩)
  rw [renameNode_blank_fix hfixc] at h3
  have h4 := Sim_addOptLit h3 (blankLt_blank (Nat.lt_succ_self c1))
    (by decide : (rdfsCommentPred == licenseIdPred) = false) ci.comment
  rw [renameNode_blank_fix hfixc] at h4
  exact ⟨(renameNode_blank_fix hfixc).symm, blankLt_blank (Nat.lt_succ_self c1), h4⟩

theorem renameNode_id (n : Node) : renameNode id n = n := by
  cases n <;> rfl

theorem renameTriple_id (t : Triple) : renameTriple id t = t := by
  rcases t with ⟨s, p, o⟩
  unfold renameTriple
  dsimp only
  rw [renameNode_id, renameNode_id]

theorem map_renameTriple_id (g : Graph) : g.map (renameTriple id) = g := by
  rw [List.map_congr_left (fun t _ => renameTriple_id t)]
  exact List.map_id' g

theorem Sim_refl {g : Graph} {c : Nat} (hb : graphBlanksLt g c) (hu : uniqLic g) :
    Sim id (g, c) (g, c) :=
  ⟨rfl, Function.bijective_id, fun _ _ => rfl,
    by rw [map_renameTriple_id], hb, hu⟩

theorem Sim_empty : Sim id (([] : Graph), 0) (([] : Graph), 0) :=
  Sim_refl (fun t ht => absurd ht (List.not_mem_nil t)) (fun _ => Nat.le_of_lt_succ
    (by simp [licFilter]))

theorem renameNode_comp (ρ1 ρ2 : Nat → Nat) (n : Node) :
    renameNode ρ2 (renameNode ρ1 n) = renameNode (ρ2 ∘ ρ1) n := by
  cases n <;> rfl

theorem renameTriple_comp (ρ1 ρ2 : Nat → Nat) (t : Triple) :
    renameTriple ρ2 (renameTriple ρ1 t) = renameTriple (ρ2 ∘ ρ1) t := by
  rcases t with ⟨s, p, o⟩
  unfold renameTriple
  dsimp only
  rw [renameNode_comp, renameNode_comp]

theorem Sim_trans {ρ1 ρ2 : Nat → Nat} {s1 s2 s3 : Graph × Nat}
    (h12 : Sim ρ1 s1 s2) (h23 : Sim ρ2 s2 s3) : Sim (ρ2 ∘ ρ1) s1 s3 := by
  refine ⟨h12.cntEq.trans h23.cntEq, h23.bij.comp h12.bij, ?_, ?_, h12.blanks, h12.uniq⟩
  · intro n hn
    have h1 := h12.fix n hn
    have h2 := h23.fix n (h12.cntEq ▸ hn)
    simp only [Function.comp_apply, h1, h2]
  · have hmap : s1.1.map (renameTriple (ρ2 ∘ ρ1))
        = (s1.1.map (renameTriple ρ1)).map (renameTriple ρ2) := by
      rw [List.map_map, List.map_congr_left (fun t _ => (renameTriple_comp ρ1 ρ2 t).symm)]
      exact List.map_congr_left fun t _ => rfl
    rw [hmap]
    exact (h12.rel.map (renameTriple ρ2)).trans h23.rel

theorem blankLt_rename {ρ : Nat → Nat} {c : Nat} (hbij : Function.Bijective ρ)
    (hfixge : ∀ n, c ≤ n → ρ n = n) {nd : Node} (h : blankLt c nd) :
    blankLt c (renameNode ρ nd) := by
  cases nd with
  | uri s => exact trivial
  | lit s => exact trivial
  | blank n =>
    by_contra hge
    have hge' : c ≤ ρ n := Nat.le_of_not_lt hge
    have hnn : ρ n = n := hbij.injective (hfixge (ρ n) hge')
    rw [hnn] at hge'
    exact absurd h (Nat.not_lt.2 hge')

theorem Sim_inv_transfer {ρ : Nat → Nat} {g1 g2 : Graph} {c1 c2 : Nat}
    (h : Sim ρ (g1, c1) (g2, c2)) : graphBlanksLt g2 c2 ∧ uniqLic g2 := by
  have hc : c1 = c2 := h.cntEq
  subst hc
  constructor
  · intro t ht
    have hmem : t ∈ g1.map (renameTriple ρ) := (h.rel.mem_iff).2 ht
    rcases List.mem_map.1 hmem with ⟨u, hu, rfl⟩
    obtain ⟨hs, ho⟩ := h.blanks u hu
    exact ⟨blankLt_rename h.bij h.fix hs, blankLt_rename h.bij h.fix ho⟩
  · intro idf
    have hp := Sim_licFilter h idf
    have := hp.length_eq
    rw [List.length_map] at this
    rw [← this]
    exact h.uniq idf

theorem addTriple_of_mem {g : Graph} {t : Triple} (h : t ∈ g) : addTriple g t = g := by
  unfold addTriple
  simp [h]

theorem addTriple_comm_perm (g : Graph) (t u : Triple) :
    (addTriple (addTriple g t) u).Perm (addTriple (addTriple g u) t) := by
  by_cases htu : t = u
  · subst htu
    exact List.Perm.refl _
  by_cases ht : t ∈ g
  · rw [addTriple_of_mem ht,
      addTriple_of_mem (show t ∈ addTriple g u from (mem_addTriple g u t).2 (Or.inl ht))]
  · by_cases hu : u ∈ g
    · rw [addTriple_of_mem hu,
        addTriple_of_mem (show u ∈ addTriple g t from (mem_addTriple g t u).2 (Or.inl hu))]
    · rw [addTriple_eq_append g t ht, addTriple_eq_append g u hu,
        addTriple_eq_append (g ++ [t]) u
          (by
            intro hmem
            rcases List.mem_append.1 hmem with hmem' | hmem'
            · exact hu hmem'
            · exact htu (List.mem_singleton.1 hmem').symm),
        addTriple_eq_append (g ++ [u]) t
          (by
            intro hmem
            rcases List.mem_append.1 hmem with hmem' | hmem'
            · exact ht hmem'
            · exact htu (List.mem_singleton.1 hmem'))]
      rw [List.append_assoc, List.append_assoc]
      exact List.Perm.append_left g (List.Perm.swap u t [])

theorem foldl_addTriple_congr {l : List Triple} :
    ∀ {g g' : Graph}, g.Perm g' → (l.foldl addTriple g).Perm (l.foldl addTriple g') := by
  induction l with
  | nil => exact fun h => h
  | cons t ts ih =>
    intro g g' h
    rw [List.foldl_cons, List.foldl_cons]
    exact ih (perm_addTriple h t)

theorem foldl_addTriple_perm {l1 l2 : List Triple} (hp : l1.Perm l2) :
    ∀ g : Graph, (l1.foldl addTriple g).Perm (l2.foldl addTriple g) := by
  induction hp with
  | nil => exact fun g => List.Perm.refl _
  | cons x p ih =>
    intro g
    rw [List.foldl_cons, List.foldl_cons]
    exact ih _
  | swap x y l =>
    intro g
    rw [List.foldl_cons, List.foldl_cons, List.foldl_cons, List.foldl_cons]
    exact foldl_addTriple_congr (addTriple_comm_perm g y x)
  | trans p1 p2 ih1 ih2 =>
    intro g
    exact (ih1 g).trans (ih2 g)

theorem map_foldl_addTriple {ρ : Nat → Nat} (hinj : Function.Injective ρ) :
    ∀ (l : List Triple) (g : Graph),
      (l.foldl addTriple g).map (renameTriple ρ)
        = (l.map (renameTriple ρ)).foldl addTriple (g.map (renameTriple ρ)) := by
  intro l
  induction l with
  | nil => intro g; rfl
  | cons t ts ih =>
    intro g
    rw [List.foldl_cons, ih, map_addTriple hinj, List.map_cons, List.foldl_cons]

theorem renameNode_fixed_of_blankLt {ρ : Nat → Nat} {c : Nat}
    (hfixlt : ∀ n, n < c → ρ n = n) {nd : Node} (h : blankLt c nd) :
    renameNode ρ nd = nd := by
  cases nd with
  | uri s => rfl
  | lit s => rfl
  | blank n => exact congrArg Node.blank (hfixlt n h)

theorem map_rename_fixed {ρ : Nat → Nat} {c : Nat} (hfixlt : ∀ n, n < c → ρ n = n)
    {g : Graph} (hb : graphBlanksLt g c) : g.map (renameTriple ρ) = g := by
  rw [List.map_congr_left (fun t ht =>
    renameTriple_fixed (renameNode_fixed_of_blankLt hfixlt (hb t ht).1)
      (renameNode_fixed_of_blankLt hfixlt (hb t ht).2))]
  exact List.map_id' g

theorem fresh_eq_foldl (g : Graph) (cnt : Nat) (lic : ExtractedLicense) :
    create_extracted_license_fresh g cnt lic = (freshTriples cnt lic).foldl addTriple g := by
  have hN : ∀ b, addNameTriple cnt lic.full_name b
      = (nameTriples cnt lic.full_name).foldl addTriple b := by
    intro b
    cases lic.full_name <;> rfl
  have hC : ∀ b, addCommentTriple cnt lic.comment b
      = (commentTriples cnt lic.comment).foldl addTriple b := by
    intro b
    cases lic.comment <;> rfl
  have hS : ∀ b, addSeeAlsoTriples cnt lic.cross_ref b
      = (lic.cross_ref.map
          (fun r => (⟨.blank cnt, rdfsSeeAlsoPred, .uri r⟩ : Triple))).foldl addTriple b := by
    intro b
    rw [List.foldl_map]
    rfl
  unfold create_extracted_license_fresh freshTriples
  rw [List.foldl_cons, List.foldl_cons, List.foldl_cons, List.foldl_append,
    List.foldl_append, hN, hS, hC]

theorem freshTriples_rename {ρ : Nat → Nat} {c c' : Nat} (hc : ρ c = c')
    (lic : ExtractedLicense) :
    (freshTriples c lic).map (renameTriple ρ) = freshTriples c' lic := by
  have hblank : renameNode ρ (.blank c) = .blank c' := by
    rw [← hc]
    rfl
  unfold freshTriples nameTriples commentTriples
  cases lic.full_name <;> cases lic.comment <;>
    simp [renameTriple, hblank, renameNode_uri, renameNode_lit, renameNode_to_special,
      List.map_map, Function.comp]

theorem extrStep_sim {ρ : Nat → Nat} {s1 s2 : Graph × Nat}
    (h : Sim ρ s1 s2) (lic : ExtractedLicense) :
    Sim ρ (extrStep docNode s1 lic) (extrStep docNode s2 lic) := by
  rcases s1 with ⟨g1, c1⟩
  rcases s2 with ⟨g2, c2⟩
  unfold extrStep
  obtain ⟨hn, hbn, hs⟩ := create_extracted_license_sim h lic
  dsimp only
  rcases h1 : create_extracted_license g1 c1 lic with ⟨n1, ng1, nc1⟩
  rcases h2 : create_extracted_license g2 c2 lic with ⟨n2, ng2, nc2⟩
  rw [h1, h2] at hn hs
  rw [h1] at hbn
  dsimp only at hn hbn hs ⊢
  have hstep := @Sim_addTriple ρ ng1 ng2 nc1 nc2
    ⟨docNode, hasExtractedLicensingInfoPred, n1⟩ hs (blankLt_uri _ _) hbn
    (by decide : (hasExtractedLicensingInfoPred == licenseIdPred) = false)
  have hren : renameTriple ρ (⟨docNode, hasExtractedLicensingInfoPred, n1⟩ : Triple)
      = ⟨docNode, hasExtractedLicensingInfoPred, n2⟩ := by
    unfold renameTriple
    dsimp only
    rw [← hn]
    rfl
  rw [hren] at hstep
  exact hstep

theorem extrFold_sim {ρ : Nat → Nat} :
    ∀ (lics : List ExtractedLicense) {s1 s2 : Graph × Nat},
      Sim ρ s1 s2 →
      Sim ρ (lics.foldl (extrStep docNode) s1) (lics.foldl (extrStep docNode) s2) := by
  intro lics
  induction lics with
  | nil => exact fun h => h
  | cons l ls ih =>
    intro s1 s2 h
    rw [List.foldl_cons, List.foldl_cons]
    exact ih (extrStep_sim h l)

theorem extrStep_present {g : Graph} {c : Nat} {lic : ExtractedLicense} {t : Triple}
    {ts : List Triple} (hf : licFilter g lic.identifier = t :: ts) :
    extrStep docNode (g, c) lic
      = (addTriple g ⟨docNode, hasExtractedLicensingInfoPred, t.subj⟩, c) := by
  unfold extrStep create_extracted_license
  unfold licFilter at hf
  rw [hf]

theorem extrStep_fresh {g : Graph} {c : Nat} {lic : ExtractedLicense}
    (hf : licFilter g lic.identifier = []) :
    extrStep docNode (g, c) lic
      = ((freshTriples c lic
          ++ [(⟨docNode, hasExtractedLicensingInfoPred, .blank c⟩ : Triple)]).foldl
            addTriple g,
        c + 1) := by
  unfold extrStep create_extracted_license
  unfold licFilter at hf
  rw [hf, fresh_eq_foldl, List.foldl_append]
  rfl

theorem licFilter_addTriple_other {g : Graph} {t : Triple} {idf : String}
    (h : (t.pred == licenseIdPred && t.obj == Node.lit idf) = false) :
    licFilter (addTriple g t) idf = licFilter g idf :=
  addTriple_filter_of_neg g t _ h

theorem licFilter_foldl_stable {l : List Triple} {idf : String}
    (h : ∀ t ∈ l, (t.pred == licenseIdPred && t.obj == Node.lit idf) = false)
    (g : Graph) :
    licFilter (l.foldl addTriple g) idf = licFilter g idf := by
  induction l generalizing g with
  | nil => rfl
  | cons t ts ih =>
    rw [List.foldl_cons, ih (fun u hu => h u (List.mem_cons_of_mem t hu)),
      licFilter_addTriple_other (h t (List.mem_cons_self t ts))]

theorem freshTriples_no_other_id {c : Nat} {lic : ExtractedLicense} {idf : String}
    (hne : lic.identifier ≠ idf) :
    ∀ t ∈ freshTriples c lic
        ++ [(⟨docNode, hasExtractedLicensingInfoPred, .blank c⟩ : Triple)],
      (t.pred == licenseIdPred && t.obj == Node.lit idf) = false := by
  intro t ht
  rcases List.mem_append.1 ht with ht | ht
  · unfold freshTriples at ht
    rcases List.mem_cons.1 ht with rfl | ht
    · exact pred_and_false (show (rdfTypePred == licenseIdPred) = false by decide)
    rcases List.mem_cons.1 ht with rfl | ht
    · dsimp only
      rw [Bool.and_eq_false_iff]
      right
      rw [beq_eq_false_iff_ne]
      intro hcontra
      injection hcontra with hid
      exact hne hid
    rcases List.mem_cons.1 ht with rfl | ht
    · exact pred_and_false (show (extractedTextPred == licenseIdPred) = false by decide)
    rcases List.mem_append.1 ht with ht | ht
    · rcases List.mem_append.1 ht with ht | ht
      · unfold nameTriples at ht
        rcases hfn : lic.full_name with _ | nm
        · rw [hfn] at ht
          exact absurd ht (List.not_mem_nil t)
        · rw [hfn] at ht
          rcases List.mem_singleton.1 ht with rfl
          exact pred_and_false (show (licenseNamePred == licenseIdPred) = false by decide)
      · rcases List.mem_map.1 ht with ⟨r, _, rfl⟩
        exact pred_and_false (show (rdfsSeeAlsoPred == licenseIdPred) = false by decide)
    · unfold commentTriples at ht
      rcases hcm : lic.comment with _ | cm
      · rw [hcm] at ht
        exact absurd ht (List.not_mem_nil t)
      · rw [hcm] at ht
        rcases List.mem_singleton.1 ht with rfl
        exact pred_and_false (show (rdfsCommentPred == licenseIdPred) = false by decide)
  · rcases List.mem_singleton.1 ht with rfl
    exact pred_and_false
      (show (hasExtractedLicensingInfoPred == licenseIdPred) = false by decide)

theorem extrList_rename {ρ : Nat → Nat} {a b : Nat} (hab : ρ a = b)
    (lic : ExtractedLicense) :
    ((freshTriples a lic
        ++ [(⟨docNode, hasExtractedLicensingInfoPred, .blank a⟩ : Triple)]).map
      (renameTriple ρ))
    = freshTriples b lic
        ++ [(⟨docNode, hasExtractedLicensingInfoPred, .blank b⟩ : Triple)] := by
  rw [List.map_append, freshTriples_rename hab, List.map_singleton]
  have hE : renameTriple ρ (⟨docNode, hasExtractedLicensingInfoPred, .blank a⟩ : Triple)
      = ⟨docNode, hasExtractedLicensingInfoPred, .blank b⟩ := by
    unfold renameTriple
    dsimp only
    rw [show renameNode ρ (.blank a) = .blank b from by rw [← hab]; rfl]
    rfl
  rw [hE]

theorem hasExtr_not_licenseId {n : Node} {idf : String} :
    ((⟨docNode, hasExtractedLicensingInfoPred, n⟩ : Triple).pred == licenseIdPred
      && (⟨docNode, hasExtractedLicensingInfoPred, n⟩ : Triple).obj == Node.lit idf)
    = false :=
  pred_and_false (show (hasExtractedLicensingInfoPred == licenseIdPred) = false by decide)

theorem extrStep_swap {g : Graph} {c : Nat} {x y : ExtractedLicense}
    (hxy : y.identifier ≠ x.identifier)
    (hb : graphBlanksLt g c) (hu : uniqLic g) :
    ∃ ρ : Nat → Nat, Sim ρ (extrStep docNode (extrStep docNode (g, c) y) x)
      (extrStep docNode (extrStep docNode (g, c) x) y) := by
  have hA := extrStep_sim (extrStep_sim (Sim_refl hb hu) y) x
  cases hfy : licFilter g y.identifier with
  | cons ty tys =>
    cases hfx : licFilter g x.identifier with
    | cons tx txs =>
      have eq1y := extrStep_present (c := c) hfy
      have sx : licFilter (addTriple g
          ⟨docNode, hasExtractedLicensingInfoPred, ty.subj⟩) x.identifier = tx :: txs := by
        rw [licFilter_addTriple_other hasExtr_not_licenseId]
        exact hfx
      have eq2x := extrStep_present (c := c) sx
      have eq1x := extrStep_present (c := c) hfx
      have sy : licFilter (addTriple g
          ⟨docNode, hasExtractedLicensingInfoPred, tx.subj⟩) y.identifier = ty :: tys := by
        rw [licFilter_addTriple_other hasExtr_not_licenseId]
        exact hfy
      have eq2y := extrStep_present (c := c) sy
      refine ⟨id, ?_, Function.bijective_id, fun _ _ => rfl, ?_, hA.blanks, hA.uniq⟩
      · rw [eq1y, eq2x, eq1x, eq2y]
      · rw [eq1y, eq2x, eq1x, eq2y]
        dsimp only
        rw [map_renameTriple_id]
        exact addTriple_comm_perm g _ _
    | nil =>
      have eq1y := extrStep_present (c := c) hfy
      have sx : licFilter (addTriple g
          ⟨docNode, hasExtractedLicensingInfoPred, ty.subj⟩) x.identifier = [] := by
        rw [licFilter_addTriple_other hasExtr_not_licenseId]
        exact hfx
      have eq2x := extrStep_fresh (c := c) sx
      have eq1x := extrStep_fresh (c := c) hfx
      have sy : licFilter ((freshTriples c x
          ++ [(⟨docNode, hasExtractedLicensingInfoPred, .blank c⟩ : Triple)]).foldl
            addTriple g) y.identifier = ty :: tys := by
        rw [licFilter_foldl_stable (freshTriples_no_other_id hxy.symm)]
        exact hfy
      have eq2y := extrStep_present (c := c + 1) sy
      refine ⟨id, ?_, Function.bijective_id, fun _ _ => rfl, ?_, hA.blanks, hA.uniq⟩
      · rw [eq1y, eq2x, eq1x, eq2y]
      · rw [eq1y, eq2x, eq1x, eq2y]
        dsimp only
        rw [map_renameTriple_id]
        have h1 : (freshTriples c x
            ++ [(⟨docNode, hasExtractedLicensingInfoPred, .blank c⟩ : Triple)]).foldl
              addTriple
              (addTriple g ⟨docNode, hasExtractedLicensingInfoPred, ty.subj⟩)
            = ((⟨docNode, hasExtractedLicensingInfoPred, ty.subj⟩ : Triple)
                :: (freshTriples c x
                  ++ [(⟨docNode, hasExtractedLicensingInfoPred, .blank c⟩ : Triple)])).foldl
                addTriple g := by
          rw [List.foldl_cons]
        have h2 : addTriple ((freshTriples c x
            ++ [(⟨docNode, hasExtractedLicensingInfoPred, .blank c⟩ : Triple)]).foldl
              addTriple g) ⟨docNode, hasExtractedLicensingInfoPred, ty.subj⟩
            = ((freshTriples c x
                ++ [(⟨docNode, hasExtractedLicensingInfoPred, .blank c⟩ : Triple)])
                ++ [(⟨docNode, hasExtractedLicensingInfoPred, ty.subj⟩ : Triple)]).foldl
                addTriple g := by
          simp [List.foldl_append]
        rw [h1, h2]
        exact foldl_addTriple_perm (List.perm_append_singleton _ _).symm g
  | nil =>
    cases hfx : licFilter g x.identifier with
    | cons tx txs =>
      have eq1y := extrStep_fresh (c := c) hfy
      have sx : licFilter ((freshTriples c y
          ++ [(⟨docNode, hasExtractedLicensingInfoPred, .blank c⟩ : Triple)]).foldl
            addTriple g) x.identifier = tx :: txs := by
        rw [licFilter_foldl_stable (freshTriples_no_other_id hxy)]
        exact hfx
      have eq2x := extrStep_present (c := c + 1) sx
      have eq1x := extrStep_present (c := c) hfx
      have sy : licFilter (addTriple g
          ⟨docNode, hasExtractedLicensingInfoPred, tx.subj⟩) y.identifier = [] := by
        rw [licFilter_addTriple_other hasExtr_not_licenseId]
        exact hfy
      have eq2y := extrStep_fresh (c := c) sy
      refine ⟨id, ?_, Function.bijective_id, fun _ _ => rfl, ?_, hA.blanks, hA.uniq⟩
      · rw [eq1y, eq2x, eq1x, eq2y]
      · rw [eq1y, eq2x, eq1x, eq2y]
        dsimp only
        rw [map_renameTriple_id]
        have h1 : addTriple ((freshTriples c y
            ++ [(⟨docNode, hasExtractedLicensingInfoPred, .blank c⟩ : Triple)]).foldl
              addTriple g) ⟨docNode, hasExtractedLicensingInfoPred, tx.subj⟩
            = ((freshTriples c y
                ++ [(⟨docNode, hasExtractedLicensingInfoPred, .blank c⟩ : Triple)])
                ++ [(⟨docNode, hasExtractedLicensingInfoPred, tx.subj⟩ : Triple)]).foldl
                addTriple g := by
          simp [List.foldl_append]
        have h2 : (freshTriples c y
            ++ [(⟨docNode, hasExtractedLicensingInfoPred, .blank c⟩ : Triple)]).foldl
              addTriple
              (addTriple g ⟨docNode, hasExtractedLicensingInfoPred, tx.subj⟩)
            = ((⟨docNode, hasExtractedLicensingInfoPred, tx.subj⟩ : Triple)
                :: (freshTriples c y
                  ++ [(⟨docNode, hasExtractedLicensingInfoPred, .blank c⟩ : Triple)])).foldl
                addTriple g := by
          rw [List.foldl_cons]
        rw [h1, h2]
        exact foldl_addTriple_perm (List.perm_append_singleton _ _) g
    | nil =>
      have eq1y := extrStep_fresh (c := c) hfy
      have sx : licFilter ((freshTriples c y
          ++ [(⟨docNode, hasExtractedLicensingInfoPred, .blank c⟩ : Triple)]).foldl
            addTriple g) x.identifier = [] := by
        rw [licFilter_foldl_stable (freshTriples_no_other_id hxy)]
        exact hfx
      have eq2x := extrStep_fresh (c := c + 1) sx
      have eq1x := extrStep_fresh (c := c) hfx
      have sy : licFilter ((freshTriples c x
          ++ [(⟨docNode, hasExtractedLicensingInfoPred, .blank c⟩ : Triple)]).foldl
            addTriple g) y.identifier = [] := by
        rw [licFilter_foldl_stable (freshTriples_no_other_id hxy.symm)]
        exact hfy
      have eq2y := extrStep_fresh (c := c + 1) sy
      have hswapl : (Equiv.swap c (c + 1)) c = c + 1 := Equiv.swap_apply_left c (c + 1)
      have hswapr : (Equiv.swap c (c + 1)) (c + 1) = c := Equiv.swap_apply_right c (c + 1)
      have hfixlt : ∀ n, n < c → (Equiv.swap c (c + 1)) n = n := by
        intro n hn
        exact Equiv.swap_apply_of_ne_of_ne (Nat.ne_of_lt hn)
          (Nat.ne_of_lt (Nat.lt_succ_of_lt hn))
      refine ⟨fun n => Equiv.swap c (c + 1) n, ?_, (Equiv.swap c (c + 1)).bijective, ?_, ?_,
        hA.blanks, hA.uniq⟩
      · rw [eq1y, eq2x, eq1x, eq2y]
      · intro n hn
        rw [eq1y, eq2x] at hn
        have hn2 : c + 2 ≤ n := hn
        exact Equiv.swap_apply_of_ne_of_ne
          (by omega) (by omega)
      · rw [eq1y, eq2x, eq1x, eq2y]
        dsimp only
        have hstep1 : (freshTriples (c + 1) x
            ++ [(⟨docNode, hasExtractedLicensingInfoPred, .blank (c + 1)⟩ : Triple)]).foldl
              addTriple
              ((freshTriples c y
                ++ [(⟨docNode, hasExtractedLicensingInfoPred, .blank c⟩ : Triple)]).foldl
                addTriple g)
            = ((freshTriples c y
                ++ [(⟨docNode, hasExtractedLicensingInfoPred, .blank c⟩ : Triple)])
                ++ (freshTriples (c + 1) x
                  ++ [(⟨docNode, hasExtractedLicensingInfoPred,
                    .blank (c + 1)⟩ : Triple)])).foldl addTriple g := by
          simp [List.foldl_append]
        have hstep2 : (freshTriples (c + 1) y
            ++ [(⟨docNode, hasExtractedLicensingInfoPred, .blank (c + 1)⟩ : Triple)]).foldl
              addTriple
              ((freshTriples c x
                ++ [(⟨docNode, hasExtractedLicensingInfoPred, .blank c⟩ : Triple)]).foldl
                addTriple g)
            = ((freshTriples c x
                ++ [(⟨docNode, hasExtractedLicensingInfoPred, .blank c⟩ : Triple)])
                ++ (freshTriples (c + 1) y
                  ++ [(⟨docNode, hasExtractedLicensingInfoPred,
                    .blank (c + 1)⟩ : Triple)])).foldl addTriple g := by
          simp [List.foldl_append]
        rw [hstep1, hstep2,
          map_foldl_addTriple (Equiv.swap c (c + 1)).bijective.injective,
          map_rename_fixed hfixlt hb, List.map_append,
          extrList_rename hswapl y, extrList_rename hswapr x]
        exact foldl_addTriple_perm (List.perm_append_comm) g

theorem writeExtractedLicenses_perm {lics1 lics2 : List ExtractedLicense}
    (hp : lics1.Perm lics2) :
    (lics1.map ExtractedLicense.identifier).Nodup →
    ∀ {ρ : Nat → Nat} {g1 g2 : Graph} {c1 c2 : Nat}, Sim ρ (g1, c1) (g2, c2) →
    ∃ ρ' : Nat → Nat, Sim ρ' (writeExtractedLicenses docNode lics1 g1 c1)
      (writeExtractedLicenses docNode lics2 g2 c2) := by
  induction hp with
  | nil =>
    intro _ ρ g1 g2 c1 c2 h
    exact ⟨ρ, h⟩
  | cons z p ih =>
    intro hnodup ρ g1 g2 c1 c2 h
    unfold writeExtractedLicenses at ih ⊢
    rw [List.foldl_cons, List.foldl_cons]
    have hstep := extrStep_sim h z
    rcases hz1 : extrStep docNode (g1, c1) z with ⟨G1, C1⟩
    rcases hz2 : extrStep docNode (g2, c2) z with ⟨G2, C2⟩
    rw [hz1, hz2] at hstep
    refine ih ?_ hstep
    rw [List.map_cons] at hnodup
    exact (List.nodup_cons.1 hnodup).2
  | swap a b l =>
    intro hnodup ρ g1 g2 c1 c2 h
    have hnodup' := hnodup
    rw [List.map_cons, List.map_cons] at hnodup'
    have hba : b.identifier ≠ a.identifier := by
      intro heq
      exact (List.nodup_cons.1 hnodup').1 (heq ▸ List.mem_cons_self _ _)
    have h2 := extrStep_sim (extrStep_sim h b) a
    obtain ⟨hb2, hu2⟩ := Sim_inv_transfer h
    obtain ⟨ρs, hs⟩ := extrStep_swap hba hb2 hu2
    unfold writeExtractedLicenses
    rw [List.foldl_cons, List.foldl_cons, List.foldl_cons, List.foldl_cons]
    exact ⟨ρs ∘ ρ, extrFold_sim l (Sim_trans h2 hs)⟩
  | trans p1 p2 ih1 ih2 =>
    intro hnodup ρ g1 g2 c1 c2 h
    obtain ⟨ρa, ha⟩ := ih1 hnodup h
    have hnodup2 := (p1.map ExtractedLicense.identifier).nodup hnodup
    obtain ⟨hbv, huv⟩ := Sim_inv_transfer h
    obtain ⟨ρb, hbb⟩ := ih2 hnodup2 (Sim_refl hbv huv)
    exact ⟨ρb ∘ ρa, Sim_trans ha hbb⟩

theorem writeGraph_iso (doc : WDoc) (lics2 : List ExtractedLicense)
    (hperm : doc.extracted_licenses.Perm lics2)
    (hnodup : (doc.extracted_licenses.map ExtractedLicense.identifier).Nodup) :
    ExcOk IsoGraphs (writeGraph doc)
      (writeGraph { doc with extracted_licenses := lics2 }) := by
  unfold writeGraph
  rw [show create_doc { doc with extracted_licenses := lics2 } [] 0
      = create_doc doc [] 0 from rfl]
  dsimp only
  obtain ⟨hdmn, hdb, hds⟩ := create_doc_sim Sim_empty doc
  rcases hd : create_doc doc [] 0 with ⟨dn, dg, dc⟩
  have hdn : docNode = dn := congrArg (fun r => r.1) hd
  subst hdn
  rw [hd] at hds
  dsimp only at hds
  obtain ⟨hcin, hcib, hcis⟩ := create_creation_info_sim hds doc.creation_info
  rcases hci : create_creation_info doc.creation_info dg dc with ⟨cin, cig, cic⟩
  rw [hci] at hcin hcib hcis
  dsimp only at hcin hcib hcis
  have hadd1 := @Sim_addTriple id cig cig cic cic ⟨docNode, creationInfoPred, cin⟩ hcis
    (blankLt_uri _ _) hcib (by decide : (creationInfoPred == licenseIdPred) = false)
  rw [renameTriple_id] at hadd1
  have hrev := writeReviews_sim doc.reviews hadd1
  rcases hrv : writeReviews docNode doc.reviews
      (addTriple cig ⟨docNode, creationInfoPred, cin⟩) cic with ⟨rg, rc⟩
  rw [hrv] at hrev
  have hext := writeExtDocRefs_sim doc.ext_document_references hrev
  rcases hxr : writeExtDocRefs docNode doc.ext_document_references rg rc with ⟨xg, xc⟩
  rw [hxr] at hext
  obtain ⟨ρ1, hextr⟩ := writeExtractedLicenses_perm hperm hnodup hext
  rcases he1 : writeExtractedLicenses docNode doc.extracted_licenses xg xc with ⟨eg1, ec1⟩
  rcases he2 : writeExtractedLicenses docNode lics2 xg xc with ⟨eg2, ec2⟩
  rw [he1, he2] at hextr
  have hfl := writeFiles_sim hperm hnodup doc.package.files hextr
  rcases hf1 : writeFiles doc.extracted_licenses docNode doc.package.files eg1 ec1
    with e1 | fr1
  · rcases hf2 : writeFiles lics2 docNode doc.package.files eg2 ec2 with e2 | fr2
    · trivial
    · rw [hf1, hf2] at hfl
      exact hfl.elim
  · rcases hf2 : writeFiles lics2 docNode doc.package.files eg2 ec2 with e2 | fr2
    · rw [hf1, hf2] at hfl
      exact hfl.elim
    · rw [hf1, hf2] at hfl
      obtain ⟨fg1, fc1⟩ := fr1
      obtain ⟨fg2, fc2⟩ := fr2
      have hfcc : fc1 = fc2 := hfl.cntEq
      subst hfcc
      dsimp only
      have hdep := add_file_dependencies_full_sim doc.package.files hfl
      rcases hdp1 : add_file_dependencies_full fg1 doc.package.files with e1 | pg1
      · rcases hdp2 : add_file_dependencies_full fg2 doc.package.files with e2 | pg2
        · trivial
        · rw [hdp1, hdp2] at hdep
          exact hdep.elim
      · rcases hdp2 : add_file_dependencies_full fg2 doc.package.files with e2 | pg2
        · rw [hdp1, hdp2] at hdep
          exact hdep.elim
        · rw [hdp1, hdp2] at hdep
          dsimp only
          have hpkg := create_package_node_sim hperm hnodup hdep doc.package
          rcases hp1 : create_package_node doc.extracted_licenses doc.package pg1 fc1
            with e1 | pr1
          · rcases hp2 : create_package_node lics2 doc.package pg2 fc1 with e2 | pr2
            · trivial
            · rw [hp1, hp2] at hpkg
              exact hpkg.elim
          · rcases hp2 : create_package_node lics2 doc.package pg2 fc1 with e2 | pr2
            · rw [hp1, hp2] at hpkg
              exact hpkg.elim
            · rw [hp1, hp2] at hpkg
              obtain ⟨pn1, pgg1, pc1⟩ := pr1
              obtain ⟨pn2, pgg2, pc2⟩ := pr2
              obtain ⟨hpn, hpb, hps⟩ := hpkg
              dsimp only at hpn hpb hps ⊢
              have hpcc : pc1 = pc2 := hps.cntEq
              subst hpcc
              have hadd2 := @Sim_addTriple ρ1 pgg1 pgg2 pc1 pc1
                ⟨docNode, describesPackagePred, pn1⟩ hps (blankLt_uri _ _) hpb
                (by decide : (describesPackagePred == licenseIdPred) = false)
              have hren2 : renameTriple ρ1
                  (⟨docNode, describesPackagePred, pn1⟩ : Triple)
                  = ⟨docNode, describesPackagePred, pn2⟩ := by
                unfold renameTriple
                dsimp only
                rw [← hpn]
                rfl
              rw [hren2] at hadd2
              have hsn := writeSnippets_sim hperm hnodup doc.snippets hadd2
              rcases hs1 : writeSnippets doc.extracted_licenses docNode doc.snippets
                  (addTriple pgg1 ⟨docNode, describesPackagePred, pn1⟩) pc1
                with e1 | sr1
              · rcases hs2 : writeSnippets lics2 docNode doc.snippets
                    (addTriple pgg2 ⟨docNode, describesPackagePred, pn2⟩) pc1
                  with e2 | sr2
                · trivial
                · rw [hs1, hs2] at hsn
                  exact hsn.elim
              · rcases hs2 : writeSnippets lics2 docNode doc.snippets
                    (addTriple pgg2 ⟨docNode, describesPackagePred, pn2⟩) pc1
                  with e2 | sr2
                · rw [hs1, hs2] at hsn
                  exact hsn.elim
                · rw [hs1, hs2] at hsn
                  obtain ⟨sg1, sc1⟩ := sr1
                  obtain ⟨sg2, sc2⟩ := sr2
                  exact ⟨ρ1, hsn.bij, hsn.rel⟩


theorem collapseBlank_iso_invariant (g1 g2 : Graph) (h : IsoGraphs g1 g2) :
    collapseBlank g1 = collapseBlank g2 := by
  obtain ⟨ρ, hbij, hperm⟩ := h
  unfold collapseBlank
  have hmap : (g1.map (renameTriple ρ)).map (renameTriple (fun _ => 0))
      = g1.map (renameTriple (fun _ => 0)) := by
    rw [List.map_map]
    exact List.map_congr_left fun t _ => renameTriple_comp ρ (fun _ => 0) t
  have hperm2 := hperm.map (renameTriple (fun _ => 0))
  rw [hmap] at hperm2
  exact Quot.sound hperm2

/-- C8: two validated documents identical except for the insertion order of
their extracted licenses produce byte-identical serialized RDF output, for
any serialization that is invariant under graph isomorphism (modelling
rdflib `to_isomorphic` followed by `serialize`): either both writer runs
fail, or both succeed and the serialized outputs are equal. -/
theorem write_output_invariant_under_extracted_reorder
    {Output : Type} (serialize : Graph → Output)
    (hser : ∀ g1 g2 : Graph, IsoGraphs g1 g2 → serialize g1 = serialize g2)
    (doc : WDoc) (lics2 : List ExtractedLicense)
    (hperm : doc.extracted_licenses.Perm lics2)
    (hnodup : (doc.extracted_licenses.map ExtractedLicense.identifier).Nodup) :
    (writeGraph doc).toOption.map serialize
      = (writeGraph { doc with extracted_licenses := lics2 }).toOption.map serialize := by
  have h := writeGraph_iso doc lics2 hperm hnodup
  cases h1 : writeGraph doc with
  | error e1 =>
    cases h2 : writeGraph { doc with extracted_licenses := lics2 } with
    | error e2 => rfl
    | ok g2 =>
      rw [h1, h2] at h
      exact h.elim
  | ok g1 =>
    cases h2 : writeGraph { doc with extracted_licenses := lics2 } with
    | error e2 =>
      rw [h1, h2] at h
      exact h.elim
    | ok g2 =>
      rw [h1, h2] at h
      show some (serialize g1) = some (serialize g2)
      rw [hser g1 g2 h]

theorem write_output_invariant_under_extracted_reorder_witness :
    (writeGraph wdocW).toOption.map collapseBlank
      = (writeGraph { wdocW with extracted_licenses := [licBW, licAW] }).toOption.map
        collapseBlank :=
  write_output_invariant_under_extracted_reorder collapseBlank
    collapseBlank_iso_invariant wdocW [licBW, licAW]
    (List.Perm.swap licBW licAW []) (by decide)

theorem create_extracted_license_dedup_by_identifier_witness :
    create_extracted_license (create_extracted_license [] 0 licAW).2.1
        (create_extracted_license [] 0 licAW).2.2 licA2W
      = ((create_extracted_license [] 0 licAW).1,
        (create_extracted_license [] 0 licAW).2.1,
        (create_extracted_license [] 0 licAW).2.2) :=
  create_extracted_license_dedup_by_identifier [] 0 licAW licA2W rfl

end SpdxTool
